import Mathlib

/-!
# Verification of the `login` command (`command/v6/login_command.go`)

This file is a shallow embedding of the login command of the CLI repository.
External collaborators (UI, actor, config store, version checker) are modelled
by an `Env` of pre-determined responses plus consumable streams (interactive
inputs, authentication results) held in the mutable state `St`.  Every UI or
collaborator interaction is additionally recorded as an `Event`, so that
temporal claims (ordering of prompts, number of `Authenticate` calls, status
rendering) become claims about the produced event list.

The defining functions mirror the Go source line by line:
`execute` ↔ `Execute`, `authenticate` / `authenticateSSO` ↔ the two retry
flows, `passwordPrompts`, `promptChosenOrg`, `checkMinCLIVersion`,
`showStatus`.  Go maps are embedded as association lists (`Credmap`,
prompt schemas); quantifying over all list orders covers Go's unordered map
iteration.
-/

set_option maxHeartbeats 1000000

namespace LoginCmd

/-- `coreconfig.AuthPromptType`: the two prompt kinds (`text`, `password`). -/
inductive AuthPromptType where
  | text
  | password
deriving DecidableEq, Repr

/-- `coreconfig.AuthPrompt`: a server-declared prompt (kind and display label). -/
structure AuthPrompt where
  type : AuthPromptType
  displayName : String
deriving DecidableEq, Repr

/-- The Go `error` values that can flow through the login command.
Constructors correspond to the error values constructed or tested by the
source: `translatableerror.UnrefactoredCommandError`,
`translatableerror.ArgumentCombinationError`, the two `errors.New` literals in
`Execute`, `uaa.AccountLockedError`, `io.EOF`, the `errors.New` literal in
`promptChosenOrg`, and arbitrary collaborator errors (`other`). -/
inductive GoError where
  | unrefactoredCommand
  | argumentCombination (args : List String)
  | serviceAccount
  | unableToAuthenticate
  | accountLocked (msg : String)
  | eof
  | errorChoosingOrg
  | other (msg : String)
deriving DecidableEq, Repr

/-- `uaa.AccountLockedError` type test (`_, ok := err.(uaa.AccountLockedError)`). -/
def isAccountLocked : GoError → Bool
  | .accountLocked _ => true
  | _ => false

/-- Rendering of `translatableerror.ConvertToTranslatableError(err).Error()`.
The conversion lives outside `src/`; the claims never inspect the produced
warning text, only that a warning is displayed, so any total rendering is
adequate here. -/
def errText : GoError → String
  | .unrefactoredCommand => "This command has not been refactored"
  | .argumentCombination _ => "argument combination error"
  | .serviceAccount => "Service account currently logged in. Use 'cf logout' to log out service account and try again."
  | .unableToAuthenticate => "Unable to authenticate."
  | .accountLocked m => m
  | .eof => "EOF"
  | .errorChoosingOrg => "Error Choosing Organization"
  | .other m => m

/-- `v3action.Organization` restricted to the fields the command reads. -/
structure Organization where
  guid : String
  name : String
deriving DecidableEq, Repr

/-- The version checker produced by `CheckerMaker.NewVersionChecker`. -/
structure Checker where
  minCLIVersion : String
  cloudControllerAPIVersion : String
deriving DecidableEq, Repr

/-- Observable events of one login run: every UI display, every interactive
read, and every collaborator call, in program order.  `resolve k i a` records
that the credential for prompt key `k` was placed into the credential map
(`i` = collected interactively, `a` = retry-loop attempt number, `0` for the
pre-loop collection phase). -/
inductive Event where
  | warning (msg : String)
  | text (msg : String)
  | newline
  | okDisplayed
  | textPrompt (label : String)
  | passwordPrompt (label : String)
  | menuPrompt (choices : List String) (label : String)
  | resolve (key : String) (interactive : Bool) (attempt : Nat)
  | setTargetCall (url : String) (skipSSL : Bool)
  | loginPromptsCall
  | authCall (creds : List (String × String))
  | getOrgsCall
  | getOrgByNameCall (name : String)
  | newActorCall
  | newCheckerCall
  | setOrgInfo (guid : String) (name : String)
  | setMinCLI (v : String)
  | keyValueTable
deriving DecidableEq, Repr

/-- Go `map[string]string`, embedded as an association list with
replace-on-insert semantics (`m[k] = v`). -/
abbrev Credmap := List (String × String)

instance {ε α : Type} [DecidableEq ε] [DecidableEq α] : DecidableEq (Except ε α) := fun a b =>
  match a, b with
  | .ok x, .ok y =>
    if h : x = y then .isTrue (congrArg Except.ok h)
    else .isFalse (fun he => h (Except.ok.inj he))
  | .error x, .error y =>
    if h : x = y then .isTrue (congrArg Except.error h)
    else .isFalse (fun he => h (Except.error.inj he))
  | .ok _, .error _ => .isFalse (fun he => Except.noConfusion he)
  | .error _, .ok _ => .isFalse (fun he => Except.noConfusion he)

/-- `m[k] = v` on a Go string map. -/
def mapSet (m : Credmap) (k v : String) : Credmap :=
  if (List.lookup k m).isSome then
    m.map (fun p => if p.1 = k then (k, v) else p)
  else
    m ++ [(k, v)]

/-- The parsed command-line flags of `LoginCommand` (received already parsed,
as the spec states).  The fields that the command mutates during the run
(`APIEndpoint`, `Password`, `SSOPasscode`) additionally live in `St`. -/
structure Flags where
  apiEndpoint : String
  organization : String
  password : String
  space : String
  skipSSLValidation : Bool
  sso : Bool
  ssoPasscode : String
  username : String
deriving DecidableEq, Repr

/-- Responses of the external collaborators (config store, actor factory,
actor, version-checker factory), fixed for one run. -/
structure Env where
  experimentalLogin : Bool
  configTarget : String
  configSkipSSL : Bool
  uaaGrantType : String
  currentUserName : String × Option GoError
  apiVersion : String
  binaryName : String
  setTargetResult : Option GoError
  reloadResult : Option GoError
  prompts : List (String × AuthPrompt)
  orgByName : List String × Except GoError Organization
  orgs : List String × Except GoError (List Organization)
  checkerResult : Except GoError Checker
  clientTooOld : Bool
deriving DecidableEq, Repr

/-- Mutable state threaded through the run: the command fields that the Go
code assigns to, the config-store fields it writes, and the two consumable
response streams (interactive reads and `Authenticate` outcomes). -/
structure St where
  apiEndpoint : String
  password : String
  ssoPasscode : String
  targetedOrgName : String
  minCLIVersion : Option String
  inputs : List (Except GoError String)
  authResults : List (Option GoError)
deriving DecidableEq, Repr

/-- Initial state of a run: command fields from the flags, config-store org
name from the environment, plus the two response streams. -/
def mkSt (fl : Flags) (orgName : String) (inputs : List (Except GoError String))
    (authResults : List (Option GoError)) : St :=
  { apiEndpoint := fl.apiEndpoint
    password := fl.password
    ssoPasscode := fl.ssoPasscode
    targetedOrgName := orgName
    minCLIVersion := none
    inputs := inputs
    authResults := authResults }

/-! ## Target URL normalization (`Execute`, lines 141–150)

Embeds `strings.TrimRight(endpoint, "/")`, Go's `url.Parse` restricted to the
scheme/authority/path components the command can produce (no user info,
query, fragment or percent-escaping — none arise from an endpoint flag), the
scheme defaulting, and `URL.String()`. -/

/-- ASCII lower-casing of one character, as `strings.ToLower` acts on the
scheme characters accepted by `url.getScheme`. -/
def asciiLower (c : Char) : Char :=
  if 'A' ≤ c ∧ c ≤ 'Z' then Char.ofNat (c.toNat + 32) else c

/-- Is `c` a letter, as in `url.getScheme`. -/
def isSchemeAlpha (c : Char) : Bool :=
  ('a' ≤ c ∧ c ≤ 'z') ∨ ('A' ≤ c ∧ c ≤ 'Z')

/-- Is `c` one of the non-initial scheme characters of `url.getScheme`. -/
def isSchemeRest (c : Char) : Bool :=
  ('0' ≤ c ∧ c ≤ '9') ∨ c = '+' ∨ c = '-' ∨ c = '.'

/-- `url.getScheme`: split `raw` into scheme and remainder.  Returns
`(scheme, rest)`; `scheme = []` when no scheme is present.  `first` tracks
whether we are at the first character. -/
def getSchemeAux (acc : List Char) (first : Bool) : List Char → (List Char × List Char) → (List Char × List Char)
  | [], whole => whole
  | c :: cs, whole =>
    if isSchemeAlpha c then getSchemeAux (acc ++ [c]) false cs whole
    else if isSchemeRest c then
      if first then whole else getSchemeAux (acc ++ [c]) false cs whole
    else if c = ':' then
      if first then whole else (acc, cs)
    else whole

/-- Scheme split of a raw URL, `([], raw)` when there is no scheme. -/
def getScheme (raw : List Char) : List Char × List Char :=
  getSchemeAux [] true raw ([], raw)

/-- The components of a parsed `net/url.URL` that the command can produce. -/
structure GoURL where
  scheme : List Char
  opaquePart : List Char
  host : List Char
  path : List Char
deriving DecidableEq, Repr

/-- `url.Parse` restricted as described above.  Mirrors: scheme detection,
`Opaque` for a rootless remainder after a scheme, `//`-authority splitting,
and the path fallback. -/
def goURLParse (raw : List Char) : GoURL :=
  let (scheme, rest) := getScheme raw
  let scheme := scheme.map asciiLower
  if scheme ≠ [] ∧ rest ≠ [] ∧ rest.head? ≠ some '/' then
    { scheme := scheme, opaquePart := rest, host := [], path := [] }
  else if rest.take 2 = ['/', '/'] then
    let afterSlashes := rest.drop 2
    let host := afterSlashes.takeWhile (· ≠ '/')
    let path := afterSlashes.dropWhile (· ≠ '/')
    { scheme := scheme, opaquePart := [], host := host, path := path }
  else
    { scheme := scheme, opaquePart := [], host := [], path := rest }

/-- `url.URL.String()` restricted to the components of `GoURL`. -/
def goURLString (u : GoURL) : List Char :=
  let start := if u.scheme ≠ [] then u.scheme ++ [':'] else []
  if u.opaquePart ≠ [] then start ++ u.opaquePart
  else
    let authority :=
      if u.scheme ≠ [] ∨ u.host ≠ [] then
        (if u.host ≠ [] ∨ u.path ≠ [] then ['/', '/'] else []) ++ u.host
      else []
    let slash :=
      if u.path ≠ [] ∧ u.path.head? ≠ some '/' ∧ u.host ≠ [] then ['/'] else []
    start ++ authority ++ slash ++ u.path

/-- `strings.TrimRight(s, "/")` on the character list. -/
def dropTrailingSlashes (l : List Char) : List Char :=
  (l.reverse.dropWhile (· = '/')).reverse

/-- `strings.TrimRight(s, "/")`. -/
def trimTrailingSlashes (s : String) : String :=
  ⟨dropTrailingSlashes s.data⟩

/-- Lines 141–145 and the `settings.URL` of line 148: trim trailing `/`,
parse, default a missing scheme to `https`, and re-render. -/
def computeTargetURL (endpoint : String) : String :=
  let u := goURLParse (trimTrailingSlashes endpoint).data
  let u := if u.scheme = [] then { u with scheme := "https".data } else u
  ⟨goURLString u⟩

/-! ## UI and collaborator primitives

Interactive reads consume the head of `St.inputs`; the stream abstracts a
console that can always produce an answer, so an exhausted stream reads as
the empty answer, and read failures (including end-of-input, `io.EOF`) are
modelled by explicit `.error` entries.  `Actor.Authenticate` consumes the
head of `St.authResults` (`none` = success); an exhausted stream reads as
success.  Every primitive also returns the events it displayed, in order. -/

/-- `cmd.UI.DisplayTextPrompt(label)`. -/
def displayTextPrompt (label : String) (s : St) :
    Except GoError String × St × List Event :=
  match s.inputs with
  | [] => (.ok "", s, [.textPrompt label])
  | r :: rest => (r, { s with inputs := rest }, [.textPrompt label])

/-- `cmd.UI.DisplayPasswordPrompt(label)`. -/
def displayPasswordPrompt (label : String) (s : St) :
    Except GoError String × St × List Event :=
  match s.inputs with
  | [] => (.ok "", s, [.passwordPrompt label])
  | r :: rest => (r, { s with inputs := rest }, [.passwordPrompt label])

/-- `cmd.UI.DisplayTextMenu(choices, label)`. -/
def displayTextMenu (choices : List String) (label : String) (s : St) :
    Except GoError String × St × List Event :=
  match s.inputs with
  | [] => (.ok "", s, [.menuPrompt choices label])
  | r :: rest => (r, { s with inputs := rest }, [.menuPrompt choices label])

/-- `cmd.Actor.Authenticate(creds, "", constant.GrantTypePassword)`. -/
def actorAuthenticate (creds : Credmap) (s : St) :
    Option GoError × St × List Event :=
  match s.authResults with
  | [] => (none, s, [.authCall creds])
  | r :: rest => (r, { s with authResults := rest }, [.authCall creds])

/-- `cmd.UI.DisplayWarnings(warnings)`. -/
def warningEvents (ws : List String) : List Event :=
  ws.map Event.warning

/-! ## Credential collection (`authenticate`, lines 216–284, and
`passwordPrompts`, lines 338–367) -/

/-- Lines 220–231: resolve the `username` prompt first when present, using
the pre-supplied `-u` value only when the prompt kind is text, otherwise
prompting (as a text prompt), followed by a newline. -/
def usernameStep (uflag : String) (ps : List (String × AuthPrompt))
    (creds : Credmap) (s : St) : Except GoError Credmap × St × List Event :=
  match List.lookup "username" ps with
  | none => (.ok creds, s, [])
  | some p =>
    if p.type = .text ∧ uflag ≠ "" then
      (.ok (mapSet creds "username" uflag), s, [.resolve "username" false 0])
    else
      match displayTextPrompt p.displayName s with
      | (.error e, s', t) => (.error e, s', t)
      | (.ok v, s', t) =>
        (.ok (mapSet creds "username" v), s', t ++ [.resolve "username" true 0, .newline])

/-- Lines 233–251: iterate the prompt schema; collect the keys of secret
prompts other than `password`/`passcode` into `pks`, skip `username`, and
resolve every remaining (text) prompt interactively, each followed by a
newline. -/
def collectTextPrompts (ps : List (String × AuthPrompt)) (creds : Credmap)
    (pks : List String) (s : St) :
    Except GoError (Credmap × List String) × St × List Event :=
  match ps with
  | [] => (.ok (creds, pks), s, [])
  | (key, p) :: rest =>
    if p.type = .password then
      if key = "passcode" ∨ key = "password" then
        collectTextPrompts rest creds pks s
      else
        collectTextPrompts rest creds (pks ++ [key]) s
    else if key = "username" then
      collectTextPrompts rest creds pks s
    else
      match displayTextPrompt p.displayName s with
      | (.error e, s', t) => (.error e, s', t)
      | (.ok v, s', t) =>
        match collectTextPrompts rest (mapSet creds key v) pks s' with
        | (r, s'', t') => (r, s'', t ++ [.resolve key true 0, .newline] ++ t')

/-- Lines 353–359: prompt every deferred secret key (newline, then secret
prompt), in the collected order.  `attempt` is the ghost attempt number
recorded in the `resolve` events. -/
def collectSecretKeys (ps : List (String × AuthPrompt)) (keys : List String)
    (attempt : Nat) (creds : Credmap) (s : St) :
    Except GoError Credmap × St × List Event :=
  match keys with
  | [] => (.ok creds, s, [])
  | key :: rest =>
    match displayPasswordPrompt (((List.lookup key ps).map AuthPrompt.displayName).getD "") s with
    | (.error e, s', t) => (.error e, s', [.newline] ++ t)
    | (.ok v, s', t) =>
      match collectSecretKeys ps rest attempt (mapSet creds key v) s' with
      | (r, s'', t') => (r, s'', [.newline] ++ t ++ [.resolve key true attempt] ++ t')

/-- Lines 338–367 (`passwordPrompts`): resolve `password` first among the
secrets — consuming the pre-supplied `-p` value and clearing it, or
prompting — then the other secret keys, and finally return a defensive copy
of the credential map.  `.ok (copy, shared)` returns the copy passed to the
authenticator together with the (mutated) shared map retained by the caller. -/
def passwordPrompts (ps : List (String × AuthPrompt)) (creds : Credmap)
    (pks : List String) (attempt : Nat) (s : St) :
    Except GoError (Credmap × Credmap) × St × List Event :=
  match List.lookup "password" ps with
  | some passPrompt =>
    if s.password ≠ "" then
      let creds' := mapSet creds "password" s.password
      let s' := { s with password := "" }
      match collectSecretKeys ps pks attempt creds' s' with
      | (.error e, s'', t) => (.error e, s'', [.resolve "password" false attempt] ++ t)
      | (.ok c, s'', t) => (.ok (c, c), s'', [.resolve "password" false attempt] ++ t)
    else
      match displayPasswordPrompt passPrompt.displayName s with
      | (.error e, s', t) => (.error e, s', t)
      | (.ok v, s', t) =>
        match collectSecretKeys ps pks attempt (mapSet creds "password" v) s' with
        | (.error e, s'', t') => (.error e, s'', t ++ [.resolve "password" true attempt] ++ t')
        | (.ok c, s'', t') => (.ok (c, c), s'', t ++ [.resolve "password" true attempt] ++ t')
  | none =>
    match collectSecretKeys ps pks attempt creds s with
    | (.error e, s', t) => (.error e, s', t)
    | (.ok c, s', t) => (.ok (c, c), s', t)

/-- Fixed retry bound (`const maxLoginTries = 3`). -/
def maxLoginTries : Nat := 3

/-- Lines 253–279: the password-flow retry loop.  `fuel` counts the
remaining iterations (started at `maxLoginTries`); `lastErr` is the Go `err`
variable carried across iterations.  `.error e` is the early `return err`
after a prompt-read failure; `.ok lastErr` is the value of `err` after the
loop.  Also returns the shared credential map for fidelity with the Go map
mutation across attempts. -/
def authLoop (ps : List (String × AuthPrompt)) (creds : Credmap)
    (pks : List String) (fuel : Nat) (lastErr : Option GoError) (s : St) :
    Except GoError (Option GoError) × Credmap × St × List Event :=
  match fuel with
  | 0 => (.ok lastErr, creds, s, [])
  | f + 1 =>
    let attempt := maxLoginTries - f
    match passwordPrompts ps creds pks attempt s with
    | (.error e, s', t) => (.error e, creds, s', t)
    | (.ok (copy, shared), s', t) =>
      match actorAuthenticate copy s' with
      | (none, s'', t₂) =>
        (.ok none, shared, s'', t ++ [.text "Authenticating..."] ++ t₂ ++ [.okDisplayed, .newline])
      | (some e, s'', t₂) =>
        if isAccountLocked e then
          (.ok (some e), shared, s'',
            t ++ [.text "Authenticating..."] ++ t₂ ++ [.warning (errText e), .newline])
        else
          match authLoop ps shared pks f (some e) s'' with
          | (r, shared', s₃, t₃) =>
            (r, shared', s₃,
              t ++ [.text "Authenticating..."] ++ t₂ ++ [.warning (errText e), .newline] ++ t₃)

/-- Lines 216–284 (`authenticate`): fetch the prompt schema, resolve
username, resolve the remaining text prompts and collect the secret keys,
then run the bounded retry loop.  Returns the Go `error` result. -/
def authenticate (fl : Flags) (ps : List (String × AuthPrompt)) (s : St) :
    Option GoError × St × List Event :=
  match usernameStep fl.username ps [] s with
  | (.error e, s', t) => (some e, s', [.loginPromptsCall] ++ t)
  | (.ok creds, s', t) =>
    match collectTextPrompts ps creds [] s' with
    | (.error e, s'', t') => (some e, s'', [.loginPromptsCall] ++ t ++ t')
    | (.ok (creds', pks), s'', t') =>
      match authLoop ps creds' pks maxLoginTries none s'' with
      | (.error e, _, s₃, t₃) => (some e, s₃, [.loginPromptsCall] ++ t ++ t' ++ t₃)
      | (.ok lastErr, _, s₃, t₃) => (lastErr, s₃, [.loginPromptsCall] ++ t ++ t' ++ t₃)

/-- Lines 291–320: the SSO-flow retry loop.  On each attempt the passcode is
taken from the pre-supplied `--sso-passcode` value — consumed and cleared —
when still present, otherwise prompted as a secret; the loop breaks only on
success (there is no account-locked test in this flow). -/
def ssoLoop (ps : List (String × AuthPrompt)) (creds : Credmap) (fuel : Nat)
    (lastErr : Option GoError) (s : St) :
    Except GoError (Option GoError) × Credmap × St × List Event :=
  match fuel with
  | 0 => (.ok lastErr, creds, s, [])
  | f + 1 =>
    let attempt := maxLoginTries - f
    let step : Except (GoError × St × List Event) (Credmap × St × List Event) :=
      if s.ssoPasscode ≠ "" then
        .ok (mapSet creds "passcode" s.ssoPasscode, { s with ssoPasscode := "" },
          [.resolve "passcode" false attempt])
      else
        match displayPasswordPrompt (((List.lookup "passcode" ps).map AuthPrompt.displayName).getD "") s with
        | (.error e, s', t) => .error (e, s', t)
        | (.ok v, s', t) =>
          .ok (mapSet creds "passcode" v, s', t ++ [.resolve "passcode" true attempt])
    match step with
    | .error (e, s', t) => (.error e, creds, s', t)
    | .ok (creds', s', t) =>
      match actorAuthenticate creds' s' with
      | (none, s'', t₂) =>
        (.ok none, creds', s'', t ++ [.text "Authenticating..."] ++ t₂ ++ [.okDisplayed, .newline])
      | (some e, s'', t₂) =>
        match ssoLoop ps creds' f (some e) s'' with
        | (r, c', s₃, t₃) =>
          (r, c', s₃, t ++ [.text "Authenticating..."] ++ t₂ ++ [.warning (errText e), .newline] ++ t₃)

/-- Lines 286–325 (`authenticateSSO`). -/
def authenticateSSO (ps : List (String × AuthPrompt)) (s : St) :
    Option GoError × St × List Event :=
  match ssoLoop ps [] maxLoginTries none s with
  | (.error e, _, s', t) => (some e, s', [.loginPromptsCall] ++ t)
  | (.ok lastErr, _, s', t) => (lastErr, s', [.loginPromptsCall] ++ t)

/-! ## Organization resolution (`Execute` lines 181–207, `promptChosenOrg`
lines 429–453) -/

/-- Lines 429–453: display the menu of organization names; `io.EOF` from the
menu read is a decline (empty organization, no error); any other read
failure is fatal; a chosen name that matches no organization is an internal
error. -/
def promptChosenOrg (orgs : List Organization) (s : St) :
    Except GoError Organization × St × List Event :=
  let names := orgs.map Organization.name
  match displayTextMenu names "Org" s with
  | (.error e, s', t) =>
    if e = .eof then (.ok ⟨"", ""⟩, s', [.text "Select an org:"] ++ t)
    else (.error e, s', [.text "Select an org:"] ++ t)
  | (.ok chosen, s', t) =>
    match orgs.find? (fun o => o.name = chosen) with
    | some org => (.ok org, s', [.text "Select an org:"] ++ t)
    | none => (.error .errorChoosingOrg, s', [.text "Select an org:"] ++ t)

/-- `cmd.Config.SetOrganizationInformation(guid, name)`. -/
def setOrganizationInformation (guid name : String) (s : St) : St × List Event :=
  ({ s with targetedOrgName := name }, [.setOrgInfo guid name])

/-- Lines 181–207: organization resolution.  With an explicit `-o` name the
lookup is fatal on failure; otherwise zero organizations resolve to nothing,
one is auto-selected, and several open the interactive menu. -/
def orgStage (fl : Flags) (env : Env) (s : St) :
    Option GoError × St × List Event :=
  if fl.organization ≠ "" then
    let t₀ := [.getOrgByNameCall fl.organization] ++ warningEvents env.orgByName.1
    match env.orgByName.2 with
    | .error e => (some e, s, t₀)
    | .ok org =>
      match setOrganizationInformation org.guid org.name s with
      | (s', t₁) => (none, s', t₀ ++ t₁)
  else
    let t₀ := [.getOrgsCall] ++ warningEvents env.orgs.1
    match env.orgs.2 with
    | .error e => (some e, s, t₀)
    | .ok orgList =>
      match orgList with
      | [org] =>
        match setOrganizationInformation org.guid org.name s with
        | (s', t₁) => (none, s', t₀ ++ t₁)
      | [] => (none, s, t₀)
      | _ :: _ :: _ =>
        match promptChosenOrg orgList s with
        | (.error e, s', t₁) => (some e, s', t₀ ++ t₁)
        | (.ok chosenOrg, s', t₁) =>
          if chosenOrg ≠ (⟨"", ""⟩ : Organization) then
            match setOrganizationInformation chosenOrg.guid chosenOrg.name s' with
            | (s'', t₂) => (none, s'', t₀ ++ t₁ ++ t₂)
          else (none, s', t₀ ++ t₁)

/-! ## Version check (`checkMinCLIVersion`, lines 327–336) -/

/-- Modelled from the spec: `command.WarnIfCLIVersionBelowAPIDefinedMinimum`
is not part of `src/`; per the spec it compares the running client's version
against the server-declared minimum, "producing a non-fatal warning (never
aborts the run) when the client is too old".  The comparison outcome is the
environment's `clientTooOld` bit; the function never returns an error. -/
def warnIfCLIVersionBelowAPIDefinedMinimum (tooOld : Bool) :
    Option GoError × List Event :=
  (none, if tooOld then [.warning "Cloud Foundry API version is higher than CLI version"] else [])

/-- Lines 327–336: build the version checker (fatal on failure), record the
minimum CLI version in config, and run the version comparison. -/
def checkMinCLIVersion (env : Env) (s : St) : Option GoError × St × List Event :=
  match env.checkerResult with
  | .error e => (some e, s, [.newCheckerCall])
  | .ok chk =>
    let s' := { s with minCLIVersion := some chk.minCLIVersion }
    match warnIfCLIVersionBelowAPIDefinedMinimum env.clientTooOld with
    | (r, t) => (r, s', [.newCheckerCall, .setMinCLI chk.minCLIVersion] ++ t)

/-! ## Status report (`showStatus`, lines 380–427) -/

/-- Lines 380–410: render the final status table (always exactly one
`DisplayKeyValueTable` call), followed by the not-logged-in hint, the
no-org-targeted hint, or a newline. -/
def showStatus (env : Env) (s : St) : List Event :=
  let user := env.currentUserName.1
  if user = "" ∨ env.currentUserName.2.isSome then
    [.keyValueTable,
     .text ("Not logged in. Use '" ++ env.binaryName ++ " login' to log in.")]
  else if s.targetedOrgName = "" then
    [.keyValueTable,
     .text ("No org or space targeted, use '" ++ env.binaryName ++ " target -o ORG -s SPACE'")]
  else
    [.keyValueTable, .newline]

/-! ## `Execute` (lines 116–214) -/

/-- Lines 163–213: the part of `Execute` covered by the deferred
`showStatus`: service-account guard, flag mutual-exclusion guard, the chosen
authentication flow, the collapse of any authentication failure into the
generic `Unable to authenticate.` error, organization resolution, and the
version check. -/
def executeMain (fl : Flags) (env : Env) (s : St) :
    Option GoError × St × List Event :=
  if env.uaaGrantType = "client_credentials" then
    (some .serviceAccount, s, [])
  else
    if fl.sso = true ∨ s.ssoPasscode ≠ "" then
      if fl.sso ∧ s.ssoPasscode ≠ "" then
        (some (.argumentCombination ["--sso-passcode", "--sso"]), s, [])
      else
        match authenticateSSO env.prompts s with
        | (some _, s', t) => (some .unableToAuthenticate, s', t)
        | (none, s', t) =>
          match orgStage fl env s' with
          | (some e, s'', t₂) => (some e, s'', t ++ t₂)
          | (none, s'', t₂) =>
            match checkMinCLIVersion env s'' with
            | (r, s₃, t₃) => (r, s₃, t ++ t₂ ++ t₃)
    else
      match authenticate fl env.prompts s with
      | (some _, s', t) => (some .unableToAuthenticate, s', t)
      | (none, s', t) =>
        match orgStage fl env s' with
        | (some e, s'', t₂) => (some e, s'', t ++ t₂)
        | (none, s'', t₂) =>
          match checkMinCLIVersion env s'' with
          | (r, s₃, t₃) => (r, s₃, t ++ t₂ ++ t₃)

/-- Lines 122–137: resolve the API endpoint from the flag, the configured
target, or an interactive prompt. -/
def endpointStep (env : Env) (s : St) : Except GoError Unit × St × List Event :=
  if s.apiEndpoint ≠ "" then
    (.ok (), s, [.text ("API endpoint: " ++ s.apiEndpoint)])
  else if env.configTarget ≠ "" then
    (.ok (), { s with apiEndpoint := env.configTarget },
      [.text ("API endpoint: " ++ env.configTarget)])
  else
    match displayTextPrompt "API endpoint" s with
    | (.error e, s', t) => (.error e, s', t)
    | (.ok v, s', t) => (.ok (), { s' with apiEndpoint := v }, t)

/-- Lines 116–214 (`Execute`): experimental-login gate, endpoint resolution,
target normalization and `SetTarget`, actor rebuild, then `executeMain`
under the deferred `showStatus`.  Returns the Go `error` result, the final
state, and the full event list. -/
def execute (fl : Flags) (env : Env) (s : St) :
    Option GoError × St × List Event :=
  if env.experimentalLogin = false then
    (some .unrefactoredCommand, s, [])
  else
    let t₁ := [Event.warning "Using experimental login command, some behavior may be different"]
    match endpointStep env s with
    | (.error e, s₁, t₂) => (some e, s₁, t₁ ++ t₂)
    | (.ok (), s₁, t₂) =>
      let t₃ := [Event.newline]
      let targetURL := computeTargetURL s₁.apiEndpoint
      let skip := env.configSkipSSL || fl.skipSSLValidation
      let t₄ := [Event.setTargetCall targetURL skip]
      match env.setTargetResult with
      | some e => (some e, s₁, t₁ ++ t₂ ++ t₃ ++ t₄)
      | none =>
        let t₅ := [Event.newActorCall]
        match env.reloadResult with
        | some e => (some e, s₁, t₁ ++ t₂ ++ t₃ ++ t₄ ++ t₅)
        | none =>
          match executeMain fl env s₁ with
          | (r, s₂, t₆) =>
            (r, s₂, t₁ ++ t₂ ++ t₃ ++ t₄ ++ t₅ ++ t₆ ++ showStatus env s₂)

/-! ## Observation helpers -/

/-- Is the event an `Authenticate` call? -/
def isAuthCall : Event → Bool
  | .authCall _ => true
  | _ => false

/-- Number of `Authenticate` calls in an event list. -/
def authCallCount (t : List Event) : Nat :=
  (t.filter isAuthCall).length

/-- The credential-resolution events (key, collected interactively, attempt
number), in order. -/
def resolvesOf (t : List Event) : List (String × Bool × Nat) :=
  t.filterMap fun e =>
    match e with
    | .resolve k i a => some (k, i, a)
    | _ => none

/-- All pending interactive reads succeed. -/
def allOk (l : List (Except GoError String)) : Bool :=
  l.all fun x =>
    match x with
    | .ok _ => true
    | .error _ => false

/-- Events a credential-collection phase can emit (text prompt, resolution,
newline). -/
def isCollectEvent : Event → Bool
  | .textPrompt _ => true
  | .resolve _ _ _ => true
  | .newline => true
  | _ => false

/-- Events a secret-collection phase can emit. -/
def isSecretEvent : Event → Bool
  | .passwordPrompt _ => true
  | .resolve _ _ _ => true
  | .newline => true
  | _ => false

/-- Events a retry loop can emit. -/
def isLoopEvent : Event → Bool
  | .passwordPrompt _ => true
  | .resolve _ _ _ => true
  | .newline => true
  | .text _ => true
  | .authCall _ => true
  | .warning _ => true
  | .okDisplayed => true
  | _ => false

/-- Events the whole post-rebuild phase (`executeMain`) can emit; notably
`keyValueTable` is not among them. -/
def isMainEvent : Event → Bool
  | .passwordPrompt _ => true
  | .textPrompt _ => true
  | .menuPrompt _ _ => true
  | .resolve _ _ _ => true
  | .newline => true
  | .text _ => true
  | .authCall _ => true
  | .warning _ => true
  | .okDisplayed => true
  | .loginPromptsCall => true
  | .getOrgsCall => true
  | .getOrgByNameCall _ => true
  | .setOrgInfo _ _ => true
  | .newCheckerCall => true
  | .setMinCLI _ => true
  | _ => false

/-- The state transition of a component that only consumes interactive
inputs (all other fields unchanged). -/
def inputsOnly (s s' : St) : Prop :=
  s' = { s with inputs := s'.inputs }

/-- The state transition of `passwordPrompts` (may additionally clear the
pre-supplied password). -/
def inputsPwOnly (s s' : St) : Prop :=
  s' = { s with inputs := s'.inputs, password := s'.password }

theorem inputsOnly_refl (s : St) : inputsOnly s s := by
  simp [inputsOnly]

theorem inputsOnly_trans {s₁ s₂ s₃ : St} (h₁ : inputsOnly s₁ s₂)
    (h₂ : inputsOnly s₂ s₃) : inputsOnly s₁ s₃ := by
  simp only [inputsOnly] at *
  rw [h₂, h₁]

theorem inputsOnly_toPw {s s' : St} (h : inputsOnly s s') : inputsPwOnly s s' := by
  simp only [inputsOnly, inputsPwOnly] at *
  rw [h]

theorem inputsPwOnly_of_trans {s₁ s₂ s₃ : St} (h₁ : inputsPwOnly s₁ s₂)
    (h₂ : inputsPwOnly s₂ s₃) : inputsPwOnly s₁ s₃ := by
  simp only [inputsPwOnly] at *
  rw [h₂, h₁]

theorem inputsOnly_authResults {s s' : St} (h : inputsOnly s s') :
    s'.authResults = s.authResults := by
  rw [h]

theorem inputsOnly_password {s s' : St} (h : inputsOnly s s') :
    s'.password = s.password := by
  rw [h]

theorem inputsOnly_ssoPasscode {s s' : St} (h : inputsOnly s s') :
    s'.ssoPasscode = s.ssoPasscode := by
  rw [h]

theorem inputsPwOnly_authResults {s s' : St} (h : inputsPwOnly s s') :
    s'.authResults = s.authResults := by
  rw [h]

/-! ## Component lemmas: prompt primitives -/

theorem displayTextPrompt_state (label : String) (s : St) :
    inputsOnly s (displayTextPrompt label s).2.1 := by
  cases h : s.inputs with
  | nil =>
    have hs : (displayTextPrompt label s).2.1 = s := by simp [displayTextPrompt, h]
    rw [hs]
    exact inputsOnly_refl s
  | cons r rest => simp [displayTextPrompt, h, inputsOnly]

theorem displayTextPrompt_events (label : String) (s : St) :
    (displayTextPrompt label s).2.2 = [.textPrompt label] := by
  cases h : s.inputs <;> simp [displayTextPrompt, h]

theorem displayPasswordPrompt_state (label : String) (s : St) :
    inputsOnly s (displayPasswordPrompt label s).2.1 := by
  cases h : s.inputs with
  | nil =>
    have hs : (displayPasswordPrompt label s).2.1 = s := by simp [displayPasswordPrompt, h]
    rw [hs]
    exact inputsOnly_refl s
  | cons r rest => simp [displayPasswordPrompt, h, inputsOnly]

theorem displayPasswordPrompt_events (label : String) (s : St) :
    (displayPasswordPrompt label s).2.2 = [.passwordPrompt label] := by
  cases h : s.inputs <;> simp [displayPasswordPrompt, h]

theorem displayTextMenu_state (choices : List String) (label : String) (s : St) :
    inputsOnly s (displayTextMenu choices label s).2.1 := by
  cases h : s.inputs with
  | nil =>
    have hs : (displayTextMenu choices label s).2.1 = s := by simp [displayTextMenu, h]
    rw [hs]
    exact inputsOnly_refl s
  | cons r rest => simp [displayTextMenu, h, inputsOnly]

theorem displayTextMenu_events (choices : List String) (label : String) (s : St) :
    (displayTextMenu choices label s).2.2 = [.menuPrompt choices label] := by
  cases h : s.inputs <;> simp [displayTextMenu, h]

/-- A successful read pops the head of an all-successful input stream. -/
theorem displayTextPrompt_allOk {s : St} (label : String)
    (h : allOk s.inputs = true) :
    ∃ v s', displayTextPrompt label s = (.ok v, s', [.textPrompt label])
      ∧ allOk s'.inputs = true := by
  cases hin : s.inputs with
  | nil =>
    refine ⟨"", s, by simp [displayTextPrompt, hin], h⟩
  | cons r rest =>
    rw [hin] at h
    simp only [allOk, List.all_cons, Bool.and_eq_true] at h
    cases r with
    | error e => simp at h
    | ok v =>
      refine ⟨v, { s with inputs := rest }, by simp [displayTextPrompt, hin], ?_⟩
      simpa [allOk] using h.2

theorem displayPasswordPrompt_allOk {s : St} (label : String)
    (h : allOk s.inputs = true) :
    ∃ v s', displayPasswordPrompt label s = (.ok v, s', [.passwordPrompt label])
      ∧ allOk s'.inputs = true := by
  cases hin : s.inputs with
  | nil =>
    refine ⟨"", s, by simp [displayPasswordPrompt, hin], h⟩
  | cons r rest =>
    rw [hin] at h
    simp only [allOk, List.all_cons, Bool.and_eq_true] at h
    cases r with
    | error e => simp at h
    | ok v =>
      refine ⟨v, { s with inputs := rest }, by simp [displayPasswordPrompt, hin], ?_⟩
      simpa [allOk] using h.2

/-! ## Component lemmas: `usernameStep` -/

theorem usernameStep_state (u : String) (ps : List (String × AuthPrompt))
    (c : Credmap) (s : St) : inputsOnly s (usernameStep u ps c s).2.1 := by
  cases hl : List.lookup "username" ps with
  | none =>
    have h : (usernameStep u ps c s).2.1 = s := by simp [usernameStep, hl]
    rw [h]
    exact inputsOnly_refl s
  | some p =>
    by_cases hc : p.type = .text ∧ u ≠ ""
    · have h : (usernameStep u ps c s).2.1 = s := by simp [usernameStep, hl, hc]
      rw [h]
      exact inputsOnly_refl s
    · rcases hdp : displayTextPrompt p.displayName s with ⟨r, s', t⟩
      have hst := displayTextPrompt_state p.displayName s
      rw [hdp] at hst
      cases r <;> simp only [usernameStep, hl, if_neg hc, hdp] <;> exact hst

theorem usernameStep_events (u : String) (ps : List (String × AuthPrompt))
    (c : Credmap) (s : St) :
    ∀ e ∈ (usernameStep u ps c s).2.2, isCollectEvent e = true := by
  cases hl : List.lookup "username" ps with
  | none => simp [usernameStep, hl]
  | some p =>
    by_cases hc : p.type = .text ∧ u ≠ ""
    · simp [usernameStep, hl, hc, isCollectEvent]
    · rcases hdp : displayTextPrompt p.displayName s with ⟨r, s', t⟩
      have ht : t = [.textPrompt p.displayName] := by
        rw [← displayTextPrompt_events p.displayName s, hdp]
      cases r <;>
        simp [usernameStep, hl, if_neg hc, hdp, ht, isCollectEvent]

theorem usernameStep_resolves (u : String) (ps : List (String × AuthPrompt))
    (c : Credmap) (s : St) :
    ∀ x ∈ resolvesOf (usernameStep u ps c s).2.2,
      x.1 = "username" ∧ x.2.2 = 0 := by
  cases hl : List.lookup "username" ps with
  | none => simp [usernameStep, hl, resolvesOf]
  | some p =>
    by_cases hc : p.type = .text ∧ u ≠ ""
    · simp [usernameStep, hl, hc, resolvesOf]
    · rcases hdp : displayTextPrompt p.displayName s with ⟨r, s', t⟩
      have ht : t = [.textPrompt p.displayName] := by
        rw [← displayTextPrompt_events p.displayName s, hdp]
      cases r <;>
        simp [usernameStep, hl, if_neg hc, hdp, ht, resolvesOf]

theorem usernameStep_interactive (u : String) (ps : List (String × AuthPrompt))
    (c : Credmap) (s : St) (p : AuthPrompt)
    (hl : List.lookup "username" ps = some p)
    (hc : ¬(p.type = .text ∧ u ≠ "")) :
    ∀ x ∈ resolvesOf (usernameStep u ps c s).2.2, x.2.1 = true := by
  rcases hdp : displayTextPrompt p.displayName s with ⟨r, s', t⟩
  have ht : t = [.textPrompt p.displayName] := by
    rw [← displayTextPrompt_events p.displayName s, hdp]
  cases r <;>
    simp [usernameStep, hl, if_neg hc, hdp, ht, resolvesOf]

theorem usernameStep_err_shape (u : String) (ps : List (String × AuthPrompt))
    (c : Credmap) (s : St) (e : GoError) (s' : St) (t : List Event)
    (h : usernameStep u ps c s = (.error e, s', t)) : resolvesOf t = [] := by
  cases hl : List.lookup "username" ps with
  | none => simp [usernameStep, hl] at h
  | some p =>
    by_cases hc : p.type = .text ∧ u ≠ ""
    · simp [usernameStep, hl, hc] at h
    · rcases hdp : displayTextPrompt p.displayName s with ⟨r, s₁, t₁⟩
      have ht : t₁ = [.textPrompt p.displayName] := by
        rw [← displayTextPrompt_events p.displayName s, hdp]
      cases r with
      | error e₁ =>
        simp only [usernameStep, hl, if_neg hc, hdp] at h
        obtain ⟨_, _, ht'⟩ := Prod.mk.injEq .. ▸ h
        cases h
        simp [ht, resolvesOf]
      | ok v => simp [usernameStep, hl, if_neg hc, hdp] at h

theorem usernameStep_ok_shape (u : String) (ps : List (String × AuthPrompt))
    (c : Credmap) (s : St) (hl : (List.lookup "username" ps).isSome = true)
    (c' : Credmap) (s' : St) (t : List Event)
    (h : usernameStep u ps c s = (.ok c', s', t)) :
    ∃ b, resolvesOf t = [("username", b, 0)] := by
  cases hl' : List.lookup "username" ps with
  | none => rw [hl'] at hl; simp at hl
  | some p =>
    by_cases hc : p.type = .text ∧ u ≠ ""
    · simp only [usernameStep, hl', if_pos hc] at h
      cases h
      exact ⟨false, by simp [resolvesOf]⟩
    · rcases hdp : displayTextPrompt p.displayName s with ⟨r, s₁, t₁⟩
      have ht : t₁ = [.textPrompt p.displayName] := by
        rw [← displayTextPrompt_events p.displayName s, hdp]
      cases r with
      | error e₁ => simp [usernameStep, hl', if_neg hc, hdp] at h
      | ok v =>
        simp only [usernameStep, hl', if_neg hc, hdp] at h
        cases h
        exact ⟨true, by simp [ht, resolvesOf]⟩

theorem usernameStep_none_shape (u : String) (ps : List (String × AuthPrompt))
    (c : Credmap) (s : St) (hl : List.lookup "username" ps = none) :
    usernameStep u ps c s = (.ok c, s, []) := by
  simp [usernameStep, hl]

theorem usernameStep_allOk (u : String) (ps : List (String × AuthPrompt))
    (c : Credmap) (s : St) (h : allOk s.inputs = true) :
    ∃ c' s' t, usernameStep u ps c s = (.ok c', s', t) ∧ allOk s'.inputs = true := by
  cases hl : List.lookup "username" ps with
  | none => exact ⟨c, s, [], by simp [usernameStep, hl], h⟩
  | some p =>
    by_cases hc : p.type = .text ∧ u ≠ ""
    · exact ⟨mapSet c "username" u, s, [.resolve "username" false 0],
        by simp [usernameStep, hl, hc], h⟩
    · obtain ⟨v, s', hdp, h'⟩ := displayTextPrompt_allOk p.displayName h
      exact ⟨mapSet c "username" v, s',
        [.textPrompt p.displayName, .resolve "username" true 0, .newline],
        by simp [usernameStep, hl, if_neg hc, hdp], h'⟩

/-! ## Component lemmas: `collectTextPrompts` -/

theorem collectTextPrompts_state (ps : List (String × AuthPrompt))
    (c : Credmap) (pks : List String) (s : St) :
    inputsOnly s (collectTextPrompts ps c pks s).2.1 := by
  induction ps generalizing c pks s with
  | nil =>
    have h : (collectTextPrompts [] c pks s).2.1 = s := by simp [collectTextPrompts]
    rw [h]
    exact inputsOnly_refl s
  | cons hd tl ih =>
    obtain ⟨key, p⟩ := hd
    by_cases hp : p.type = .password
    · by_cases hk : key = "passcode" ∨ key = "password"
      · simpa [collectTextPrompts, hp, hk] using ih c pks s
      · simpa [collectTextPrompts, hp, hk] using ih c (pks ++ [key]) s
    · by_cases hu : key = "username"
      · simpa [collectTextPrompts, hp, hu] using ih c pks s
      · rcases hdp : displayTextPrompt p.displayName s with ⟨r, s', t⟩
        have hst := displayTextPrompt_state p.displayName s
        rw [hdp] at hst
        cases r with
        | error e =>
          have h : (collectTextPrompts ((key, p) :: tl) c pks s).2.1 = s' := by
            simp [collectTextPrompts, hp, hu, hdp]
          rw [h]
          exact hst
        | ok v =>
          rcases hrec : collectTextPrompts tl (mapSet c key v) pks s' with ⟨r₂, s'', t₂⟩
          have h : (collectTextPrompts ((key, p) :: tl) c pks s).2.1 = s'' := by
            simp [collectTextPrompts, hp, hu, hdp, hrec]
          rw [h]
          have := ih (mapSet c key v) pks s'
          rw [hrec] at this
          exact inputsOnly_trans hst this

theorem collectTextPrompts_events (ps : List (String × AuthPrompt))
    (c : Credmap) (pks : List String) (s : St) :
    ∀ e ∈ (collectTextPrompts ps c pks s).2.2, isCollectEvent e = true := by
  induction ps generalizing c pks s with
  | nil => simp [collectTextPrompts]
  | cons hd tl ih =>
    obtain ⟨key, p⟩ := hd
    by_cases hp : p.type = .password
    · by_cases hk : key = "passcode" ∨ key = "password"
      · simpa [collectTextPrompts, hp, hk] using ih c pks s
      · simpa [collectTextPrompts, hp, hk] using ih c (pks ++ [key]) s
    · by_cases hu : key = "username"
      · simpa [collectTextPrompts, hp, hu] using ih c pks s
      · rcases hdp : displayTextPrompt p.displayName s with ⟨r, s', t⟩
        have ht : t = [.textPrompt p.displayName] := by
          rw [← displayTextPrompt_events p.displayName s, hdp]
        cases r with
        | error e => simp [collectTextPrompts, hp, hu, hdp, ht, isCollectEvent]
        | ok v =>
          rcases hrec : collectTextPrompts tl (mapSet c key v) pks s' with ⟨r₂, s'', t₂⟩
          have ih' := ih (mapSet c key v) pks s'
          rw [hrec] at ih'
          have hev : (collectTextPrompts ((key, p) :: tl) c pks s).2.2
              = .textPrompt p.displayName :: .resolve key true 0 :: .newline :: t₂ := by
            simp [collectTextPrompts, hp, hu, hdp, hrec, ht]
          rw [hev]
          intro e he
          rcases List.mem_cons.mp he with h₁ | he
          · simp [h₁, isCollectEvent]
          · rcases List.mem_cons.mp he with h₁ | he
            · simp [h₁, isCollectEvent]
            · rcases List.mem_cons.mp he with h₁ | he
              · simp [h₁, isCollectEvent]
              · exact ih' e he

theorem collectTextPrompts_resolves (ps : List (String × AuthPrompt))
    (c : Credmap) (pks : List String) (s : St) :
    ∀ x ∈ resolvesOf (collectTextPrompts ps c pks s).2.2,
      x.2.2 = 0 ∧ x.2.1 = true ∧ x.1 ≠ "username"
        ∧ ∃ p, (x.1, p) ∈ ps ∧ p.type ≠ .password := by
  induction ps generalizing c pks s with
  | nil => simp [collectTextPrompts, resolvesOf]
  | cons hd tl ih =>
    obtain ⟨key, p⟩ := hd
    by_cases hp : p.type = .password
    · by_cases hk : key = "passcode" ∨ key = "password"
      · intro x hx
        have := (by simpa [collectTextPrompts, hp, hk] using hx :
          x ∈ resolvesOf (collectTextPrompts tl c pks s).2.2)
        obtain ⟨h₁, h₂, h₃, q, hq, hq'⟩ := ih c pks s x this
        exact ⟨h₁, h₂, h₃, q, List.mem_cons_of_mem _ hq, hq'⟩
      · intro x hx
        have := (by simpa [collectTextPrompts, hp, hk] using hx :
          x ∈ resolvesOf (collectTextPrompts tl c (pks ++ [key]) s).2.2)
        obtain ⟨h₁, h₂, h₃, q, hq, hq'⟩ := ih c (pks ++ [key]) s x this
        exact ⟨h₁, h₂, h₃, q, List.mem_cons_of_mem _ hq, hq'⟩
    · by_cases hu : key = "username"
      · intro x hx
        have := (by simpa [collectTextPrompts, hp, hu] using hx :
          x ∈ resolvesOf (collectTextPrompts tl c pks s).2.2)
        obtain ⟨h₁, h₂, h₃, q, hq, hq'⟩ := ih c pks s x this
        exact ⟨h₁, h₂, h₃, q, List.mem_cons_of_mem _ hq, hq'⟩
      · rcases hdp : displayTextPrompt p.displayName s with ⟨r, s', t⟩
        have ht : t = [.textPrompt p.displayName] := by
          rw [← displayTextPrompt_events p.displayName s, hdp]
        cases r with
        | error e => simp [collectTextPrompts, hp, hu, hdp, ht, resolvesOf]
        | ok v =>
          rcases hrec : collectTextPrompts tl (mapSet c key v) pks s' with ⟨r₂, s'', t₂⟩
          have ih' := ih (mapSet c key v) pks s'
          rw [hrec] at ih'
          have hev : (collectTextPrompts ((key, p) :: tl) c pks s).2.2
              = .textPrompt p.displayName :: .resolve key true 0 :: .newline :: t₂ := by
            simp [collectTextPrompts, hp, hu, hdp, hrec, ht]
          have hres : resolvesOf (collectTextPrompts ((key, p) :: tl) c pks s).2.2
              = (key, true, 0) :: resolvesOf t₂ := by
            rw [hev]
            simp [resolvesOf]
          rw [hres]
          intro x hx
          rcases List.mem_cons.mp hx with h₁ | hx
          · subst h₁
            exact ⟨rfl, rfl, hu, p, List.mem_cons_self _ _, hp⟩
          · obtain ⟨h₂, h₃, h₄, q, hq, hq'⟩ := ih' x hx
            exact ⟨h₂, h₃, h₄, q, List.mem_cons_of_mem _ hq, hq'⟩

theorem collectTextPrompts_pks (ps : List (String × AuthPrompt))
    (c : Credmap) (pks : List String) (s : St) (c' : Credmap)
    (pks' : List String) (s' : St) (t : List Event)
    (h : collectTextPrompts ps c pks s = (.ok (c', pks'), s', t)) :
    ∀ k ∈ pks', k ∈ pks
      ∨ ∃ p, (k, p) ∈ ps ∧ p.type = .password ∧ k ≠ "password" ∧ k ≠ "passcode" := by
  induction ps generalizing c pks s t with
  | nil =>
    simp only [collectTextPrompts] at h
    cases h
    intro k hk
    exact Or.inl hk
  | cons hd tl ih =>
    obtain ⟨key, p⟩ := hd
    by_cases hp : p.type = .password
    · by_cases hk : key = "passcode" ∨ key = "password"
      · have h' : collectTextPrompts tl c pks s = (.ok (c', pks'), s', t) := by
          simpa [collectTextPrompts, hp, hk] using h
        intro k hkk
        rcases ih c pks s t h' k hkk with h₁ | ⟨q, hq, hq'⟩
        · exact Or.inl h₁
        · exact Or.inr ⟨q, List.mem_cons_of_mem _ hq, hq'⟩
      · have h' : collectTextPrompts tl c (pks ++ [key]) s = (.ok (c', pks'), s', t) := by
          simpa [collectTextPrompts, hp, hk] using h
        intro k hkk
        rcases ih c (pks ++ [key]) s t h' k hkk with h₁ | ⟨q, hq, hq'⟩
        · rcases List.mem_append.mp h₁ with h₂ | h₂
          · exact Or.inl h₂
          · have hkey : k = key := by simpa using h₂
            subst hkey
            push_neg at hk
            exact Or.inr ⟨p, List.mem_cons_self _ _, hp, hk.2, hk.1⟩
        · exact Or.inr ⟨q, List.mem_cons_of_mem _ hq, hq'⟩
    · by_cases hu : key = "username"
      · have h' : collectTextPrompts tl c pks s = (.ok (c', pks'), s', t) := by
          simpa [collectTextPrompts, hp, hu] using h
        intro k hkk
        rcases ih c pks s t h' k hkk with h₁ | ⟨q, hq, hq'⟩
        · exact Or.inl h₁
        · exact Or.inr ⟨q, List.mem_cons_of_mem _ hq, hq'⟩
      · rcases hdp : displayTextPrompt p.displayName s with ⟨r, s₁, t₁⟩
        cases r with
        | error e => simp [collectTextPrompts, hp, hu, hdp] at h
        | ok v =>
          rcases hrec : collectTextPrompts tl (mapSet c key v) pks s₁ with ⟨r₂, s₂, t₂⟩
          simp only [collectTextPrompts, hp, hu, hdp, hrec, ite_true, ite_false] at h
          cases r₂ with
          | error e₂ => simp at h
          | ok pair =>
            obtain ⟨c₂, pks₂⟩ := pair
            simp only [Prod.mk.injEq, Except.ok.injEq] at h
            obtain ⟨⟨hc₂, hpks₂⟩, hs₂, ht₂⟩ := h
            subst hc₂; subst hpks₂
            intro k hkk
            rcases ih (mapSet c key v) pks s₁ t₂ (by rw [hrec, hs₂]) k hkk with h₁ | ⟨q, hq, hq'⟩
            · exact Or.inl h₁
            · exact Or.inr ⟨q, List.mem_cons_of_mem _ hq, hq'⟩

theorem collectTextPrompts_allOk (ps : List (String × AuthPrompt))
    (c : Credmap) (pks : List String) (s : St) (h : allOk s.inputs = true) :
    ∃ c' pks' s' t, collectTextPrompts ps c pks s = (.ok (c', pks'), s', t)
      ∧ allOk s'.inputs = true := by
  induction ps generalizing c pks s with
  | nil => exact ⟨c, pks, s, [], by simp [collectTextPrompts], h⟩
  | cons hd tl ih =>
    obtain ⟨key, p⟩ := hd
    by_cases hp : p.type = .password
    · by_cases hk : key = "passcode" ∨ key = "password"
      · obtain ⟨c', pks', s', t, hr, h'⟩ := ih c pks s h
        exact ⟨c', pks', s', t, by simp [collectTextPrompts, hp, hk, hr], h'⟩
      · obtain ⟨c', pks', s', t, hr, h'⟩ := ih c (pks ++ [key]) s h
        exact ⟨c', pks', s', t, by simp [collectTextPrompts, hp, hk, hr], h'⟩
    · by_cases hu : key = "username"
      · obtain ⟨c', pks', s', t, hr, h'⟩ := ih c pks s h
        exact ⟨c', pks', s', t, by simp [collectTextPrompts, hp, hu, hr], h'⟩
      · obtain ⟨v, s₁, hdp, h₁⟩ := displayTextPrompt_allOk p.displayName h
        obtain ⟨c', pks', s', t, hr, h'⟩ := ih (mapSet c key v) pks s₁ h₁
        exact ⟨c', pks', s',
          .textPrompt p.displayName :: .resolve key true 0 :: .newline :: t,
          by simp [collectTextPrompts, hp, hu, hdp, hr], h'⟩

/-! ## Component lemmas: `collectSecretKeys` -/

theorem collectSecretKeys_state (ps : List (String × AuthPrompt))
    (keys : List String) (a : Nat) (c : Credmap) (s : St) :
    inputsOnly s (collectSecretKeys ps keys a c s).2.1 := by
  induction keys generalizing c s with
  | nil =>
    have h : (collectSecretKeys ps [] a c s).2.1 = s := by simp [collectSecretKeys]
    rw [h]
    exact inputsOnly_refl s
  | cons key rest ih =>
    rcases hdp : displayPasswordPrompt (((List.lookup key ps).map AuthPrompt.displayName).getD "") s
      with ⟨r, s', t⟩
    have hst := displayPasswordPrompt_state (((List.lookup key ps).map AuthPrompt.displayName).getD "") s
    rw [hdp] at hst
    cases r with
    | error e =>
      have h : (collectSecretKeys ps (key :: rest) a c s).2.1 = s' := by
        simp [collectSecretKeys, hdp]
      rw [h]
      exact hst
    | ok v =>
      rcases hrec : collectSecretKeys ps rest a (mapSet c key v) s' with ⟨r₂, s'', t₂⟩
      have h : (collectSecretKeys ps (key :: rest) a c s).2.1 = s'' := by
        simp [collectSecretKeys, hdp, hrec]
      rw [h]
      have := ih (mapSet c key v) s'
      rw [hrec] at this
      exact inputsOnly_trans hst this

theorem collectSecretKeys_events (ps : List (String × AuthPrompt))
    (keys : List String) (a : Nat) (c : Credmap) (s : St) :
    ∀ e ∈ (collectSecretKeys ps keys a c s).2.2, isSecretEvent e = true := by
  induction keys generalizing c s with
  | nil => simp [collectSecretKeys]
  | cons key rest ih =>
    rcases hdp : displayPasswordPrompt (((List.lookup key ps).map AuthPrompt.displayName).getD "") s
      with ⟨r, s', t⟩
    have ht : t = [.passwordPrompt (((List.lookup key ps).map AuthPrompt.displayName).getD "")] := by
      rw [← displayPasswordPrompt_events (((List.lookup key ps).map AuthPrompt.displayName).getD "") s, hdp]
    cases r with
    | error e => simp [collectSecretKeys, hdp, ht, isSecretEvent]
    | ok v =>
      rcases hrec : collectSecretKeys ps rest a (mapSet c key v) s' with ⟨r₂, s'', t₂⟩
      have ih' := ih (mapSet c key v) s'
      rw [hrec] at ih'
      have hev : (collectSecretKeys ps (key :: rest) a c s).2.2
          = .newline :: .passwordPrompt (((List.lookup key ps).map AuthPrompt.displayName).getD "")
            :: .resolve key true a :: t₂ := by
        simp [collectSecretKeys, hdp, hrec, ht]
      rw [hev]
      intro e he
      rcases List.mem_cons.mp he with h₁ | he
      · simp [h₁, isSecretEvent]
      · rcases List.mem_cons.mp he with h₁ | he
        · simp [h₁, isSecretEvent]
        · rcases List.mem_cons.mp he with h₁ | he
          · simp [h₁, isSecretEvent]
          · exact ih' e he

theorem collectSecretKeys_resolves (ps : List (String × AuthPrompt))
    (keys : List String) (a : Nat) (c : Credmap) (s : St) :
    ∀ x ∈ resolvesOf (collectSecretKeys ps keys a c s).2.2,
      x.1 ∈ keys ∧ x.2.1 = true ∧ x.2.2 = a := by
  induction keys generalizing c s with
  | nil => simp [collectSecretKeys, resolvesOf]
  | cons key rest ih =>
    rcases hdp : displayPasswordPrompt (((List.lookup key ps).map AuthPrompt.displayName).getD "") s
      with ⟨r, s', t⟩
    have ht : t = [.passwordPrompt (((List.lookup key ps).map AuthPrompt.displayName).getD "")] := by
      rw [← displayPasswordPrompt_events (((List.lookup key ps).map AuthPrompt.displayName).getD "") s, hdp]
    cases r with
    | error e => simp [collectSecretKeys, hdp, ht, resolvesOf]
    | ok v =>
      rcases hrec : collectSecretKeys ps rest a (mapSet c key v) s' with ⟨r₂, s'', t₂⟩
      have ih' := ih (mapSet c key v) s'
      rw [hrec] at ih'
      have hres : resolvesOf (collectSecretKeys ps (key :: rest) a c s).2.2
          = (key, true, a) :: resolvesOf t₂ := by
        have hev : (collectSecretKeys ps (key :: rest) a c s).2.2
            = .newline :: .passwordPrompt (((List.lookup key ps).map AuthPrompt.displayName).getD "")
              :: .resolve key true a :: t₂ := by
          simp [collectSecretKeys, hdp, hrec, ht]
        rw [hev]
        simp [resolvesOf]
      rw [hres]
      intro x hx
      rcases List.mem_cons.mp hx with h₁ | hx
      · subst h₁
        exact ⟨List.mem_cons_self _ _, rfl, rfl⟩
      · obtain ⟨h₁, h₂, h₃⟩ := ih' x hx
        exact ⟨List.mem_cons_of_mem _ h₁, h₂, h₃⟩

theorem collectSecretKeys_allOk (ps : List (String × AuthPrompt))
    (keys : List String) (a : Nat) (c : Credmap) (s : St)
    (h : allOk s.inputs = true) :
    ∃ c' s' t, collectSecretKeys ps keys a c s = (.ok c', s', t)
      ∧ allOk s'.inputs = true := by
  induction keys generalizing c s with
  | nil => exact ⟨c, s, [], by simp [collectSecretKeys], h⟩
  | cons key rest ih =>
    obtain ⟨v, s₁, hdp, h₁⟩ :=
      displayPasswordPrompt_allOk (((List.lookup key ps).map AuthPrompt.displayName).getD "") h
    obtain ⟨c', s', t, hr, h'⟩ := ih (mapSet c key v) s₁ h₁
    exact ⟨c', s',
      .newline :: .passwordPrompt (((List.lookup key ps).map AuthPrompt.displayName).getD "")
        :: .resolve key true a :: t,
      by simp [collectSecretKeys, hdp, hr], h'⟩

/-! ## Component lemmas: `passwordPrompts` -/

theorem passwordPrompts_state (ps : List (String × AuthPrompt)) (c : Credmap)
    (pks : List String) (a : Nat) (s : St) :
    inputsPwOnly s (passwordPrompts ps c pks a s).2.1 := by
  cases hl : List.lookup "password" ps with
  | none =>
    rcases hcsk : collectSecretKeys ps pks a c s with ⟨r, s', t⟩
    have hst := collectSecretKeys_state ps pks a c s
    rw [hcsk] at hst
    cases r <;>
      · have h : (passwordPrompts ps c pks a s).2.1 = s' := by
          simp [passwordPrompts, hl, hcsk]
        rw [h]
        exact inputsOnly_toPw hst
  | some passPrompt =>
    by_cases hpw : s.password ≠ ""
    · rcases hcsk : collectSecretKeys ps pks a (mapSet c "password" s.password)
        { s with password := "" } with ⟨r, s', t⟩
      have hst := collectSecretKeys_state ps pks a (mapSet c "password" s.password)
        { s with password := "" }
      rw [hcsk] at hst
      have hst' : inputsPwOnly s s' := by
        simp only [inputsOnly] at hst
        simp only [inputsPwOnly]
        rw [hst]
      cases r <;>
        · have h : (passwordPrompts ps c pks a s).2.1 = s' := by
            simp [passwordPrompts, hl, hpw, hcsk]
          rw [h]
          exact hst'
    · rcases hdp : displayPasswordPrompt passPrompt.displayName s with ⟨r, s₁, t₁⟩
      have hst₁ := displayPasswordPrompt_state passPrompt.displayName s
      rw [hdp] at hst₁
      cases r with
      | error e =>
        have h : (passwordPrompts ps c pks a s).2.1 = s₁ := by
          simp [passwordPrompts, hl, hpw, hdp]
        rw [h]
        exact inputsOnly_toPw hst₁
      | ok v =>
        rcases hcsk : collectSecretKeys ps pks a (mapSet c "password" v) s₁ with ⟨r₂, s₂, t₂⟩
        have hst₂ := collectSecretKeys_state ps pks a (mapSet c "password" v) s₁
        rw [hcsk] at hst₂
        cases r₂ <;>
          · have h : (passwordPrompts ps c pks a s).2.1 = s₂ := by
              simp [passwordPrompts, hl, hpw, hdp, hcsk]
            rw [h]
            exact inputsOnly_toPw (inputsOnly_trans hst₁ hst₂)

theorem passwordPrompts_events (ps : List (String × AuthPrompt)) (c : Credmap)
    (pks : List String) (a : Nat) (s : St) :
    ∀ e ∈ (passwordPrompts ps c pks a s).2.2, isSecretEvent e = true := by
  cases hl : List.lookup "password" ps with
  | none =>
    rcases hcsk : collectSecretKeys ps pks a c s with ⟨r, s', t⟩
    have hev := collectSecretKeys_events ps pks a c s
    rw [hcsk] at hev
    cases r <;>
      · intro e he
        refine hev e ?_
        simpa [passwordPrompts, hl, hcsk] using he
  | some passPrompt =>
    by_cases hpw : s.password ≠ ""
    · rcases hcsk : collectSecretKeys ps pks a (mapSet c "password" s.password)
        { s with password := "" } with ⟨r, s', t⟩
      have hev := collectSecretKeys_events ps pks a (mapSet c "password" s.password)
        { s with password := "" }
      rw [hcsk] at hev
      cases r <;>
        · intro e he
          have he' : e ∈ Event.resolve "password" false a :: t := by
            simpa [passwordPrompts, hl, hpw, hcsk] using he
          rcases List.mem_cons.mp he' with h₁ | h₁
          · simp [h₁, isSecretEvent]
          · exact hev e h₁
    · rcases hdp : displayPasswordPrompt passPrompt.displayName s with ⟨r, s₁, t₁⟩
      have ht₁ : t₁ = [.passwordPrompt passPrompt.displayName] := by
        rw [← displayPasswordPrompt_events passPrompt.displayName s, hdp]
      cases r with
      | error e => simp [passwordPrompts, hl, hpw, hdp, ht₁, isSecretEvent]
      | ok v =>
        rcases hcsk : collectSecretKeys ps pks a (mapSet c "password" v) s₁ with ⟨r₂, s₂, t₂⟩
        have hev := collectSecretKeys_events ps pks a (mapSet c "password" v) s₁
        rw [hcsk] at hev
        cases r₂ <;>
          · intro e he
            have he' : e ∈ Event.passwordPrompt passPrompt.displayName
                :: Event.resolve "password" true a :: t₂ := by
              simpa [passwordPrompts, hl, hpw, hdp, hcsk, ht₁] using he
            rcases List.mem_cons.mp he' with h₁ | he'
            · simp [h₁, isSecretEvent]
            · rcases List.mem_cons.mp he' with h₁ | he'
              · simp [h₁, isSecretEvent]
              · exact hev e he'

/-- The resolve events of one `passwordPrompts` call when the schema holds a
`password` prompt: either no resolution happened (the password read failed),
or `password` is resolved first and everything after it comes from the
deferred secret keys. -/
theorem passwordPrompts_shape_some (ps : List (String × AuthPrompt)) (c : Credmap)
    (pks : List String) (a : Nat) (s : St)
    (hl : (List.lookup "password" ps).isSome = true) :
    resolvesOf (passwordPrompts ps c pks a s).2.2 = []
    ∨ ∃ b rest, resolvesOf (passwordPrompts ps c pks a s).2.2 = ("password", b, a) :: rest
        ∧ (∀ x ∈ rest, x.1 ∈ pks ∧ x.2.1 = true ∧ x.2.2 = a)
        ∧ (s.password = "" → b = true) := by
  cases hl' : List.lookup "password" ps with
  | none => rw [hl'] at hl; simp at hl
  | some passPrompt =>
    by_cases hpw : s.password ≠ ""
    · rcases hcsk : collectSecretKeys ps pks a (mapSet c "password" s.password)
        { s with password := "" } with ⟨r, s', t⟩
      have hres := collectSecretKeys_resolves ps pks a (mapSet c "password" s.password)
        { s with password := "" }
      rw [hcsk] at hres
      refine Or.inr ⟨false, resolvesOf t, ?_, ?_, ?_⟩
      · cases r <;>
          · have hev : (passwordPrompts ps c pks a s).2.2
                = Event.resolve "password" false a :: t := by
              simp [passwordPrompts, hl', hpw, hcsk]
            rw [hev]
            simp [resolvesOf]
      · intro x hx
        exact hres x hx
      · intro h
        exact absurd h hpw
    · rcases hdp : displayPasswordPrompt passPrompt.displayName s with ⟨r, s₁, t₁⟩
      have ht₁ : t₁ = [.passwordPrompt passPrompt.displayName] := by
        rw [← displayPasswordPrompt_events passPrompt.displayName s, hdp]
      cases r with
      | error e =>
        refine Or.inl ?_
        have hev : (passwordPrompts ps c pks a s).2.2 = t₁ := by
          simp [passwordPrompts, hl', hpw, hdp]
        rw [hev, ht₁]
        simp [resolvesOf]
      | ok v =>
        rcases hcsk : collectSecretKeys ps pks a (mapSet c "password" v) s₁ with ⟨r₂, s₂, t₂⟩
        have hres := collectSecretKeys_resolves ps pks a (mapSet c "password" v) s₁
        rw [hcsk] at hres
        refine Or.inr ⟨true, resolvesOf t₂, ?_, ?_, fun _ => rfl⟩
        · cases r₂ <;>
            · have hev : (passwordPrompts ps c pks a s).2.2
                  = Event.passwordPrompt passPrompt.displayName
                    :: Event.resolve "password" true a :: t₂ := by
                simp [passwordPrompts, hl', hpw, hdp, hcsk, ht₁]
              rw [hev]
              simp [resolvesOf]
        · intro x hx
          exact hres x hx

/-- Without a `password` prompt in the schema, all resolutions of one
`passwordPrompts` call come from the deferred secret keys. -/
theorem passwordPrompts_shape_none (ps : List (String × AuthPrompt)) (c : Credmap)
    (pks : List String) (a : Nat) (s : St)
    (hl : List.lookup "password" ps = none) :
    ∀ x ∈ resolvesOf (passwordPrompts ps c pks a s).2.2,
      x.1 ∈ pks ∧ x.2.1 = true ∧ x.2.2 = a := by
  rcases hcsk : collectSecretKeys ps pks a c s with ⟨r, s', t⟩
  have hres := collectSecretKeys_resolves ps pks a c s
  rw [hcsk] at hres
  cases r <;>
    · intro x hx
      refine hres x ?_
      simpa [passwordPrompts, hl, hcsk] using hx

/-- Resolve-event keys and attempt tags of one `passwordPrompts` call. -/
theorem passwordPrompts_resolves (ps : List (String × AuthPrompt)) (c : Credmap)
    (pks : List String) (a : Nat) (s : St) :
    ∀ x ∈ resolvesOf (passwordPrompts ps c pks a s).2.2,
      (x.1 = "password" ∨ x.1 ∈ pks) ∧ x.2.2 = a := by
  cases hl : List.lookup "password" ps with
  | none =>
    intro x hx
    obtain ⟨h₁, _, h₃⟩ := passwordPrompts_shape_none ps c pks a s hl x hx
    exact ⟨Or.inr h₁, h₃⟩
  | some passPrompt =>
    intro x hx
    rcases passwordPrompts_shape_some ps c pks a s (by simp [hl]) with h | ⟨b, rest, hr, hrest, _⟩
    · rw [h] at hx
      cases hx
    · rw [hr] at hx
      rcases List.mem_cons.mp hx with h₁ | h₁
      · subst h₁
        exact ⟨Or.inl rfl, rfl⟩
      · obtain ⟨h₂, _, h₄⟩ := hrest x h₁
        exact ⟨Or.inr h₂, h₄⟩

/-- With an empty pre-supplied password, every resolution is interactive and
the password stays cleared. -/
theorem passwordPrompts_empty_password (ps : List (String × AuthPrompt)) (c : Credmap)
    (pks : List String) (a : Nat) (s : St) (hpw : s.password = "") :
    (passwordPrompts ps c pks a s).2.1.password = ""
    ∧ ∀ x ∈ resolvesOf (passwordPrompts ps c pks a s).2.2, x.2.1 = true := by
  constructor
  · have h := passwordPrompts_state ps c pks a s
    cases hl : List.lookup "password" ps with
    | none =>
      rcases hcsk : collectSecretKeys ps pks a c s with ⟨r, s', t⟩
      have hst := collectSecretKeys_state ps pks a c s
      rw [hcsk] at hst
      cases r <;>
        · have hps : (passwordPrompts ps c pks a s).2.1 = s' := by
            simp [passwordPrompts, hl, hcsk]
          rw [hps, inputsOnly_password hst, hpw]
    | some passPrompt =>
      have hpw' : ¬ s.password ≠ "" := by simp [hpw]
      rcases hdp : displayPasswordPrompt passPrompt.displayName s with ⟨r, s₁, t₁⟩
      have hst₁ := displayPasswordPrompt_state passPrompt.displayName s
      rw [hdp] at hst₁
      cases r with
      | error e =>
        have hps : (passwordPrompts ps c pks a s).2.1 = s₁ := by
          simp [passwordPrompts, hl, hpw', hdp]
        rw [hps, inputsOnly_password hst₁, hpw]
      | ok v =>
        rcases hcsk : collectSecretKeys ps pks a (mapSet c "password" v) s₁ with ⟨r₂, s₂, t₂⟩
        have hst₂ := collectSecretKeys_state ps pks a (mapSet c "password" v) s₁
        rw [hcsk] at hst₂
        cases r₂ <;>
          · have hps : (passwordPrompts ps c pks a s).2.1 = s₂ := by
              simp [passwordPrompts, hl, hpw', hdp, hcsk]
            rw [hps, inputsOnly_password hst₂, inputsOnly_password hst₁, hpw]
  · cases hl : List.lookup "password" ps with
    | none =>
      intro x hx
      exact (passwordPrompts_shape_none ps c pks a s hl x hx).2.1
    | some passPrompt =>
      intro x hx
      rcases passwordPrompts_shape_some ps c pks a s (by simp [hl]) with h | ⟨b, rest, hr, hrest, hb⟩
      · rw [h] at hx
        cases hx
      · rw [hr] at hx
        rcases List.mem_cons.mp hx with h₁ | h₁
        · subst h₁
          exact hb hpw
        · exact (hrest x h₁).2.1

/-- A non-empty pre-supplied password with a `password` prompt present: the
flag value is consumed (non-interactive resolve on this attempt) and cleared
in the resulting state; every other resolution of the call is interactive. -/
theorem passwordPrompts_flag (ps : List (String × AuthPrompt)) (c : Credmap)
    (pks : List String) (a : Nat) (s : St) (passPrompt : AuthPrompt)
    (hl : List.lookup "password" ps = some passPrompt) (hpw : s.password ≠ "") :
    (passwordPrompts ps c pks a s).2.1.password = ""
    ∧ ∃ rest, resolvesOf (passwordPrompts ps c pks a s).2.2
        = ("password", false, a) :: rest ∧ ∀ x ∈ rest, x.2.1 = true := by
  rcases hcsk : collectSecretKeys ps pks a (mapSet c "password" s.password)
    { s with password := "" } with ⟨r, s', t⟩
  have hst := collectSecretKeys_state ps pks a (mapSet c "password" s.password)
    { s with password := "" }
  rw [hcsk] at hst
  have hres := collectSecretKeys_resolves ps pks a (mapSet c "password" s.password)
    { s with password := "" }
  rw [hcsk] at hres
  constructor
  · cases r <;>
      · have hps : (passwordPrompts ps c pks a s).2.1 = s' := by
          simp [passwordPrompts, hl, hpw, hcsk]
        rw [hps, inputsOnly_password hst]
  · refine ⟨resolvesOf t, ?_, fun x hx => (hres x hx).2.1⟩
    cases r <;>
      · have hev : (passwordPrompts ps c pks a s).2.2
            = Event.resolve "password" false a :: t := by
          simp [passwordPrompts, hl, hpw, hcsk]
        rw [hev]
        simp [resolvesOf]

/-- Without a `password` prompt, `passwordPrompts` leaves the pre-supplied
password untouched. -/
theorem passwordPrompts_none_password (ps : List (String × AuthPrompt)) (c : Credmap)
    (pks : List String) (a : Nat) (s : St)
    (hl : List.lookup "password" ps = none) :
    (passwordPrompts ps c pks a s).2.1.password = s.password := by
  rcases hcsk : collectSecretKeys ps pks a c s with ⟨r, s', t⟩
  have hst := collectSecretKeys_state ps pks a c s
  rw [hcsk] at hst
  cases r <;>
    · have hps : (passwordPrompts ps c pks a s).2.1 = s' := by
        simp [passwordPrompts, hl, hcsk]
      rw [hps, inputsOnly_password hst]

/-- When every pending read succeeds, `passwordPrompts` succeeds. -/
theorem passwordPrompts_allOk (ps : List (String × AuthPrompt)) (c : Credmap)
    (pks : List String) (a : Nat) (s : St) (h : allOk s.inputs = true) :
    ∃ copy s' t, passwordPrompts ps c pks a s = (.ok (copy, copy), s', t)
      ∧ allOk s'.inputs = true := by
  cases hl : List.lookup "password" ps with
  | none =>
    obtain ⟨c', s', t, hcsk, h'⟩ := collectSecretKeys_allOk ps pks a c s h
    exact ⟨c', s', t, by simp [passwordPrompts, hl, hcsk], h'⟩
  | some passPrompt =>
    by_cases hpw : s.password ≠ ""
    · have h₀ : allOk (St.inputs { s with password := "" }) = true := h
      obtain ⟨c', s', t, hcsk, h'⟩ :=
        collectSecretKeys_allOk ps pks a (mapSet c "password" s.password)
          { s with password := "" } h₀
      exact ⟨c', s', Event.resolve "password" false a :: t,
        by simp [passwordPrompts, hl, hpw, hcsk], h'⟩
    · obtain ⟨v, s₁, hdp, h₁⟩ := displayPasswordPrompt_allOk passPrompt.displayName h
      obtain ⟨c', s', t, hcsk, h'⟩ :=
        collectSecretKeys_allOk ps pks a (mapSet c "password" v) s₁ h₁
      exact ⟨c', s',
        Event.passwordPrompt passPrompt.displayName :: Event.resolve "password" true a :: t,
        by simp [passwordPrompts, hl, hpw, hdp, hcsk], h'⟩

/-! ## Event-kind implications and counting helpers -/

theorem isSecretEvent_isLoopEvent (e : Event) (h : isSecretEvent e = true) :
    isLoopEvent e = true := by
  cases e <;> simp_all [isSecretEvent, isLoopEvent]

theorem isCollectEvent_isMainEvent (e : Event) (h : isCollectEvent e = true) :
    isMainEvent e = true := by
  cases e <;> simp_all [isCollectEvent, isMainEvent]

theorem isLoopEvent_isMainEvent (e : Event) (h : isLoopEvent e = true) :
    isMainEvent e = true := by
  cases e <;> simp_all [isLoopEvent, isMainEvent]

theorem isSecretEvent_not_authCall (e : Event) (h : isSecretEvent e = true) :
    isAuthCall e = false := by
  cases e <;> simp_all [isSecretEvent, isAuthCall]

theorem isCollectEvent_not_authCall (e : Event) (h : isCollectEvent e = true) :
    isAuthCall e = false := by
  cases e <;> simp_all [isCollectEvent, isAuthCall]

theorem authCallCount_append (a b : List Event) :
    authCallCount (a ++ b) = authCallCount a + authCallCount b := by
  simp [authCallCount, List.filter_append]

theorem authCallCount_eq_zero (t : List Event)
    (h : ∀ e ∈ t, isAuthCall e = false) : authCallCount t = 0 := by
  simp only [authCallCount, List.length_eq_zero]
  exact List.filter_eq_nil_iff.mpr (by simpa using h)

theorem passwordPrompts_authCallCount (ps : List (String × AuthPrompt)) (c : Credmap)
    (pks : List String) (a : Nat) (s : St) :
    authCallCount (passwordPrompts ps c pks a s).2.2 = 0 :=
  authCallCount_eq_zero _ fun e he =>
    isSecretEvent_not_authCall e (passwordPrompts_events ps c pks a s e he)

/-! ## `actorAuthenticate` facts -/

theorem actorAuthenticate_events (c : Credmap) (s : St) :
    (actorAuthenticate c s).2.2 = [.authCall c] := by
  cases h : s.authResults <;> simp [actorAuthenticate, h]

theorem actorAuthenticate_result (c : Credmap) (s : St) (r : Option GoError)
    (h : s.authResults.head? = some r) : (actorAuthenticate c s).1 = r := by
  cases h' : s.authResults with
  | nil => rw [h'] at h; cases h
  | cons a rest =>
    rw [h'] at h
    simp only [List.head?_cons, Option.some.injEq] at h
    subst h
    simp [actorAuthenticate, h']

theorem actorAuthenticate_inputs (c : Credmap) (s : St) :
    (actorAuthenticate c s).2.1.inputs = s.inputs := by
  cases h : s.authResults <;> simp [actorAuthenticate, h]

theorem actorAuthenticate_password (c : Credmap) (s : St) :
    (actorAuthenticate c s).2.1.password = s.password := by
  cases h : s.authResults <;> simp [actorAuthenticate, h]

theorem actorAuthenticate_ssoPasscode (c : Credmap) (s : St) :
    (actorAuthenticate c s).2.1.ssoPasscode = s.ssoPasscode := by
  cases h : s.authResults <;> simp [actorAuthenticate, h]

/-! ## `authLoop` lemmas -/

theorem authLoop_events (ps : List (String × AuthPrompt)) (pks : List String) :
    ∀ (fuel : Nat) (c : Credmap) (le : Option GoError) (s : St),
      ∀ e ∈ (authLoop ps c pks fuel le s).2.2.2, isLoopEvent e = true := by
  intro fuel
  induction fuel with
  | zero => intro c le s; simp [authLoop]
  | succ f ih =>
    intro c le s
    rcases hpp : passwordPrompts ps c pks (maxLoginTries - f) s with ⟨r, s', t⟩
    have hppe := passwordPrompts_events ps c pks (maxLoginTries - f) s
    rw [hpp] at hppe
    cases r with
    | error e₀ =>
      have hev : (authLoop ps c pks (f + 1) le s).2.2.2 = t := by
        simp [authLoop, hpp]
      rw [hev]
      exact fun e he => isSecretEvent_isLoopEvent e (hppe e he)
    | ok pair =>
      obtain ⟨copy, shared⟩ := pair
      rcases haa : actorAuthenticate copy s' with ⟨res, s'', t₂⟩
      have ht₂ : t₂ = [.authCall copy] := by
        rw [← actorAuthenticate_events copy s', haa]
      cases res with
      | none =>
        have hev : (authLoop ps c pks (f + 1) le s).2.2.2
            = t ++ [.text "Authenticating..."] ++ t₂ ++ [.okDisplayed, .newline] := by
          simp [authLoop, hpp, haa]
        rw [hev, ht₂]
        refine List.forall_mem_append.mpr ⟨List.forall_mem_append.mpr
          ⟨List.forall_mem_append.mpr ⟨?_, ?_⟩, ?_⟩, ?_⟩
        · exact fun e he => isSecretEvent_isLoopEvent e (hppe e he)
        · simp [isLoopEvent]
        · simp [isLoopEvent]
        · simp [isLoopEvent]
      | some e₀ =>
        by_cases hlock : isAccountLocked e₀ = true
        · have hev : (authLoop ps c pks (f + 1) le s).2.2.2
              = t ++ [.text "Authenticating..."] ++ t₂ ++ [.warning (errText e₀), .newline] := by
            simp [authLoop, hpp, haa, hlock]
          rw [hev, ht₂]
          refine List.forall_mem_append.mpr ⟨List.forall_mem_append.mpr
            ⟨List.forall_mem_append.mpr ⟨?_, ?_⟩, ?_⟩, ?_⟩
          · exact fun e he => isSecretEvent_isLoopEvent e (hppe e he)
          · simp [isLoopEvent]
          · simp [isLoopEvent]
          · simp [isLoopEvent]
        · rcases hrec : authLoop ps shared pks f (some e₀) s'' with ⟨r₃, c₃, s₃, t₃⟩
          have ih' := ih shared (some e₀) s''
          rw [hrec] at ih'
          have hev : (authLoop ps c pks (f + 1) le s).2.2.2
              = t ++ [.text "Authenticating..."] ++ t₂
                ++ [.warning (errText e₀), .newline] ++ t₃ := by
            simp [authLoop, hpp, haa, hlock, hrec]
          rw [hev, ht₂]
          refine List.forall_mem_append.mpr ⟨List.forall_mem_append.mpr
            ⟨List.forall_mem_append.mpr ⟨List.forall_mem_append.mpr ⟨?_, ?_⟩, ?_⟩, ?_⟩, ?_⟩
          · exact fun e he => isSecretEvent_isLoopEvent e (hppe e he)
          · simp [isLoopEvent]
          · simp [isLoopEvent]
          · simp [isLoopEvent]
          · exact ih'

theorem authLoop_count_le (ps : List (String × AuthPrompt)) (pks : List String) :
    ∀ (fuel : Nat) (c : Credmap) (le : Option GoError) (s : St),
      authCallCount (authLoop ps c pks fuel le s).2.2.2 ≤ fuel := by
  intro fuel
  induction fuel with
  | zero => intro c le s; simp [authLoop, authCallCount]
  | succ f ih =>
    intro c le s
    rcases hpp : passwordPrompts ps c pks (maxLoginTries - f) s with ⟨r, s', t⟩
    have hppc0 := passwordPrompts_authCallCount ps c pks (maxLoginTries - f) s
    rw [hpp] at hppc0
    have hppc : authCallCount t = 0 := hppc0
    cases r with
    | error e₀ =>
      have hev : (authLoop ps c pks (f + 1) le s).2.2.2 = t := by
        simp [authLoop, hpp]
      rw [hev, hppc]
      exact Nat.zero_le _
    | ok pair =>
      obtain ⟨copy, shared⟩ := pair
      rcases haa : actorAuthenticate copy s' with ⟨res, s'', t₂⟩
      have ht₂ : t₂ = [.authCall copy] := by
        rw [← actorAuthenticate_events copy s', haa]
      cases res with
      | none =>
        have hev : (authLoop ps c pks (f + 1) le s).2.2.2
            = t ++ [.text "Authenticating..."] ++ t₂ ++ [.okDisplayed, .newline] := by
          simp [authLoop, hpp, haa]
        rw [hev, ht₂]
        simp only [authCallCount_append, hppc]
        have h₁ : authCallCount [Event.text "Authenticating..."] = 0 := by
          simp [authCallCount, isAuthCall, List.filter]
        have h₂ : authCallCount [Event.authCall copy] = 1 := by
          simp [authCallCount, isAuthCall, List.filter]
        have h₃ : authCallCount [Event.okDisplayed, Event.newline] = 0 := by
          simp [authCallCount, isAuthCall, List.filter]
        omega
      | some e₀ =>
        by_cases hlock : isAccountLocked e₀ = true
        · have hev : (authLoop ps c pks (f + 1) le s).2.2.2
              = t ++ [.text "Authenticating..."] ++ t₂ ++ [.warning (errText e₀), .newline] := by
            simp [authLoop, hpp, haa, hlock]
          rw [hev, ht₂]
          simp only [authCallCount_append, hppc]
          have h₁ : authCallCount [Event.text "Authenticating..."] = 0 := by
            simp [authCallCount, isAuthCall, List.filter]
          have h₂ : authCallCount [Event.authCall copy] = 1 := by
            simp [authCallCount, isAuthCall, List.filter]
          have h₃ : authCallCount [Event.warning (errText e₀), Event.newline] = 0 := by
            simp [authCallCount, isAuthCall, List.filter]
          omega
        · rcases hrec : authLoop ps shared pks f (some e₀) s'' with ⟨r₃, c₃, s₃, t₃⟩
          have ih' := ih shared (some e₀) s''
          rw [hrec] at ih'
          have ih'' : authCallCount t₃ ≤ f := ih'
          have hev : (authLoop ps c pks (f + 1) le s).2.2.2
              = t ++ [.text "Authenticating..."] ++ t₂
                ++ [.warning (errText e₀), .newline] ++ t₃ := by
            simp [authLoop, hpp, haa, hlock, hrec]
          rw [hev, ht₂]
          simp only [authCallCount_append, hppc]
          have h₁ : authCallCount [Event.text "Authenticating..."] = 0 := by
            simp [authCallCount, isAuthCall, List.filter]
          have h₂ : authCallCount [Event.authCall copy] = 1 := by
            simp [authCallCount, isAuthCall, List.filter]
          have h₃ : authCallCount [Event.warning (errText e₀), Event.newline] = 0 := by
            simp [authCallCount, isAuthCall, List.filter]
          rw [h₁, h₂, h₃]
          omega

/-- The first iteration of the password-flow loop with a successful first
`Authenticate` outcome: at most one call is made; when in addition every
pending read succeeds, the loop stops after exactly one call with a `nil`
error. -/
theorem authLoop_first_success (ps : List (String × AuthPrompt)) (pks : List String)
    (f : Nat) (c : Credmap) (le : Option GoError) (s : St)
    (h : s.authResults.head? = some none) :
    authCallCount (authLoop ps c pks (f + 1) le s).2.2.2 ≤ 1
    ∧ (allOk s.inputs = true →
        (authLoop ps c pks (f + 1) le s).1 = .ok none
        ∧ authCallCount (authLoop ps c pks (f + 1) le s).2.2.2 = 1) := by
  rcases hpp : passwordPrompts ps c pks (maxLoginTries - f) s with ⟨r, s', t⟩
  have hppc0 := passwordPrompts_authCallCount ps c pks (maxLoginTries - f) s
  rw [hpp] at hppc0
  have hppc : authCallCount t = 0 := hppc0
  have hst := passwordPrompts_state ps c pks (maxLoginTries - f) s
  rw [hpp] at hst
  have hres' : s'.authResults.head? = some none := by rw [inputsPwOnly_authResults hst]; exact h
  cases r with
  | error e₀ =>
    constructor
    · have hev : (authLoop ps c pks (f + 1) le s).2.2.2 = t := by
        simp [authLoop, hpp]
      rw [hev, hppc]
      exact Nat.zero_le _
    · intro hok
      obtain ⟨copy, s₂, t₂, hpp', _⟩ := passwordPrompts_allOk ps c pks (maxLoginTries - f) s hok
      rw [hpp'] at hpp
      cases hpp
  | ok pair =>
    obtain ⟨copy, shared⟩ := pair
    rcases haa : actorAuthenticate copy s' with ⟨res, s'', t₂⟩
    have hr : (actorAuthenticate copy s').1 = none := actorAuthenticate_result copy s' none hres'
    rw [haa] at hr
    subst hr
    have ht₂ : t₂ = [.authCall copy] := by
      rw [← actorAuthenticate_events copy s', haa]
    have hev : (authLoop ps c pks (f + 1) le s).2.2.2
        = t ++ [.text "Authenticating..."] ++ t₂ ++ [.okDisplayed, .newline] := by
      simp [authLoop, hpp, haa]
    have hcount : authCallCount (authLoop ps c pks (f + 1) le s).2.2.2 = 1 := by
      rw [hev, ht₂]
      simp only [authCallCount_append, hppc]
      have h₁ : authCallCount [Event.text "Authenticating..."] = 0 := by
        simp [authCallCount, isAuthCall, List.filter]
      have h₂ : authCallCount [Event.authCall copy] = 1 := by
        simp [authCallCount, isAuthCall, List.filter]
      have h₃ : authCallCount [Event.okDisplayed, Event.newline] = 0 := by
        simp [authCallCount, isAuthCall, List.filter]
      omega
    refine ⟨hcount.le, fun _ => ⟨?_, hcount⟩⟩
    simp [authLoop, hpp, haa]

/-- The first iteration of the password-flow loop with an account-locked
first outcome: the loop stops immediately (at most one call; exactly one
when every pending read succeeds), reporting the account-locked error. -/
theorem authLoop_first_locked (ps : List (String × AuthPrompt)) (pks : List String)
    (f : Nat) (c : Credmap) (le : Option GoError) (s : St) (e₀ : GoError)
    (h : s.authResults.head? = some (some e₀)) (hlock : isAccountLocked e₀ = true) :
    authCallCount (authLoop ps c pks (f + 1) le s).2.2.2 ≤ 1
    ∧ (allOk s.inputs = true →
        (authLoop ps c pks (f + 1) le s).1 = .ok (some e₀)
        ∧ authCallCount (authLoop ps c pks (f + 1) le s).2.2.2 = 1) := by
  rcases hpp : passwordPrompts ps c pks (maxLoginTries - f) s with ⟨r, s', t⟩
  have hppc0 := passwordPrompts_authCallCount ps c pks (maxLoginTries - f) s
  rw [hpp] at hppc0
  have hppc : authCallCount t = 0 := hppc0
  have hst := passwordPrompts_state ps c pks (maxLoginTries - f) s
  rw [hpp] at hst
  have hres' : s'.authResults.head? = some (some e₀) := by rw [inputsPwOnly_authResults hst]; exact h
  cases r with
  | error e₁ =>
    constructor
    · have hev : (authLoop ps c pks (f + 1) le s).2.2.2 = t := by
        simp [authLoop, hpp]
      rw [hev, hppc]
      exact Nat.zero_le _
    · intro hok
      obtain ⟨copy, s₂, t₂, hpp', _⟩ := passwordPrompts_allOk ps c pks (maxLoginTries - f) s hok
      rw [hpp'] at hpp
      cases hpp
  | ok pair =>
    obtain ⟨copy, shared⟩ := pair
    rcases haa : actorAuthenticate copy s' with ⟨res, s'', t₂⟩
    have hr : (actorAuthenticate copy s').1 = some e₀ := actorAuthenticate_result copy s' (some e₀) hres'
    rw [haa] at hr
    subst hr
    have ht₂ : t₂ = [.authCall copy] := by
      rw [← actorAuthenticate_events copy s', haa]
    have hev : (authLoop ps c pks (f + 1) le s).2.2.2
        = t ++ [.text "Authenticating..."] ++ t₂ ++ [.warning (errText e₀), .newline] := by
      simp [authLoop, hpp, haa, hlock]
    have hcount : authCallCount (authLoop ps c pks (f + 1) le s).2.2.2 = 1 := by
      rw [hev, ht₂]
      simp only [authCallCount_append, hppc]
      have h₁ : authCallCount [Event.text "Authenticating..."] = 0 := by
        simp [authCallCount, isAuthCall, List.filter]
      have h₂ : authCallCount [Event.authCall copy] = 1 := by
        simp [authCallCount, isAuthCall, List.filter]
      have h₃ : authCallCount [Event.warning (errText e₀), Event.newline] = 0 := by
        simp [authCallCount, isAuthCall, List.filter]
      omega
    refine ⟨hcount.le, fun _ => ⟨?_, hcount⟩⟩
    simp [authLoop, hpp, haa, hlock]

@[simp] theorem resolvesOf_nil : resolvesOf [] = [] := rfl

@[simp] theorem resolvesOf_append (a b : List Event) :
    resolvesOf (a ++ b) = resolvesOf a ++ resolvesOf b := by
  simp [resolvesOf]

/-- `password` is resolved first (if at all) in a resolution segment. -/
def passwordFirst (l : List (String × Bool × Nat)) : Prop :=
  "password" ∈ l.map (fun x => x.1) → ∃ b n, l.head? = some ("password", b, n)

/-- Keys and attempt-tag bounds of the resolve events of the password-flow
loop called with `fuel` remaining iterations. -/
theorem authLoop_resolves (ps : List (String × AuthPrompt)) (pks : List String) :
    ∀ (fuel : Nat) (c : Credmap) (le : Option GoError) (s : St),
      fuel ≤ maxLoginTries →
      ∀ x ∈ resolvesOf (authLoop ps c pks fuel le s).2.2.2,
        (x.1 = "password" ∨ x.1 ∈ pks)
          ∧ maxLoginTries - fuel < x.2.2 ∧ x.2.2 ≤ maxLoginTries := by
  intro fuel
  induction fuel with
  | zero => intro c le s _; simp [authLoop]
  | succ f ih =>
    intro c le s hf
    have hfm : f < maxLoginTries := hf
    have hpp' := passwordPrompts_resolves ps c pks (maxLoginTries - f) s
    rcases hpp : passwordPrompts ps c pks (maxLoginTries - f) s with ⟨r, s', t⟩
    rw [hpp] at hpp'
    have hppt : ∀ x ∈ resolvesOf t, (x.1 = "password" ∨ x.1 ∈ pks) ∧ x.2.2 = maxLoginTries - f :=
      hpp'
    cases r with
    | error e₀ =>
      have hev : (authLoop ps c pks (f + 1) le s).2.2.2 = t := by
        simp [authLoop, hpp]
      rw [hev]
      intro x hx
      obtain ⟨h₁, h₂⟩ := hppt x hx
      exact ⟨h₁, by omega, by omega⟩
    | ok pair =>
      obtain ⟨copy, shared⟩ := pair
      rcases haa : actorAuthenticate copy s' with ⟨res, s'', t₂⟩
      have ht₂ : t₂ = [.authCall copy] := by
        rw [← actorAuthenticate_events copy s', haa]
      cases res with
      | none =>
        have hev : (authLoop ps c pks (f + 1) le s).2.2.2
            = t ++ [.text "Authenticating..."] ++ t₂ ++ [.okDisplayed, .newline] := by
          simp [authLoop, hpp, haa]
        rw [hev, ht₂]
        intro x hx
        simp only [resolvesOf_append, List.mem_append] at hx
        have hx' : x ∈ resolvesOf t := by
          rcases hx with ((hx | hx) | hx) | hx
          · exact hx
          · simp [resolvesOf] at hx
          · simp [resolvesOf] at hx
          · simp [resolvesOf] at hx
        obtain ⟨h₁, h₂⟩ := hppt x hx'
        exact ⟨h₁, by omega, by omega⟩
      | some e₀ =>
        by_cases hlock : isAccountLocked e₀ = true
        · have hev : (authLoop ps c pks (f + 1) le s).2.2.2
              = t ++ [.text "Authenticating..."] ++ t₂ ++ [.warning (errText e₀), .newline] := by
            simp [authLoop, hpp, haa, hlock]
          rw [hev, ht₂]
          intro x hx
          simp only [resolvesOf_append, List.mem_append] at hx
          have hx' : x ∈ resolvesOf t := by
            rcases hx with ((hx | hx) | hx) | hx
            · exact hx
            · simp [resolvesOf] at hx
            · simp [resolvesOf] at hx
            · simp [resolvesOf] at hx
          obtain ⟨h₁, h₂⟩ := hppt x hx'
          exact ⟨h₁, by omega, by omega⟩
        · rcases hrec : authLoop ps shared pks f (some e₀) s'' with ⟨r₃, c₃, s₃, t₃⟩
          have ih' := ih shared (some e₀) s'' (Nat.le_of_succ_le hf)
          rw [hrec] at ih'
          have ih'' : ∀ x ∈ resolvesOf t₃,
              (x.1 = "password" ∨ x.1 ∈ pks)
                ∧ maxLoginTries - f < x.2.2 ∧ x.2.2 ≤ maxLoginTries := ih'
          have hev : (authLoop ps c pks (f + 1) le s).2.2.2
              = t ++ [.text "Authenticating..."] ++ t₂
                ++ [.warning (errText e₀), .newline] ++ t₃ := by
            simp [authLoop, hpp, haa, hlock, hrec]
          rw [hev, ht₂]
          intro x hx
          simp only [resolvesOf_append, List.mem_append] at hx
          rcases hx with (((hx | hx) | hx) | hx) | hx
          · obtain ⟨h₁, h₂⟩ := hppt x hx
            exact ⟨h₁, by omega, by omega⟩
          · simp [resolvesOf] at hx
          · simp [resolvesOf] at hx
          · simp [resolvesOf] at hx
          · obtain ⟨h₁, h₂, h₃⟩ := ih'' x hx
            exact ⟨h₁, by omega, h₃⟩

/-- Among the resolutions of one `passwordPrompts` call, `password` (when
resolved at all) comes first. -/
theorem passwordPrompts_passwordFirst (ps : List (String × AuthPrompt)) (c : Credmap)
    (pks : List String) (a : Nat) (s : St) (hpks : "password" ∉ pks) :
    passwordFirst (resolvesOf (passwordPrompts ps c pks a s).2.2) := by
  cases hl : List.lookup "password" ps with
  | none =>
    intro hmem
    exfalso
    obtain ⟨x, hx, hx1⟩ := List.mem_map.mp hmem
    obtain ⟨h₁, _, _⟩ := passwordPrompts_shape_none ps c pks a s hl x hx
    rw [hx1] at h₁
    exact hpks h₁
  | some p =>
    rcases passwordPrompts_shape_some ps c pks a s (by simp [hl]) with h | ⟨b, rest, hr, _, _⟩
    · intro hmem
      rw [h] at hmem
      simp at hmem
    · intro _
      rw [hr]
      exact ⟨b, a, rfl⟩

/-- Within every single attempt of the password-flow loop, `password` is
resolved before any other secret: filtering the resolve events to one
attempt tag always yields a `password`-first segment. -/
theorem authLoop_attempt_filter (ps : List (String × AuthPrompt)) (pks : List String)
    (hpks : "password" ∉ pks) :
    ∀ (fuel : Nat) (c : Credmap) (le : Option GoError) (s : St),
      fuel ≤ maxLoginTries → ∀ a : Nat,
      passwordFirst ((resolvesOf (authLoop ps c pks fuel le s).2.2.2).filter
        (fun x => x.2.2 == a)) := by
  intro fuel
  induction fuel with
  | zero => intro c le s _ a; simp [authLoop, passwordFirst]
  | succ f ih =>
    intro c le s hf a
    have hfm : f < maxLoginTries := hf
    have hppr := passwordPrompts_resolves ps c pks (maxLoginTries - f) s
    have hppf := passwordPrompts_passwordFirst ps c pks (maxLoginTries - f) s hpks
    rcases hpp : passwordPrompts ps c pks (maxLoginTries - f) s with ⟨r, s', t⟩
    rw [hpp] at hppr hppf
    have hppt : ∀ x ∈ resolvesOf t, x.2.2 = maxLoginTries - f := fun x hx => (hppr x hx).2
    have hppf' : passwordFirst (resolvesOf t) := hppf
    by_cases ha : a = maxLoginTries - f
    · subst ha
      have hfe : (resolvesOf t).filter (fun x => x.2.2 == maxLoginTries - f) = resolvesOf t :=
        List.filter_eq_self.mpr (fun x hx => by simp [hppt x hx])
      cases r with
      | error e₀ =>
        have hev : (authLoop ps c pks (f + 1) le s).2.2.2 = t := by
          simp [authLoop, hpp]
        rw [hev, hfe]
        exact hppf'
      | ok pair =>
        obtain ⟨copy, shared⟩ := pair
        rcases haa : actorAuthenticate copy s' with ⟨res, s'', t₂⟩
        have ht₂ : t₂ = [.authCall copy] := by
          rw [← actorAuthenticate_events copy s', haa]
        cases res with
        | none =>
          have hev : (authLoop ps c pks (f + 1) le s).2.2.2
              = t ++ [.text "Authenticating..."] ++ t₂ ++ [.okDisplayed, .newline] := by
            simp [authLoop, hpp, haa]
          have hres : resolvesOf (authLoop ps c pks (f + 1) le s).2.2.2 = resolvesOf t := by
            rw [hev, ht₂]
            simp [resolvesOf_append]
            simp [resolvesOf]
          rw [hres, hfe]
          exact hppf'
        | some e₀ =>
          by_cases hlock : isAccountLocked e₀ = true
          · have hev : (authLoop ps c pks (f + 1) le s).2.2.2
                = t ++ [.text "Authenticating..."] ++ t₂ ++ [.warning (errText e₀), .newline] := by
              simp [authLoop, hpp, haa, hlock]
            have hres : resolvesOf (authLoop ps c pks (f + 1) le s).2.2.2 = resolvesOf t := by
              rw [hev, ht₂]
              simp [resolvesOf_append]
              simp [resolvesOf]
            rw [hres, hfe]
            exact hppf'
          · rcases hrec : authLoop ps shared pks f (some e₀) s'' with ⟨r₃, c₃, s₃, t₃⟩
            have hrt := authLoop_resolves ps pks f shared (some e₀) s'' (Nat.le_of_succ_le hf)
            rw [hrec] at hrt
            have hrt' : ∀ x ∈ resolvesOf t₃, maxLoginTries - f < x.2.2 :=
              fun x hx => (hrt x hx).2.1
            have hev : (authLoop ps c pks (f + 1) le s).2.2.2
                = t ++ [.text "Authenticating..."] ++ t₂
                  ++ [.warning (errText e₀), .newline] ++ t₃ := by
              simp [authLoop, hpp, haa, hlock, hrec]
            have hres : resolvesOf (authLoop ps c pks (f + 1) le s).2.2.2
                = resolvesOf t ++ resolvesOf t₃ := by
              rw [hev, ht₂]
              simp [resolvesOf_append]
              simp [resolvesOf]
            rw [hres]
            have hfe₃ : (resolvesOf t₃).filter (fun x => x.2.2 == maxLoginTries - f) = [] :=
              List.filter_eq_nil_iff.mpr (fun x hx => by
                have := hrt' x hx
                simp only [beq_iff_eq]
                omega)
            rw [List.filter_append, hfe, hfe₃, List.append_nil]
            exact hppf'
    · have hfe : (resolvesOf t).filter (fun x => x.2.2 == a) = [] :=
        List.filter_eq_nil_iff.mpr (fun x hx => by
          have := hppt x hx
          simp only [beq_iff_eq]
          omega)
      cases r with
      | error e₀ =>
        have hev : (authLoop ps c pks (f + 1) le s).2.2.2 = t := by
          simp [authLoop, hpp]
        rw [hev, hfe]
        intro hmem
        simp at hmem
      | ok pair =>
        obtain ⟨copy, shared⟩ := pair
        rcases haa : actorAuthenticate copy s' with ⟨res, s'', t₂⟩
        have ht₂ : t₂ = [.authCall copy] := by
          rw [← actorAuthenticate_events copy s', haa]
        cases res with
        | none =>
          have hev : (authLoop ps c pks (f + 1) le s).2.2.2
              = t ++ [.text "Authenticating..."] ++ t₂ ++ [.okDisplayed, .newline] := by
            simp [authLoop, hpp, haa]
          have hres : resolvesOf (authLoop ps c pks (f + 1) le s).2.2.2 = resolvesOf t := by
            rw [hev, ht₂]
            simp [resolvesOf_append]
            simp [resolvesOf]
          rw [hres, hfe]
          intro hmem
          simp at hmem
        | some e₀ =>
          by_cases hlock : isAccountLocked e₀ = true
          · have hev : (authLoop ps c pks (f + 1) le s).2.2.2
                = t ++ [.text "Authenticating..."] ++ t₂ ++ [.warning (errText e₀), .newline] := by
              simp [authLoop, hpp, haa, hlock]
            have hres : resolvesOf (authLoop ps c pks (f + 1) le s).2.2.2 = resolvesOf t := by
              rw [hev, ht₂]
              simp [resolvesOf_append]
              simp [resolvesOf]
            rw [hres, hfe]
            intro hmem
            simp at hmem
          · rcases hrec : authLoop ps shared pks f (some e₀) s'' with ⟨r₃, c₃, s₃, t₃⟩
            have ih' := ih shared (some e₀) s'' (Nat.le_of_succ_le hf) a
            rw [hrec] at ih'
            have ih'' : passwordFirst ((resolvesOf t₃).filter (fun x => x.2.2 == a)) := ih'
            have hev : (authLoop ps c pks (f + 1) le s).2.2.2
                = t ++ [.text "Authenticating..."] ++ t₂
                  ++ [.warning (errText e₀), .newline] ++ t₃ := by
              simp [authLoop, hpp, haa, hlock, hrec]
            have hres : resolvesOf (authLoop ps c pks (f + 1) le s).2.2.2
                = resolvesOf t ++ resolvesOf t₃ := by
              rw [hev, ht₂]
              simp [resolvesOf_append]
              simp [resolvesOf]
            rw [hres, List.filter_append, hfe, List.nil_append]
            exact ih''

/-- Once the pre-supplied password is cleared, every later resolution of the
`password` prompt is interactive. -/
theorem authLoop_interactive_of_empty (ps : List (String × AuthPrompt)) (pks : List String) :
    ∀ (fuel : Nat) (c : Credmap) (le : Option GoError) (s : St),
      s.password = "" →
      ∀ x ∈ resolvesOf (authLoop ps c pks fuel le s).2.2.2, x.2.1 = true := by
  intro fuel
  induction fuel with
  | zero => intro c le s _; simp [authLoop]
  | succ f ih =>
    intro c le s hpw
    have hppe := passwordPrompts_empty_password ps c pks (maxLoginTries - f) s hpw
    rcases hpp : passwordPrompts ps c pks (maxLoginTries - f) s with ⟨r, s', t⟩
    rw [hpp] at hppe
    obtain ⟨hpw', hint⟩ := hppe
    have hpw'' : s'.password = "" := hpw'
    have hint' : ∀ x ∈ resolvesOf t, x.2.1 = true := hint
    cases r with
    | error e₀ =>
      have hev : (authLoop ps c pks (f + 1) le s).2.2.2 = t := by
        simp [authLoop, hpp]
      rw [hev]
      exact hint'
    | ok pair =>
      obtain ⟨copy, shared⟩ := pair
      rcases haa : actorAuthenticate copy s' with ⟨res, s'', t₂⟩
      have ht₂ : t₂ = [.authCall copy] := by
        rw [← actorAuthenticate_events copy s', haa]
      have hpw₂ : s''.password = "" := by
        have := actorAuthenticate_password copy s'
        rw [haa] at this
        have h' : s''.password = s'.password := this
        rw [h', hpw'']
      cases res with
      | none =>
        have hev : (authLoop ps c pks (f + 1) le s).2.2.2
            = t ++ [.text "Authenticating..."] ++ t₂ ++ [.okDisplayed, .newline] := by
          simp [authLoop, hpp, haa]
        have hres : resolvesOf (authLoop ps c pks (f + 1) le s).2.2.2 = resolvesOf t := by
          rw [hev, ht₂]
          simp [resolvesOf_append]
          simp [resolvesOf]
        rw [hres]
        exact hint'
      | some e₀ =>
        by_cases hlock : isAccountLocked e₀ = true
        · have hev : (authLoop ps c pks (f + 1) le s).2.2.2
              = t ++ [.text "Authenticating..."] ++ t₂ ++ [.warning (errText e₀), .newline] := by
            simp [authLoop, hpp, haa, hlock]
          have hres : resolvesOf (authLoop ps c pks (f + 1) le s).2.2.2 = resolvesOf t := by
            rw [hev, ht₂]
            simp [resolvesOf_append]
            simp [resolvesOf]
          rw [hres]
          exact hint'
        · rcases hrec : authLoop ps shared pks f (some e₀) s'' with ⟨r₃, c₃, s₃, t₃⟩
          have ih' := ih shared (some e₀) s'' hpw₂
          rw [hrec] at ih'
          have ih'' : ∀ x ∈ resolvesOf t₃, x.2.1 = true := ih'
          have hev : (authLoop ps c pks (f + 1) le s).2.2.2
              = t ++ [.text "Authenticating..."] ++ t₂
                ++ [.warning (errText e₀), .newline] ++ t₃ := by
            simp [authLoop, hpp, haa, hlock, hrec]
          have hres : resolvesOf (authLoop ps c pks (f + 1) le s).2.2.2
              = resolvesOf t ++ resolvesOf t₃ := by
            rw [hev, ht₂]
            simp [resolvesOf_append]
            simp [resolvesOf]
          rw [hres]
          intro x hx
          rcases List.mem_append.mp hx with hx | hx
          · exact hint' x hx
          · exact ih'' x hx

/-- Without a `password` prompt in the schema (and `password` not among the
deferred keys), the loop never resolves a `password` credential. -/
theorem authLoop_no_password_key (ps : List (String × AuthPrompt)) (pks : List String)
    (hl : List.lookup "password" ps = none) (hpks : "password" ∉ pks) :
    ∀ (fuel : Nat) (c : Credmap) (le : Option GoError) (s : St),
      ∀ x ∈ resolvesOf (authLoop ps c pks fuel le s).2.2.2, x.1 ≠ "password" := by
  intro fuel
  induction fuel with
  | zero => intro c le s; simp [authLoop]
  | succ f ih =>
    intro c le s
    have hppn := passwordPrompts_shape_none ps c pks (maxLoginTries - f) s hl
    rcases hpp : passwordPrompts ps c pks (maxLoginTries - f) s with ⟨r, s', t⟩
    rw [hpp] at hppn
    have hppn' : ∀ x ∈ resolvesOf t, x.1 ≠ "password" := fun x hx => by
      obtain ⟨h₁, _, _⟩ := hppn x hx
      intro he
      rw [he] at h₁
      exact hpks h₁
    cases r with
    | error e₀ =>
      have hev : (authLoop ps c pks (f + 1) le s).2.2.2 = t := by
        simp [authLoop, hpp]
      rw [hev]
      exact hppn'
    | ok pair =>
      obtain ⟨copy, shared⟩ := pair
      rcases haa : actorAuthenticate copy s' with ⟨res, s'', t₂⟩
      have ht₂ : t₂ = [.authCall copy] := by
        rw [← actorAuthenticate_events copy s', haa]
      cases res with
      | none =>
        have hres : resolvesOf (authLoop ps c pks (f + 1) le s).2.2.2 = resolvesOf t := by
          have hev : (authLoop ps c pks (f + 1) le s).2.2.2
              = t ++ [.text "Authenticating..."] ++ t₂ ++ [.okDisplayed, .newline] := by
            simp [authLoop, hpp, haa]
          rw [hev, ht₂]
          simp [resolvesOf_append]
          simp [resolvesOf]
        rw [hres]
        exact hppn'
      | some e₀ =>
        by_cases hlock : isAccountLocked e₀ = true
        · have hres : resolvesOf (authLoop ps c pks (f + 1) le s).2.2.2 = resolvesOf t := by
            have hev : (authLoop ps c pks (f + 1) le s).2.2.2
                = t ++ [.text "Authenticating..."] ++ t₂ ++ [.warning (errText e₀), .newline] := by
              simp [authLoop, hpp, haa, hlock]
            rw [hev, ht₂]
            simp [resolvesOf_append]
            simp [resolvesOf]
          rw [hres]
          exact hppn'
        · rcases hrec : authLoop ps shared pks f (some e₀) s'' with ⟨r₃, c₃, s₃, t₃⟩
          have ih' := ih shared (some e₀) s''
          rw [hrec] at ih'
          have ih'' : ∀ x ∈ resolvesOf t₃, x.1 ≠ "password" := ih'
          have hres : resolvesOf (authLoop ps c pks (f + 1) le s).2.2.2
              = resolvesOf t ++ resolvesOf t₃ := by
            have hev : (authLoop ps c pks (f + 1) le s).2.2.2
                = t ++ [.text "Authenticating..."] ++ t₂
                  ++ [.warning (errText e₀), .newline] ++ t₃ := by
              simp [authLoop, hpp, haa, hlock, hrec]
            rw [hev, ht₂]
            simp [resolvesOf_append]
            simp [resolvesOf]
          rw [hres]
          intro x hx
          rcases List.mem_append.mp hx with hx | hx
          · exact hppn' x hx
          · exact ih'' x hx

/-- With a `password` prompt and a pending pre-supplied password, the loop's
first resolution is the non-interactive flag consumption on the current
attempt, and every subsequent `password` resolution is interactive. -/
theorem authLoop_flag (ps : List (String × AuthPrompt)) (pks : List String)
    (p : AuthPrompt) (hl : List.lookup "password" ps = some p)
    (f : Nat) (c : Credmap) (le : Option GoError) (s : St) (hpw : s.password ≠ "") :
    ∃ rest, resolvesOf (authLoop ps c pks (f + 1) le s).2.2.2
        = ("password", false, maxLoginTries - f) :: rest
      ∧ ∀ x ∈ rest, x.2.1 = true := by
  have hflag := passwordPrompts_flag ps c pks (maxLoginTries - f) s p hl hpw
  rcases hpp : passwordPrompts ps c pks (maxLoginTries - f) s with ⟨r, s', t⟩
  rw [hpp] at hflag
  obtain ⟨hpw', rest₁, hres₁, hint₁⟩ := hflag
  have hpw'' : s'.password = "" := hpw'
  have hres₁' : resolvesOf t = ("password", false, maxLoginTries - f) :: rest₁ := hres₁
  cases r with
  | error e₀ =>
    have hev : (authLoop ps c pks (f + 1) le s).2.2.2 = t := by
      simp [authLoop, hpp]
    exact ⟨rest₁, by rw [hev, hres₁'], hint₁⟩
  | ok pair =>
    obtain ⟨copy, shared⟩ := pair
    rcases haa : actorAuthenticate copy s' with ⟨res, s'', t₂⟩
    have ht₂ : t₂ = [.authCall copy] := by
      rw [← actorAuthenticate_events copy s', haa]
    have hpw₂ : s''.password = "" := by
      have := actorAuthenticate_password copy s'
      rw [haa] at this
      have h' : s''.password = s'.password := this
      rw [h', hpw'']
    cases res with
    | none =>
      have hres : resolvesOf (authLoop ps c pks (f + 1) le s).2.2.2 = resolvesOf t := by
        have hev : (authLoop ps c pks (f + 1) le s).2.2.2
            = t ++ [.text "Authenticating..."] ++ t₂ ++ [.okDisplayed, .newline] := by
          simp [authLoop, hpp, haa]
        rw [hev, ht₂]
        simp [resolvesOf_append]
        simp [resolvesOf]
      exact ⟨rest₁, by rw [hres, hres₁'], hint₁⟩
    | some e₀ =>
      by_cases hlock : isAccountLocked e₀ = true
      · have hres : resolvesOf (authLoop ps c pks (f + 1) le s).2.2.2 = resolvesOf t := by
          have hev : (authLoop ps c pks (f + 1) le s).2.2.2
              = t ++ [.text "Authenticating..."] ++ t₂ ++ [.warning (errText e₀), .newline] := by
            simp [authLoop, hpp, haa, hlock]
          rw [hev, ht₂]
          simp [resolvesOf_append]
          simp [resolvesOf]
        exact ⟨rest₁, by rw [hres, hres₁'], hint₁⟩
      · rcases hrec : authLoop ps shared pks f (some e₀) s'' with ⟨r₃, c₃, s₃, t₃⟩
        have ih' := authLoop_interactive_of_empty ps pks f shared (some e₀) s'' hpw₂
        rw [hrec] at ih'
        have ih'' : ∀ x ∈ resolvesOf t₃, x.2.1 = true := ih'
        have hres : resolvesOf (authLoop ps c pks (f + 1) le s).2.2.2
            = resolvesOf t ++ resolvesOf t₃ := by
          have hev : (authLoop ps c pks (f + 1) le s).2.2.2
              = t ++ [.text "Authenticating..."] ++ t₂
                ++ [.warning (errText e₀), .newline] ++ t₃ := by
            simp [authLoop, hpp, haa, hlock, hrec]
          rw [hev, ht₂]
          simp [resolvesOf_append]
          simp [resolvesOf]
        refine ⟨rest₁ ++ resolvesOf t₃, by rw [hres, hres₁']; simp, ?_⟩
        intro x hx
        rcases List.mem_append.mp hx with hx | hx
        · exact hint₁ x hx
        · exact ih'' x hx

/-! ## `ssoLoop` lemmas -/

theorem ssoLoop_step (ps : List (String × AuthPrompt)) (c : Credmap) (f : Nat)
    (le : Option GoError) (s : St) :
    (s.ssoPasscode ≠ "" →
      ssoLoop ps c (f + 1) le s =
        (match actorAuthenticate (mapSet c "passcode" s.ssoPasscode) { s with ssoPasscode := "" } with
          | (none, s'', t₂) =>
            (.ok none, mapSet c "passcode" s.ssoPasscode, s'',
              [.resolve "passcode" false (maxLoginTries - f)] ++ [.text "Authenticating..."]
                ++ t₂ ++ [.okDisplayed, .newline])
          | (some e, s'', t₂) =>
            match ssoLoop ps (mapSet c "passcode" s.ssoPasscode) f (some e) s'' with
            | (r, c', s₃, t₃) =>
              (r, c', s₃, [.resolve "passcode" false (maxLoginTries - f)]
                ++ [.text "Authenticating..."] ++ t₂
                ++ [.warning (errText e), .newline] ++ t₃))) := by
  intro hsso
  simp [ssoLoop, hsso]

theorem ssoLoop_events (ps : List (String × AuthPrompt)) :
    ∀ (fuel : Nat) (c : Credmap) (le : Option GoError) (s : St),
      ∀ e ∈ (ssoLoop ps c fuel le s).2.2.2, isLoopEvent e = true := by
  intro fuel
  induction fuel with
  | zero => intro c le s; simp [ssoLoop]
  | succ f ih =>
    intro c le s
    by_cases hsso : s.ssoPasscode ≠ ""
    · rcases haa : actorAuthenticate (mapSet c "passcode" s.ssoPasscode)
        { s with ssoPasscode := "" } with ⟨res, s'', t₂⟩
      have ht₂ : t₂ = [.authCall (mapSet c "passcode" s.ssoPasscode)] := by
        rw [← actorAuthenticate_events (mapSet c "passcode" s.ssoPasscode)
          { s with ssoPasscode := "" }, haa]
      cases res with
      | none =>
        have hev : (ssoLoop ps c (f + 1) le s).2.2.2
            = [.resolve "passcode" false (maxLoginTries - f)] ++ [.text "Authenticating..."]
              ++ t₂ ++ [.okDisplayed, .newline] := by
          rw [ssoLoop_step ps c f le s hsso, haa]
        rw [hev, ht₂]
        refine List.forall_mem_append.mpr ⟨List.forall_mem_append.mpr
          ⟨List.forall_mem_append.mpr ⟨?_, ?_⟩, ?_⟩, ?_⟩ <;> simp [isLoopEvent]
      | some e₀ =>
        rcases hrec : ssoLoop ps (mapSet c "passcode" s.ssoPasscode) f (some e₀) s''
          with ⟨r₃, c₃, s₃, t₃⟩
        have ih' := ih (mapSet c "passcode" s.ssoPasscode) (some e₀) s''
        rw [hrec] at ih'
        have hev : (ssoLoop ps c (f + 1) le s).2.2.2
            = [.resolve "passcode" false (maxLoginTries - f)] ++ [.text "Authenticating..."]
              ++ t₂ ++ [.warning (errText e₀), .newline] ++ t₃ := by
          rw [ssoLoop_step ps c f le s hsso, haa]
          simp only [hrec]
        rw [hev, ht₂]
        refine List.forall_mem_append.mpr ⟨List.forall_mem_append.mpr
          ⟨List.forall_mem_append.mpr ⟨List.forall_mem_append.mpr ⟨?_, ?_⟩, ?_⟩, ?_⟩, ?_⟩
        · simp [isLoopEvent]
        · simp [isLoopEvent]
        · simp [isLoopEvent]
        · simp [isLoopEvent]
        · exact ih'
    · rcases hdp : displayPasswordPrompt
        (((List.lookup "passcode" ps).map AuthPrompt.displayName).getD "") s with ⟨r, s', t⟩
      have ht : t = [.passwordPrompt (((List.lookup "passcode" ps).map AuthPrompt.displayName).getD "")] := by
        rw [← displayPasswordPrompt_events
          (((List.lookup "passcode" ps).map AuthPrompt.displayName).getD "") s, hdp]
      cases r with
      | error e₀ =>
        have hev : (ssoLoop ps c (f + 1) le s).2.2.2 = t := by
          simp [ssoLoop, hsso, hdp]
        rw [hev, ht]
        simp [isLoopEvent]
      | ok v =>
        rcases haa : actorAuthenticate (mapSet c "passcode" v) s' with ⟨res, s'', t₂⟩
        have ht₂ : t₂ = [.authCall (mapSet c "passcode" v)] := by
          rw [← actorAuthenticate_events (mapSet c "passcode" v) s', haa]
        cases res with
        | none =>
          have hev : (ssoLoop ps c (f + 1) le s).2.2.2
              = (t ++ [.resolve "passcode" true (maxLoginTries - f)]) ++ [.text "Authenticating..."]
                ++ t₂ ++ [.okDisplayed, .newline] := by
            simp [ssoLoop, hsso, hdp, haa]
          rw [hev, ht, ht₂]
          refine List.forall_mem_append.mpr ⟨List.forall_mem_append.mpr
            ⟨List.forall_mem_append.mpr ⟨?_, ?_⟩, ?_⟩, ?_⟩ <;> simp [isLoopEvent]
        | some e₀ =>
          rcases hrec : ssoLoop ps (mapSet c "passcode" v) f (some e₀) s''
            with ⟨r₃, c₃, s₃, t₃⟩
          have ih' := ih (mapSet c "passcode" v) (some e₀) s''
          rw [hrec] at ih'
          have hev : (ssoLoop ps c (f + 1) le s).2.2.2
              = (t ++ [.resolve "passcode" true (maxLoginTries - f)]) ++ [.text "Authenticating..."]
                ++ t₂ ++ [.warning (errText e₀), .newline] ++ t₃ := by
            simp [ssoLoop, hsso, hdp, haa, hrec]
          rw [hev, ht, ht₂]
          refine List.forall_mem_append.mpr ⟨List.forall_mem_append.mpr
            ⟨List.forall_mem_append.mpr ⟨List.forall_mem_append.mpr ⟨?_, ?_⟩, ?_⟩, ?_⟩, ?_⟩
          · simp [isLoopEvent]
          · simp [isLoopEvent]
          · simp [isLoopEvent]
          · simp [isLoopEvent]
          · exact ih'

theorem ssoLoop_count_le (ps : List (String × AuthPrompt)) :
    ∀ (fuel : Nat) (c : Credmap) (le : Option GoError) (s : St),
      authCallCount (ssoLoop ps c fuel le s).2.2.2 ≤ fuel := by
  intro fuel
  induction fuel with
  | zero => intro c le s; simp [ssoLoop, authCallCount]
  | succ f ih =>
    intro c le s
    have hcl : ∀ (cc : Credmap),
        authCallCount ([Event.resolve "passcode" false (maxLoginTries - f)]
          ++ [Event.text "Authenticating..."] ++ [Event.authCall cc]
          ++ [Event.okDisplayed, Event.newline]) = 1 := by
      intro cc
      simp [authCallCount, isAuthCall, List.filter]
    by_cases hsso : s.ssoPasscode ≠ ""
    · rcases haa : actorAuthenticate (mapSet c "passcode" s.ssoPasscode)
        { s with ssoPasscode := "" } with ⟨res, s'', t₂⟩
      have ht₂ : t₂ = [.authCall (mapSet c "passcode" s.ssoPasscode)] := by
        rw [← actorAuthenticate_events (mapSet c "passcode" s.ssoPasscode)
          { s with ssoPasscode := "" }, haa]
      cases res with
      | none =>
        have hev : (ssoLoop ps c (f + 1) le s).2.2.2
            = [.resolve "passcode" false (maxLoginTries - f)] ++ [.text "Authenticating..."]
              ++ t₂ ++ [.okDisplayed, .newline] := by
          rw [ssoLoop_step ps c f le s hsso, haa]
        rw [hev, ht₂]
        rw [hcl]
        omega
      | some e₀ =>
        rcases hrec : ssoLoop ps (mapSet c "passcode" s.ssoPasscode) f (some e₀) s''
          with ⟨r₃, c₃, s₃, t₃⟩
        have ih' := ih (mapSet c "passcode" s.ssoPasscode) (some e₀) s''
        rw [hrec] at ih'
        have ih'' : authCallCount t₃ ≤ f := ih'
        have hev : (ssoLoop ps c (f + 1) le s).2.2.2
            = [.resolve "passcode" false (maxLoginTries - f)] ++ [.text "Authenticating..."]
              ++ t₂ ++ [.warning (errText e₀), .newline] ++ t₃ := by
          rw [ssoLoop_step ps c f le s hsso, haa]
          simp only [hrec]
        rw [hev, ht₂]
        simp only [authCallCount_append]
        have h₁ : authCallCount [Event.resolve "passcode" false (maxLoginTries - f)] = 0 := by
          simp [authCallCount, isAuthCall, List.filter]
        have h₂ : authCallCount [Event.text "Authenticating..."] = 0 := by
          simp [authCallCount, isAuthCall, List.filter]
        have h₃ : authCallCount [Event.authCall (mapSet c "passcode" s.ssoPasscode)] = 1 := by
          simp [authCallCount, isAuthCall, List.filter]
        have h₄ : authCallCount [Event.warning (errText e₀), Event.newline] = 0 := by
          simp [authCallCount, isAuthCall, List.filter]
        rw [h₁, h₂, h₃, h₄]
        omega
    · rcases hdp : displayPasswordPrompt
        (((List.lookup "passcode" ps).map AuthPrompt.displayName).getD "") s with ⟨r, s', t⟩
      have ht : t = [.passwordPrompt (((List.lookup "passcode" ps).map AuthPrompt.displayName).getD "")] := by
        rw [← displayPasswordPrompt_events
          (((List.lookup "passcode" ps).map AuthPrompt.displayName).getD "") s, hdp]
      cases r with
      | error e₀ =>
        have hev : (ssoLoop ps c (f + 1) le s).2.2.2 = t := by
          simp [ssoLoop, hsso, hdp]
        rw [hev, ht]
        simp [authCallCount, isAuthCall, List.filter]
      | ok v =>
        rcases haa : actorAuthenticate (mapSet c "passcode" v) s' with ⟨res, s'', t₂⟩
        have ht₂ : t₂ = [.authCall (mapSet c "passcode" v)] := by
          rw [← actorAuthenticate_events (mapSet c "passcode" v) s', haa]
        cases res with
        | none =>
          have hev : (ssoLoop ps c (f + 1) le s).2.2.2
              = (t ++ [.resolve "passcode" true (maxLoginTries - f)]) ++ [.text "Authenticating..."]
                ++ t₂ ++ [.okDisplayed, .newline] := by
            simp [ssoLoop, hsso, hdp, haa]
          rw [hev, ht, ht₂]
          simp [authCallCount, isAuthCall, List.filter, List.filter_append]
        | some e₀ =>
          rcases hrec : ssoLoop ps (mapSet c "passcode" v) f (some e₀) s''
            with ⟨r₃, c₃, s₃, t₃⟩
          have ih' := ih (mapSet c "passcode" v) (some e₀) s''
          rw [hrec] at ih'
          have ih'' : authCallCount t₃ ≤ f := ih'
          have hev : (ssoLoop ps c (f + 1) le s).2.2.2
              = (t ++ [.resolve "passcode" true (maxLoginTries - f)]) ++ [.text "Authenticating..."]
                ++ t₂ ++ [.warning (errText e₀), .newline] ++ t₃ := by
            simp [ssoLoop, hsso, hdp, haa, hrec]
          rw [hev, ht, ht₂]
          simp only [authCallCount_append]
          have h₀ : authCallCount [Event.passwordPrompt (((List.lookup "passcode" ps).map AuthPrompt.displayName).getD "")] = 0 := by
            simp [authCallCount, isAuthCall, List.filter]
          have h₁ : authCallCount [Event.resolve "passcode" true (maxLoginTries - f)] = 0 := by
            simp [authCallCount, isAuthCall, List.filter]
          have h₂ : authCallCount [Event.text "Authenticating..."] = 0 := by
            simp [authCallCount, isAuthCall, List.filter]
          have h₃ : authCallCount [Event.authCall (mapSet c "passcode" v)] = 1 := by
            simp [authCallCount, isAuthCall, List.filter]
          have h₄ : authCallCount [Event.warning (errText e₀), Event.newline] = 0 := by
            simp [authCallCount, isAuthCall, List.filter]
          rw [h₀, h₁, h₂, h₃, h₄]
          omega

/-- The first iteration of the SSO loop with a successful first
`Authenticate` outcome: at most one call; with all pending reads succeeding,
exactly one call and a `nil` loop error. -/
theorem ssoLoop_first_success (ps : List (String × AuthPrompt))
    (f : Nat) (c : Credmap) (le : Option GoError) (s : St)
    (h : s.authResults.head? = some none) :
    authCallCount (ssoLoop ps c (f + 1) le s).2.2.2 ≤ 1
    ∧ (allOk s.inputs = true →
        (ssoLoop ps c (f + 1) le s).1 = .ok none
        ∧ authCallCount (ssoLoop ps c (f + 1) le s).2.2.2 = 1) := by
  by_cases hsso : s.ssoPasscode ≠ ""
  · rcases haa : actorAuthenticate (mapSet c "passcode" s.ssoPasscode)
      { s with ssoPasscode := "" } with ⟨res, s'', t₂⟩
    have hr : (actorAuthenticate (mapSet c "passcode" s.ssoPasscode)
        { s with ssoPasscode := "" }).1 = none :=
      actorAuthenticate_result _ _ none h
    rw [haa] at hr
    subst hr
    have ht₂ : t₂ = [.authCall (mapSet c "passcode" s.ssoPasscode)] := by
      rw [← actorAuthenticate_events (mapSet c "passcode" s.ssoPasscode)
        { s with ssoPasscode := "" }, haa]
    have hev : (ssoLoop ps c (f + 1) le s).2.2.2
        = [.resolve "passcode" false (maxLoginTries - f)] ++ [.text "Authenticating..."]
          ++ t₂ ++ [.okDisplayed, .newline] := by
      rw [ssoLoop_step ps c f le s hsso, haa]
    have hcount : authCallCount (ssoLoop ps c (f + 1) le s).2.2.2 = 1 := by
      rw [hev, ht₂]
      simp [authCallCount, isAuthCall, List.filter, List.filter_append]
    have hres : (ssoLoop ps c (f + 1) le s).1 = .ok none := by
      rw [ssoLoop_step ps c f le s hsso, haa]
    exact ⟨hcount.le, fun _ => ⟨hres, hcount⟩⟩
  · rcases hdp : displayPasswordPrompt
      (((List.lookup "passcode" ps).map AuthPrompt.displayName).getD "") s with ⟨r, s', t⟩
    have hst := displayPasswordPrompt_state
      (((List.lookup "passcode" ps).map AuthPrompt.displayName).getD "") s
    rw [hdp] at hst
    have ht : t = [.passwordPrompt (((List.lookup "passcode" ps).map AuthPrompt.displayName).getD "")] := by
      rw [← displayPasswordPrompt_events
        (((List.lookup "passcode" ps).map AuthPrompt.displayName).getD "") s, hdp]
    cases r with
    | error e₀ =>
      constructor
      · have hev : (ssoLoop ps c (f + 1) le s).2.2.2 = t := by
          simp [ssoLoop, hsso, hdp]
        rw [hev, ht]
        simp [authCallCount, isAuthCall, List.filter]
      · intro hok
        obtain ⟨v, s₁, hdp', _⟩ := displayPasswordPrompt_allOk
          (((List.lookup "passcode" ps).map AuthPrompt.displayName).getD "") hok
        rw [hdp'] at hdp
        cases hdp
    | ok v =>
      rcases haa : actorAuthenticate (mapSet c "passcode" v) s' with ⟨res, s'', t₂⟩
      have hres' : s'.authResults.head? = some none := by rw [inputsOnly_authResults hst]; exact h
      have hr : (actorAuthenticate (mapSet c "passcode" v) s').1 = none :=
        actorAuthenticate_result _ _ none hres'
      rw [haa] at hr
      subst hr
      have ht₂ : t₂ = [.authCall (mapSet c "passcode" v)] := by
        rw [← actorAuthenticate_events (mapSet c "passcode" v) s', haa]
      have hev : (ssoLoop ps c (f + 1) le s).2.2.2
          = (t ++ [.resolve "passcode" true (maxLoginTries - f)]) ++ [.text "Authenticating..."]
            ++ t₂ ++ [.okDisplayed, .newline] := by
        simp [ssoLoop, hsso, hdp, haa]
      have hcount : authCallCount (ssoLoop ps c (f + 1) le s).2.2.2 = 1 := by
        rw [hev, ht, ht₂]
        simp [authCallCount, isAuthCall, List.filter, List.filter_append]
      have hres : (ssoLoop ps c (f + 1) le s).1 = .ok none := by
        simp [ssoLoop, hsso, hdp, haa]
      exact ⟨hcount.le, fun _ => ⟨hres, hcount⟩⟩

/-- Once the pre-supplied passcode is cleared, every later passcode
resolution is interactive. -/
theorem ssoLoop_interactive_of_empty (ps : List (String × AuthPrompt)) :
    ∀ (fuel : Nat) (c : Credmap) (le : Option GoError) (s : St),
      s.ssoPasscode = "" →
      ∀ x ∈ resolvesOf (ssoLoop ps c fuel le s).2.2.2, x.2.1 = true := by
  intro fuel
  induction fuel with
  | zero => intro c le s _; simp [ssoLoop]
  | succ f ih =>
    intro c le s hsso'
    have hsso : ¬ s.ssoPasscode ≠ "" := by simp [hsso']
    rcases hdp : displayPasswordPrompt
      (((List.lookup "passcode" ps).map AuthPrompt.displayName).getD "") s with ⟨r, s', t⟩
    have hst := displayPasswordPrompt_state
      (((List.lookup "passcode" ps).map AuthPrompt.displayName).getD "") s
    rw [hdp] at hst
    have ht : t = [.passwordPrompt (((List.lookup "passcode" ps).map AuthPrompt.displayName).getD "")] := by
      rw [← displayPasswordPrompt_events
        (((List.lookup "passcode" ps).map AuthPrompt.displayName).getD "") s, hdp]
    cases r with
    | error e₀ =>
      have hev : (ssoLoop ps c (f + 1) le s).2.2.2 = t := by
        simp [ssoLoop, hsso, hdp]
      rw [hev, ht]
      simp [resolvesOf]
    | ok v =>
      rcases haa : actorAuthenticate (mapSet c "passcode" v) s' with ⟨res, s'', t₂⟩
      have ht₂ : t₂ = [.authCall (mapSet c "passcode" v)] := by
        rw [← actorAuthenticate_events (mapSet c "passcode" v) s', haa]
      have hsso₂ : s''.ssoPasscode = "" := by
        have h₁ := actorAuthenticate_ssoPasscode (mapSet c "passcode" v) s'
        rw [haa] at h₁
        have h₂ : s''.ssoPasscode = s'.ssoPasscode := h₁
        rw [h₂, inputsOnly_ssoPasscode hst, hsso']
      cases res with
      | none =>
        have hres : resolvesOf (ssoLoop ps c (f + 1) le s).2.2.2
            = [("passcode", true, maxLoginTries - f)] := by
          have hev : (ssoLoop ps c (f + 1) le s).2.2.2
              = (t ++ [.resolve "passcode" true (maxLoginTries - f)]) ++ [.text "Authenticating..."]
                ++ t₂ ++ [.okDisplayed, .newline] := by
            simp [ssoLoop, hsso, hdp, haa]
          rw [hev, ht, ht₂]
          simp [resolvesOf_append]
          simp [resolvesOf]
        rw [hres]
        simp
      | some e₀ =>
        rcases hrec : ssoLoop ps (mapSet c "passcode" v) f (some e₀) s'' with ⟨r₃, c₃, s₃, t₃⟩
        have ih' := ih (mapSet c "passcode" v) (some e₀) s'' hsso₂
        rw [hrec] at ih'
        have ih'' : ∀ x ∈ resolvesOf t₃, x.2.1 = true := ih'
        have hres : resolvesOf (ssoLoop ps c (f + 1) le s).2.2.2
            = ("passcode", true, maxLoginTries - f) :: resolvesOf t₃ := by
          have hev : (ssoLoop ps c (f + 1) le s).2.2.2
              = (t ++ [.resolve "passcode" true (maxLoginTries - f)]) ++ [.text "Authenticating..."]
                ++ t₂ ++ [.warning (errText e₀), .newline] ++ t₃ := by
            simp [ssoLoop, hsso, hdp, haa, hrec]
          rw [hev, ht, ht₂]
          simp [resolvesOf_append]
          simp [resolvesOf]
        rw [hres]
        intro x hx
        rcases List.mem_cons.mp hx with h₁ | hx
        · rw [h₁]
        · exact ih'' x hx

/-- A pending pre-supplied passcode: the SSO loop's first resolution is the
non-interactive flag consumption on the current attempt, and every
subsequent resolution is interactive. -/
theorem ssoLoop_flag (ps : List (String × AuthPrompt))
    (f : Nat) (c : Credmap) (le : Option GoError) (s : St) (hsso : s.ssoPasscode ≠ "") :
    ∃ rest, resolvesOf (ssoLoop ps c (f + 1) le s).2.2.2
        = ("passcode", false, maxLoginTries - f) :: rest
      ∧ ∀ x ∈ rest, x.2.1 = true := by
  rcases haa : actorAuthenticate (mapSet c "passcode" s.ssoPasscode)
    { s with ssoPasscode := "" } with ⟨res, s'', t₂⟩
  have ht₂ : t₂ = [.authCall (mapSet c "passcode" s.ssoPasscode)] := by
    rw [← actorAuthenticate_events (mapSet c "passcode" s.ssoPasscode)
      { s with ssoPasscode := "" }, haa]
  have hsso₂ : s''.ssoPasscode = "" := by
    have h₁ := actorAuthenticate_ssoPasscode (mapSet c "passcode" s.ssoPasscode)
      { s with ssoPasscode := "" }
    rw [haa] at h₁
    exact h₁
  cases res with
  | none =>
    refine ⟨[], ?_, by simp⟩
    have hev : (ssoLoop ps c (f + 1) le s).2.2.2
        = [.resolve "passcode" false (maxLoginTries - f)] ++ [.text "Authenticating..."]
          ++ t₂ ++ [.okDisplayed, .newline] := by
      rw [ssoLoop_step ps c f le s hsso, haa]
    rw [hev, ht₂]
    simp [resolvesOf_append]
    simp [resolvesOf]
  | some e₀ =>
    rcases hrec : ssoLoop ps (mapSet c "passcode" s.ssoPasscode) f (some e₀) s''
      with ⟨r₃, c₃, s₃, t₃⟩
    have ih' := ssoLoop_interactive_of_empty ps f (mapSet c "passcode" s.ssoPasscode)
      (some e₀) s'' hsso₂
    rw [hrec] at ih'
    have ih'' : ∀ x ∈ resolvesOf t₃, x.2.1 = true := ih'
    refine ⟨resolvesOf t₃, ?_, ih''⟩
    have hev : (ssoLoop ps c (f + 1) le s).2.2.2
        = [.resolve "passcode" false (maxLoginTries - f)] ++ [.text "Authenticating..."]
          ++ t₂ ++ [.warning (errText e₀), .newline] ++ t₃ := by
      rw [ssoLoop_step ps c f le s hsso, haa]
      simp only [hrec]
    rw [hev, ht₂]
    simp [resolvesOf_append]
    simp [resolvesOf]

/-! ## Flow-level lemmas -/

/-- `authenticate`'s events decompose into the schema fetch, the pre-loop
collection phases, and the loop. -/
theorem authenticate_decomp (fl : Flags) (ps : List (String × AuthPrompt)) (s : St) :
    (∃ e s' t, usernameStep fl.username ps [] s = (.error e, s', t)
      ∧ authenticate fl ps s = (some e, s', [.loginPromptsCall] ++ t))
    ∨ (∃ creds s₁ t₁ e s₂ t₂, usernameStep fl.username ps [] s = (.ok creds, s₁, t₁)
        ∧ collectTextPrompts ps creds [] s₁ = (.error e, s₂, t₂)
        ∧ authenticate fl ps s = (some e, s₂, [.loginPromptsCall] ++ t₁ ++ t₂))
    ∨ (∃ creds s₁ t₁ creds' pks s₂ t₂ r c₃ s₃ t₃,
        usernameStep fl.username ps [] s = (.ok creds, s₁, t₁)
        ∧ collectTextPrompts ps creds [] s₁ = (.ok (creds', pks), s₂, t₂)
        ∧ authLoop ps creds' pks maxLoginTries none s₂ = (r, c₃, s₃, t₃)
        ∧ authenticate fl ps s
            = ((match r with | .error e => some e | .ok le => le), s₃,
               [.loginPromptsCall] ++ t₁ ++ t₂ ++ t₃)) := by
  rcases hus : usernameStep fl.username ps [] s with ⟨r₁, s₁, t₁⟩
  cases r₁ with
  | error e => exact Or.inl ⟨e, s₁, t₁, rfl, by simp [authenticate, hus]⟩
  | ok creds =>
    rcases hct : collectTextPrompts ps creds [] s₁ with ⟨r₂, s₂, t₂⟩
    cases r₂ with
    | error e =>
      exact Or.inr (Or.inl ⟨creds, s₁, t₁, e, s₂, t₂, rfl, hct, by simp [authenticate, hus, hct]⟩)
    | ok pair =>
      obtain ⟨creds', pks⟩ := pair
      rcases hal : authLoop ps creds' pks maxLoginTries none s₂ with ⟨r₃, c₃, s₃, t₃⟩
      refine Or.inr (Or.inr ⟨creds, s₁, t₁, creds', pks, s₂, t₂, r₃, c₃, s₃, t₃, rfl, hct, hal, ?_⟩)
      cases r₃ with
      | error e => simp [authenticate, hus, hct, hal]
      | ok le => simp [authenticate, hus, hct, hal]

theorem authenticate_events (fl : Flags) (ps : List (String × AuthPrompt)) (s : St) :
    ∀ e ∈ (authenticate fl ps s).2.2, isMainEvent e = true := by
  rcases authenticate_decomp fl ps s with
      ⟨e₀, s', t, hus, hq⟩
    | ⟨creds, s₁, t₁, e₀, s₂, t₂, hus, hct, hq⟩
    | ⟨creds, s₁, t₁, creds', pks, s₂, t₂, r, c₃, s₃, t₃, hus, hct, hal, hq⟩
  · rw [hq]
    have h₁ := usernameStep_events fl.username ps [] s
    rw [hus] at h₁
    refine List.forall_mem_append.mpr ⟨?_, ?_⟩
    · simp [isMainEvent]
    · exact fun e he => isCollectEvent_isMainEvent e (h₁ e he)
  · rw [hq]
    have h₁ := usernameStep_events fl.username ps [] s
    rw [hus] at h₁
    have h₂ := collectTextPrompts_events ps creds [] s₁
    rw [hct] at h₂
    refine List.forall_mem_append.mpr ⟨List.forall_mem_append.mpr ⟨?_, ?_⟩, ?_⟩
    · simp [isMainEvent]
    · exact fun e he => isCollectEvent_isMainEvent e (h₁ e he)
    · exact fun e he => isCollectEvent_isMainEvent e (h₂ e he)
  · rw [hq]
    have h₁ := usernameStep_events fl.username ps [] s
    rw [hus] at h₁
    have h₂ := collectTextPrompts_events ps creds [] s₁
    rw [hct] at h₂
    have h₃ := authLoop_events ps pks maxLoginTries creds' none s₂
    rw [hal] at h₃
    refine List.forall_mem_append.mpr ⟨List.forall_mem_append.mpr
      ⟨List.forall_mem_append.mpr ⟨?_, ?_⟩, ?_⟩, ?_⟩
    · simp [isMainEvent]
    · exact fun e he => isCollectEvent_isMainEvent e (h₁ e he)
    · exact fun e he => isCollectEvent_isMainEvent e (h₂ e he)
    · exact fun e he => isLoopEvent_isMainEvent e (h₃ e he)

theorem authenticate_count_le (fl : Flags) (ps : List (String × AuthPrompt)) (s : St) :
    authCallCount (authenticate fl ps s).2.2 ≤ maxLoginTries := by
  rcases authenticate_decomp fl ps s with
      ⟨e₀, s', t, hus, hq⟩
    | ⟨creds, s₁, t₁, e₀, s₂, t₂, hus, hct, hq⟩
    | ⟨creds, s₁, t₁, creds', pks, s₂, t₂, r, c₃, s₃, t₃, hus, hct, hal, hq⟩
  · rw [hq]
    have h₁ := usernameStep_events fl.username ps [] s
    rw [hus] at h₁
    simp only [authCallCount_append]
    have hz : authCallCount [Event.loginPromptsCall] = 0 := by
      simp [authCallCount, isAuthCall, List.filter]
    have hz₁ : authCallCount t = 0 :=
      authCallCount_eq_zero t fun e he => isCollectEvent_not_authCall e (h₁ e he)
    omega
  · rw [hq]
    have h₁ := usernameStep_events fl.username ps [] s
    rw [hus] at h₁
    have h₂ := collectTextPrompts_events ps creds [] s₁
    rw [hct] at h₂
    simp only [authCallCount_append]
    have hz : authCallCount [Event.loginPromptsCall] = 0 := by
      simp [authCallCount, isAuthCall, List.filter]
    have hz₁ : authCallCount t₁ = 0 :=
      authCallCount_eq_zero t₁ fun e he => isCollectEvent_not_authCall e (h₁ e he)
    have hz₂ : authCallCount t₂ = 0 :=
      authCallCount_eq_zero t₂ fun e he => isCollectEvent_not_authCall e (h₂ e he)
    omega
  · rw [hq]
    have h₁ := usernameStep_events fl.username ps [] s
    rw [hus] at h₁
    have h₂ := collectTextPrompts_events ps creds [] s₁
    rw [hct] at h₂
    have h₃ := authLoop_count_le ps pks maxLoginTries creds' none s₂
    rw [hal] at h₃
    have h₃' : authCallCount t₃ ≤ maxLoginTries := h₃
    simp only [authCallCount_append]
    have hz : authCallCount [Event.loginPromptsCall] = 0 := by
      simp [authCallCount, isAuthCall, List.filter]
    have hz₁ : authCallCount t₁ = 0 :=
      authCallCount_eq_zero t₁ fun e he => isCollectEvent_not_authCall e (h₁ e he)
    have hz₂ : authCallCount t₂ = 0 :=
      authCallCount_eq_zero t₂ fun e he => isCollectEvent_not_authCall e (h₂ e he)
    omega

/-- With all pending reads succeeding and a successful first `Authenticate`
outcome, the password flow stops after exactly one call and succeeds. -/
theorem authenticate_first_success (fl : Flags) (ps : List (String × AuthPrompt)) (s : St)
    (hok : allOk s.inputs = true) (h : s.authResults.head? = some none) :
    (authenticate fl ps s).1 = none ∧ authCallCount (authenticate fl ps s).2.2 = 1 := by
  obtain ⟨creds, s₁, t₁, hus, hok₁⟩ := usernameStep_allOk fl.username ps [] s hok
  obtain ⟨creds', pks, s₂, t₂, hct, hok₂⟩ := collectTextPrompts_allOk ps creds [] s₁ hok₁
  have hs₁ := usernameStep_state fl.username ps [] s
  rw [hus] at hs₁
  have hs₂ := collectTextPrompts_state ps creds [] s₁
  rw [hct] at hs₂
  have har : s₂.authResults = s.authResults := by
    have ha₁ : s₁.authResults = s.authResults := inputsOnly_authResults hs₁
    have ha₂ : s₂.authResults = s₁.authResults := inputsOnly_authResults hs₂
    rw [ha₂, ha₁]
  have hh : s₂.authResults.head? = some none := by rw [har]; exact h
  obtain ⟨hle, hres⟩ := (authLoop_first_success ps pks 2 creds' none s₂ hh).2 hok₂
  rcases hal : authLoop ps creds' pks maxLoginTries none s₂ with ⟨r₃, c₃, s₃, t₃⟩
  have hal' : authLoop ps creds' pks 3 none s₂ = (r₃, c₃, s₃, t₃) := hal
  rw [hal'] at hle hres
  have hr : r₃ = .ok none := hle
  subst hr
  constructor
  · simp [authenticate, hus, hct, hal]
  · have hev : (authenticate fl ps s).2.2 = [.loginPromptsCall] ++ t₁ ++ t₂ ++ t₃ := by
      simp [authenticate, hus, hct, hal]
    rw [hev]
    have h₁ := usernameStep_events fl.username ps [] s
    rw [hus] at h₁
    have h₂ := collectTextPrompts_events ps creds [] s₁
    rw [hct] at h₂
    simp only [authCallCount_append]
    have hz : authCallCount [Event.loginPromptsCall] = 0 := by
      simp [authCallCount, isAuthCall, List.filter]
    have hz₁ : authCallCount t₁ = 0 :=
      authCallCount_eq_zero t₁ fun e he => isCollectEvent_not_authCall e (h₁ e he)
    have hz₂ : authCallCount t₂ = 0 :=
      authCallCount_eq_zero t₂ fun e he => isCollectEvent_not_authCall e (h₂ e he)
    have hc : authCallCount t₃ = 1 := hres
    omega

/-- With all pending reads succeeding and an account-locked first outcome,
the password flow stops after exactly one call and fails with that error. -/
theorem authenticate_first_locked (fl : Flags) (ps : List (String × AuthPrompt)) (s : St)
    (e₀ : GoError) (hok : allOk s.inputs = true)
    (h : s.authResults.head? = some (some e₀)) (hlock : isAccountLocked e₀ = true) :
    (authenticate fl ps s).1 = some e₀
    ∧ authCallCount (authenticate fl ps s).2.2 = 1 := by
  obtain ⟨creds, s₁, t₁, hus, hok₁⟩ := usernameStep_allOk fl.username ps [] s hok
  obtain ⟨creds', pks, s₂, t₂, hct, hok₂⟩ := collectTextPrompts_allOk ps creds [] s₁ hok₁
  have hs₁ := usernameStep_state fl.username ps [] s
  rw [hus] at hs₁
  have hs₂ := collectTextPrompts_state ps creds [] s₁
  rw [hct] at hs₂
  have har : s₂.authResults = s.authResults := by
    have ha₁ : s₁.authResults = s.authResults := inputsOnly_authResults hs₁
    have ha₂ : s₂.authResults = s₁.authResults := inputsOnly_authResults hs₂
    rw [ha₂, ha₁]
  have hh : s₂.authResults.head? = some (some e₀) := by rw [har]; exact h
  obtain ⟨hle, hres⟩ := (authLoop_first_locked ps pks 2 creds' none s₂ e₀ hh hlock).2 hok₂
  rcases hal : authLoop ps creds' pks maxLoginTries none s₂ with ⟨r₃, c₃, s₃, t₃⟩
  have hal' : authLoop ps creds' pks 3 none s₂ = (r₃, c₃, s₃, t₃) := hal
  rw [hal'] at hle hres
  have hr : r₃ = .ok (some e₀) := hle
  subst hr
  constructor
  · simp [authenticate, hus, hct, hal]
  · have hev : (authenticate fl ps s).2.2 = [.loginPromptsCall] ++ t₁ ++ t₂ ++ t₃ := by
      simp [authenticate, hus, hct, hal]
    rw [hev]
    have h₁ := usernameStep_events fl.username ps [] s
    rw [hus] at h₁
    have h₂ := collectTextPrompts_events ps creds [] s₁
    rw [hct] at h₂
    simp only [authCallCount_append]
    have hz : authCallCount [Event.loginPromptsCall] = 0 := by
      simp [authCallCount, isAuthCall, List.filter]
    have hz₁ : authCallCount t₁ = 0 :=
      authCallCount_eq_zero t₁ fun e he => isCollectEvent_not_authCall e (h₁ e he)
    have hz₂ : authCallCount t₂ = 0 :=
      authCallCount_eq_zero t₂ fun e he => isCollectEvent_not_authCall e (h₂ e he)
    have hc : authCallCount t₃ = 1 := hres
    omega

theorem authenticateSSO_events (ps : List (String × AuthPrompt)) (s : St) :
    ∀ e ∈ (authenticateSSO ps s).2.2, isMainEvent e = true := by
  rcases hsl : ssoLoop ps [] maxLoginTries none s with ⟨r, c', s', t⟩
  have h₁ := ssoLoop_events ps maxLoginTries [] none s
  rw [hsl] at h₁
  have h₁' : ∀ e ∈ t, isLoopEvent e = true := h₁
  cases r with
  | error e₀ =>
    have hev : (authenticateSSO ps s).2.2 = [.loginPromptsCall] ++ t := by
      simp [authenticateSSO, hsl]
    rw [hev]
    refine List.forall_mem_append.mpr ⟨by simp [isMainEvent], ?_⟩
    exact fun e he => isLoopEvent_isMainEvent e (h₁' e he)
  | ok le =>
    have hev : (authenticateSSO ps s).2.2 = [.loginPromptsCall] ++ t := by
      simp [authenticateSSO, hsl]
    rw [hev]
    refine List.forall_mem_append.mpr ⟨by simp [isMainEvent], ?_⟩
    exact fun e he => isLoopEvent_isMainEvent e (h₁' e he)

theorem authenticateSSO_count_le (ps : List (String × AuthPrompt)) (s : St) :
    authCallCount (authenticateSSO ps s).2.2 ≤ maxLoginTries := by
  rcases hsl : ssoLoop ps [] maxLoginTries none s with ⟨r, c', s', t⟩
  have h₁ := ssoLoop_count_le ps maxLoginTries [] none s
  rw [hsl] at h₁
  have h₁' : authCallCount t ≤ maxLoginTries := h₁
  have hz : authCallCount [Event.loginPromptsCall] = 0 := by
    simp [authCallCount, isAuthCall, List.filter]
  cases r with
  | error e₀ =>
    have hev : (authenticateSSO ps s).2.2 = [.loginPromptsCall] ++ t := by
      simp [authenticateSSO, hsl]
    rw [hev, authCallCount_append, hz]
    omega
  | ok le =>
    have hev : (authenticateSSO ps s).2.2 = [.loginPromptsCall] ++ t := by
      simp [authenticateSSO, hsl]
    rw [hev, authCallCount_append, hz]
    omega

/-- With all pending reads succeeding and a successful first outcome, the
SSO flow stops after exactly one call and succeeds. -/
theorem authenticateSSO_first_success (ps : List (String × AuthPrompt)) (s : St)
    (hok : allOk s.inputs = true) (h : s.authResults.head? = some none) :
    (authenticateSSO ps s).1 = none ∧ authCallCount (authenticateSSO ps s).2.2 = 1 := by
  obtain ⟨hle, hres⟩ := (ssoLoop_first_success ps 2 [] none s h).2 hok
  rcases hsl : ssoLoop ps [] maxLoginTries none s with ⟨r, c', s', t⟩
  have hsl' : ssoLoop ps [] 3 none s = (r, c', s', t) := hsl
  rw [hsl'] at hle hres
  have hr : r = .ok none := hle
  subst hr
  have hc : authCallCount t = 1 := hres
  constructor
  · simp [authenticateSSO, hsl]
  · have hev : (authenticateSSO ps s).2.2 = [.loginPromptsCall] ++ t := by
      simp [authenticateSSO, hsl]
    rw [hev, authCallCount_append]
    have hz : authCallCount [Event.loginPromptsCall] = 0 := by
      simp [authCallCount, isAuthCall, List.filter]
    omega

/-! ## `orgStage`, `checkMinCLIVersion`, `executeMain` event lemmas -/

theorem promptChosenOrg_events (orgs : List Organization) (s : St) :
    (promptChosenOrg orgs s).2.2
      = [.text "Select an org:", .menuPrompt (orgs.map Organization.name) "Org"] := by
  rcases hm : displayTextMenu (orgs.map Organization.name) "Org" s with ⟨r, s', t⟩
  have ht : t = [.menuPrompt (orgs.map Organization.name) "Org"] := by
    rw [← displayTextMenu_events (orgs.map Organization.name) "Org" s, hm]
  cases r with
  | error e =>
    by_cases he : e = .eof
    · simp [promptChosenOrg, hm, he, ht]
    · simp [promptChosenOrg, hm, he, ht]
  | ok v =>
    cases hf : orgs.find? (fun o => o.name = v) with
    | some org => simp [promptChosenOrg, hm, hf, ht]
    | none => simp [promptChosenOrg, hm, hf, ht]

theorem warningEvents_main (ws : List String) :
    ∀ e ∈ warningEvents ws, isMainEvent e = true := by
  intro e he
  obtain ⟨w, _, hw⟩ := List.mem_map.mp he
  rw [← hw]
  simp [isMainEvent]

theorem orgStage_events (fl : Flags) (env : Env) (s : St) :
    ∀ e ∈ (orgStage fl env s).2.2, isMainEvent e = true := by
  by_cases ho : fl.organization ≠ ""
  · cases hr : env.orgByName.2 with
    | error e₀ =>
      have hev : (orgStage fl env s).2.2
          = [.getOrgByNameCall fl.organization] ++ warningEvents env.orgByName.1 := by
        simp [orgStage, ho, hr]
      rw [hev]
      refine List.forall_mem_append.mpr ⟨by simp [isMainEvent], warningEvents_main _⟩
    | ok org =>
      have hev : (orgStage fl env s).2.2
          = ([.getOrgByNameCall fl.organization] ++ warningEvents env.orgByName.1)
            ++ [.setOrgInfo org.guid org.name] := by
        simp [orgStage, ho, hr, setOrganizationInformation]
      rw [hev]
      refine List.forall_mem_append.mpr ⟨List.forall_mem_append.mpr
        ⟨by simp [isMainEvent], warningEvents_main _⟩, by simp [isMainEvent]⟩
  · cases hr : env.orgs.2 with
    | error e₀ =>
      have hev : (orgStage fl env s).2.2
          = [.getOrgsCall] ++ warningEvents env.orgs.1 := by
        simp [orgStage, ho, hr]
      rw [hev]
      refine List.forall_mem_append.mpr ⟨by simp [isMainEvent], warningEvents_main _⟩
    | ok orgList =>
      match orgList with
      | [org] =>
        have hev : (orgStage fl env s).2.2
            = ([.getOrgsCall] ++ warningEvents env.orgs.1)
              ++ [.setOrgInfo org.guid org.name] := by
          simp [orgStage, ho, hr, setOrganizationInformation]
        rw [hev]
        refine List.forall_mem_append.mpr ⟨List.forall_mem_append.mpr
          ⟨by simp [isMainEvent], warningEvents_main _⟩, by simp [isMainEvent]⟩
      | [] =>
        have hev : (orgStage fl env s).2.2 = [.getOrgsCall] ++ warningEvents env.orgs.1 := by
          simp [orgStage, ho, hr]
        rw [hev]
        refine List.forall_mem_append.mpr ⟨by simp [isMainEvent], warningEvents_main _⟩
      | o₁ :: o₂ :: rest =>
        rcases hp : promptChosenOrg (o₁ :: o₂ :: rest) s with ⟨rp, s', t₁⟩
        have ht₁ : t₁ = [.text "Select an org:",
            .menuPrompt ((o₁ :: o₂ :: rest).map Organization.name) "Org"] := by
          rw [← promptChosenOrg_events (o₁ :: o₂ :: rest) s, hp]
        cases rp with
        | error e₀ =>
          have hev : (orgStage fl env s).2.2
              = ([.getOrgsCall] ++ warningEvents env.orgs.1) ++ t₁ := by
            simp [orgStage, ho, hr, hp]
          rw [hev, ht₁]
          refine List.forall_mem_append.mpr ⟨List.forall_mem_append.mpr
            ⟨by simp [isMainEvent], warningEvents_main _⟩, by simp [isMainEvent]⟩
        | ok chosenOrg =>
          by_cases hc : chosenOrg ≠ (⟨"", ""⟩ : Organization)
          · have hev : (orgStage fl env s).2.2
                = ([.getOrgsCall] ++ warningEvents env.orgs.1) ++ t₁
                  ++ [.setOrgInfo chosenOrg.guid chosenOrg.name] := by
              simp [orgStage, ho, hr, hp, hc, setOrganizationInformation]
            rw [hev, ht₁]
            refine List.forall_mem_append.mpr ⟨List.forall_mem_append.mpr
              ⟨List.forall_mem_append.mpr ⟨by simp [isMainEvent], warningEvents_main _⟩,
                by simp [isMainEvent]⟩, by simp [isMainEvent]⟩
          · have hev : (orgStage fl env s).2.2
                = ([.getOrgsCall] ++ warningEvents env.orgs.1) ++ t₁ := by
              simp [orgStage, ho, hr, hp, hc]
            rw [hev, ht₁]
            refine List.forall_mem_append.mpr ⟨List.forall_mem_append.mpr
              ⟨by simp [isMainEvent], warningEvents_main _⟩, by simp [isMainEvent]⟩

theorem checkMinCLIVersion_events (env : Env) (s : St) :
    ∀ e ∈ (checkMinCLIVersion env s).2.2, isMainEvent e = true := by
  cases hr : env.checkerResult with
  | error e₀ => simp [checkMinCLIVersion, hr, isMainEvent]
  | ok chk =>
    by_cases ht : env.clientTooOld
    · simp [checkMinCLIVersion, hr, warnIfCLIVersionBelowAPIDefinedMinimum, ht, isMainEvent]
    · simp [checkMinCLIVersion, hr, warnIfCLIVersionBelowAPIDefinedMinimum, ht, isMainEvent]

theorem executeMain_events (fl : Flags) (env : Env) (s : St) :
    ∀ e ∈ (executeMain fl env s).2.2, isMainEvent e = true := by
  by_cases hg : env.uaaGrantType = "client_credentials"
  · simp [executeMain, hg]
  · by_cases hs : fl.sso = true ∨ s.ssoPasscode ≠ ""
    · by_cases hb : fl.sso ∧ s.ssoPasscode ≠ ""
      · simp [executeMain, hg, hs, hb]
      · rcases ha : authenticateSSO env.prompts s with ⟨ra, s', t⟩
        have hae := authenticateSSO_events env.prompts s
        rw [ha] at hae
        cases ra with
        | some e₀ =>
          have hev : (executeMain fl env s).2.2 = t := by
            simp [executeMain, hg, hs, hb, ha]
          rw [hev]
          exact hae
        | none =>
          rcases ho : orgStage fl env s' with ⟨ro, s'', t₂⟩
          have hoe := orgStage_events fl env s'
          rw [ho] at hoe
          cases ro with
          | some e₀ =>
            have hev : (executeMain fl env s).2.2 = t ++ t₂ := by
              simp [executeMain, hg, hs, hb, ha, ho]
            rw [hev]
            exact List.forall_mem_append.mpr ⟨hae, hoe⟩
          | none =>
            rcases hv : checkMinCLIVersion env s'' with ⟨rv, s₃, t₃⟩
            have hve := checkMinCLIVersion_events env s''
            rw [hv] at hve
            have hev : (executeMain fl env s).2.2 = t ++ t₂ ++ t₃ := by
              simp [executeMain, hg, hs, hb, ha, ho, hv]
            rw [hev]
            exact List.forall_mem_append.mpr ⟨List.forall_mem_append.mpr ⟨hae, hoe⟩, hve⟩
    · rcases ha : authenticate fl env.prompts s with ⟨ra, s', t⟩
      have hae := authenticate_events fl env.prompts s
      rw [ha] at hae
      cases ra with
      | some e₀ =>
        have hev : (executeMain fl env s).2.2 = t := by
          simp [executeMain, hg, hs, ha]
        rw [hev]
        exact hae
      | none =>
        rcases ho : orgStage fl env s' with ⟨ro, s'', t₂⟩
        have hoe := orgStage_events fl env s'
        rw [ho] at hoe
        cases ro with
        | some e₀ =>
          have hev : (executeMain fl env s).2.2 = t ++ t₂ := by
            simp [executeMain, hg, hs, ha, ho]
          rw [hev]
          exact List.forall_mem_append.mpr ⟨hae, hoe⟩
        | none =>
          rcases hv : checkMinCLIVersion env s'' with ⟨rv, s₃, t₃⟩
          have hve := checkMinCLIVersion_events env s''
          rw [hv] at hve
          have hev : (executeMain fl env s).2.2 = t ++ t₂ ++ t₃ := by
            simp [executeMain, hg, hs, ha, ho, hv]
          rw [hev]
          exact List.forall_mem_append.mpr ⟨List.forall_mem_append.mpr ⟨hae, hoe⟩, hve⟩

/-! ## Concrete fixtures used by witnesses and counterexamples -/

/-- A plain password-flow invocation (`-a`, `-u`, `-p` supplied). -/
def flBase : Flags where
  apiEndpoint := "api.example.com"
  organization := ""
  password := "pw1"
  space := ""
  skipSSLValidation := false
  sso := false
  ssoPasscode := ""
  username := "user@example.com"

/-- A benign environment: experimental login on, all collaborators succeed,
a typical three-prompt schema, a single visible organization. -/
def envBase : Env where
  experimentalLogin := true
  configTarget := ""
  configSkipSSL := false
  uaaGrantType := ""
  currentUserName := ("user@example.com", none)
  apiVersion := "2.128.0"
  binaryName := "cf"
  setTargetResult := none
  reloadResult := none
  prompts := [("username", ⟨.text, "Email"⟩), ("mfa", ⟨.password, "MFA Code"⟩),
              ("password", ⟨.password, "Password"⟩)]
  orgByName := ([], .ok ⟨"org-guid", "some-org"⟩)
  orgs := ([], .ok [⟨"org-guid-1", "org1"⟩])
  checkerResult := .ok ⟨"6.40.0", "2.128.0"⟩
  clientTooOld := false

/-! ## Target URL normalization: trailing-slash lemma -/

theorem trimTrailingSlashes_append_slash (s : String) :
    trimTrailingSlashes (s ++ "/") = trimTrailingSlashes s := by
  cases s with
  | mk l =>
    show trimTrailingSlashes ⟨l ++ ['/']⟩ = trimTrailingSlashes ⟨l⟩
    simp [trimTrailingSlashes, dropTrailingSlashes]

/-- **C9.** Target normalization strips trailing `/` characters from the raw
endpoint and defaults a missing URI scheme to `https`: the input
`api.example.com` yields `https://api.example.com`; appending a trailing `/`
to any endpoint never changes the normalized target; an input that already
carries a scheme keeps it. -/
theorem c9_target_normalization :
    computeTargetURL "api.example.com" = "https://api.example.com"
    ∧ (∀ s : String, computeTargetURL (s ++ "/") = computeTargetURL s)
    ∧ computeTargetURL "http://api.example.com" = "http://api.example.com"
    ∧ computeTargetURL "https://api.example.com///" = "https://api.example.com" := by
  refine ⟨by decide, ?_, by decide, by decide⟩
  intro s
  simp only [computeTargetURL, trimTrailingSlashes_append_slash]

/-- **C10.** When the experimental-login flag is disabled, `Execute` returns
the unrefactored-command error immediately with no observable event at all —
no target resolution, no prompting, no authentication; when it is enabled,
the flow starts (its first event is the experimental-login warning). -/
theorem c10_experimental_gate (fl : Flags) (env : Env) (s : St) :
    (env.experimentalLogin = false →
      execute fl env s = (some .unrefactoredCommand, s, []))
    ∧ (env.experimentalLogin = true →
      (execute fl env s).2.2.head? =
        some (.warning "Using experimental login command, some behavior may be different")) := by
  constructor
  · intro h
    simp [execute, h]
  · intro h
    simp only [execute, h]
    split
    · next h' => simp at h'
    · split
      · simp
      · split
        · simp
        · split
          · simp
          · simp

/-- Witness for C10 at a concrete input: the gate fires when the flag is
off, and the run starts with the experimental warning when it is on. -/
theorem c10_experimental_gate_witness :
    execute flBase { envBase with experimentalLogin := false }
        (mkSt flBase "" [] []) =
      (some .unrefactoredCommand, mkSt flBase "" [] [], [])
    ∧ (execute flBase envBase (mkSt flBase "" [] [])).2.2.head? =
        some (.warning "Using experimental login command, some behavior may be different") :=
  ⟨(c10_experimental_gate flBase { envBase with experimentalLogin := false }
      (mkSt flBase "" [] [])).1 rfl,
   (c10_experimental_gate flBase envBase (mkSt flBase "" [] [])).2 rfl⟩

/-! ## Claim C1: retry bounds of the two authentication loops -/

/-- An SSO invocation (`--sso` set, no flag credentials). -/
def flSSORun : Flags := { flBase with sso := true, password := "", username := "" }

/-- An SSO environment whose schema declares only the `passcode` prompt. -/
def envSSORun : Env := { envBase with prompts := [("passcode", ⟨.password, "Passcode"⟩)] }

/-- Interactive passcodes for three attempts; the first `Authenticate`
outcome is account-locked, the later two fail generically. -/
def sSSOLocked : St :=
  mkSt flSSORun "" [.ok "pc1", .ok "pc2", .ok "pc3"]
    [some (.accountLocked "locked"), some (.other "bad"), some (.other "bad2")]

/-- **C1 counterexample.** In the SSO flow an account-locked classification
of the first attempt does not stop the loop: with the first `Authenticate`
outcome account-locked, all three attempts are used (3 calls, not 1). -/
theorem c1_sso_locked_retries :
    sSSOLocked.authResults.head? = some (some (.accountLocked "locked"))
    ∧ authCallCount (authenticateSSO envSSORun.prompts sSSOLocked).2.2 = 3 := by
  constructor
  · rfl
  · rfl

/-- **C1 (amended).** Both authentication flows call `Authenticate` at most
3 times, and exactly once when the first attempt succeeds (with all pending
reads succeeding).  A first-attempt account-locked failure stops the loop
after exactly one call in the password flow only; the SSO flow treats
account-locked like any other failure and retries
(`c1_sso_locked_retries`-style runs use the remaining attempts). -/
theorem c1_auth_loop_bounds (fl : Flags) (ps : List (String × AuthPrompt)) (s : St) :
    authCallCount (authenticate fl ps s).2.2 ≤ 3
    ∧ authCallCount (authenticateSSO ps s).2.2 ≤ 3
    ∧ (allOk s.inputs = true → s.authResults.head? = some none →
        authCallCount (authenticate fl ps s).2.2 = 1
        ∧ authCallCount (authenticateSSO ps s).2.2 = 1)
    ∧ (∀ e, allOk s.inputs = true → s.authResults.head? = some (some e) →
        isAccountLocked e = true →
        authCallCount (authenticate fl ps s).2.2 = 1) := by
  refine ⟨authenticate_count_le fl ps s, authenticateSSO_count_le ps s, ?_, ?_⟩
  · intro hok h
    exact ⟨(authenticate_first_success fl ps s hok h).2,
      (authenticateSSO_first_success ps s hok h).2⟩
  · intro e hok h hlock
    exact (authenticate_first_locked fl ps s e hok h hlock).2

/-- First-attempt success for both flows at a concrete input. -/
def sFirstSuccess : St := mkSt flBase "" [.ok "123456"] [none]

/-- First-attempt account-locked failure at a concrete input. -/
def sFirstLocked : St := mkSt flBase "" [.ok "123456"] [some (.accountLocked "locked")]

/-- Witness for C1: a concrete run makes exactly one `Authenticate` call
when the first attempt succeeds (both flows) and when the password flow hits
an account-locked first failure. -/
theorem c1_auth_loop_bounds_witness :
    (authCallCount (authenticate flBase envBase.prompts sFirstSuccess).2.2 = 1
      ∧ authCallCount (authenticateSSO envBase.prompts sFirstSuccess).2.2 = 1)
    ∧ authCallCount (authenticate flBase envBase.prompts sFirstLocked).2.2 = 1 :=
  ⟨(c1_auth_loop_bounds flBase envBase.prompts sFirstSuccess).2.2.1 (by decide) (by decide),
   (c1_auth_loop_bounds flBase envBase.prompts sFirstLocked).2.2.2
     (.accountLocked "locked") (by decide) (by decide) (by decide)⟩

/-! ## Claim C3: the final status report -/

/-- Number of status-table renders (`DisplayKeyValueTable` calls; the source
calls it only from `showStatus`). -/
def tableRenderCount (t : List Event) : Nat :=
  (t.filter fun e => decide (e = Event.keyValueTable)).length

theorem tableRenderCount_append (a b : List Event) :
    tableRenderCount (a ++ b) = tableRenderCount a + tableRenderCount b := by
  simp [tableRenderCount, List.filter_append]

theorem tableRenderCount_eq_zero (t : List Event)
    (h : ∀ e ∈ t, isMainEvent e = true) : tableRenderCount t = 0 := by
  simp only [tableRenderCount, List.length_eq_zero]
  refine List.filter_eq_nil_iff.mpr ?_
  intro e he
  have := h e he
  cases e <;> simp_all [isMainEvent]

/-- `showStatus` renders the table exactly once on each of its branches. -/
theorem showStatus_table (env : Env) (s : St) :
    tableRenderCount (showStatus env s) = 1 := by
  by_cases h₁ : env.currentUserName.1 = "" ∨ env.currentUserName.2.isSome
  · simp [showStatus, h₁, tableRenderCount, List.filter]
  · by_cases h₂ : s.targetedOrgName = ""
    · simp [showStatus, h₁, h₂, tableRenderCount, List.filter]
    · simp [showStatus, h₁, h₂, tableRenderCount, List.filter]

/-- Endpoint resolution when the endpoint flag (or a previous mutation) is
non-empty. -/
theorem endpointStep_flag (env : Env) (s : St) (h : s.apiEndpoint ≠ "") :
    endpointStep env s = (.ok (), s, [.text ("API endpoint: " ++ s.apiEndpoint)]) := by
  simp [endpointStep, h]

/-- The environment of `c3_reload_no_status`: the actor rebuild fails. -/
def envReloadFail : Env := { envBase with reloadResult := some (.other "client rebuild failed") }

/-- **C3 counterexample.** With target resolution succeeded (`SetTarget` was
called and returned no error) but the client rebuild failing, `Execute`
returns the rebuild error without rendering the status report: the claim's
"status rendered exactly once on every exit after target resolution,
including a failure to rebuild the client" fails on this exit path. -/
theorem c3_reload_no_status :
    (execute flBase envReloadFail (mkSt flBase "" [] [])).1
        = some (.other "client rebuild failed")
    ∧ Event.setTargetCall "https://api.example.com" false
        ∈ (execute flBase envReloadFail (mkSt flBase "" [] [])).2.2
    ∧ tableRenderCount (execute flBase envReloadFail (mkSt flBase "" [] [])).2.2 = 0 := by
  refine ⟨by decide, by decide, by decide⟩

/-- **C3 (amended).** After the post-target client rebuild has succeeded,
the final status report is rendered exactly once on every exit path of
`Execute`, successful or not; on the rebuild-failure exit path itself (which
lies after successful target resolution) the status report is not rendered
at all. -/
theorem c3_status_exactly_once (fl : Flags) (env : Env) (s : St)
    (hx : env.experimentalLogin = true) (he : s.apiEndpoint ≠ "")
    (htg : env.setTargetResult = none) :
    (env.reloadResult = none →
      tableRenderCount (execute fl env s).2.2 = 1)
    ∧ (∀ e, env.reloadResult = some e →
        (execute fl env s).1 = some e ∧ tableRenderCount (execute fl env s).2.2 = 0) := by
  have hx' : ¬ env.experimentalLogin = false := by simp [hx]
  constructor
  · intro hrl
    rcases hm : executeMain fl env s with ⟨r, s₂, t₆⟩
    have hme := executeMain_events fl env s
    rw [hm] at hme
    have hev : (execute fl env s).2.2
        = [Event.warning "Using experimental login command, some behavior may be different"]
          ++ [.text ("API endpoint: " ++ s.apiEndpoint)] ++ [Event.newline]
          ++ [Event.setTargetCall (computeTargetURL s.apiEndpoint)
               (env.configSkipSSL || fl.skipSSLValidation)]
          ++ [Event.newActorCall] ++ t₆ ++ showStatus env s₂ := by
      simp [execute, hx', endpointStep_flag env s he, htg, hrl, hm]
    rw [hev]
    simp only [tableRenderCount_append]
    have hz : ∀ (e : Event), tableRenderCount [e] = 0 ∨ tableRenderCount [e] = 1 := by
      intro e
      cases e <;> simp [tableRenderCount, List.filter]
    have h₁ : tableRenderCount
        [Event.warning "Using experimental login command, some behavior may be different"] = 0 := by
      simp [tableRenderCount, List.filter]
    have h₂ : tableRenderCount [Event.text ("API endpoint: " ++ s.apiEndpoint)] = 0 := by
      simp [tableRenderCount, List.filter]
    have h₃ : tableRenderCount [Event.newline] = 0 := by
      simp [tableRenderCount, List.filter]
    have h₄ : tableRenderCount [Event.setTargetCall (computeTargetURL s.apiEndpoint)
        (env.configSkipSSL || fl.skipSSLValidation)] = 0 := by
      simp [tableRenderCount, List.filter]
    have h₅ : tableRenderCount [Event.newActorCall] = 0 := by
      simp [tableRenderCount, List.filter]
    have h₆ : tableRenderCount t₆ = 0 := tableRenderCount_eq_zero t₆ hme
    have h₇ : tableRenderCount (showStatus env s₂) = 1 := showStatus_table env s₂
    omega
  · intro e hrl
    have hev : execute fl env s
        = (some e, s,
           [Event.warning "Using experimental login command, some behavior may be different"]
             ++ [.text ("API endpoint: " ++ s.apiEndpoint)] ++ [Event.newline]
             ++ [Event.setTargetCall (computeTargetURL s.apiEndpoint)
                  (env.configSkipSSL || fl.skipSSLValidation)]
             ++ [Event.newActorCall]) := by
      simp [execute, hx', endpointStep_flag env s he, htg, hrl]
    rw [hev]
    constructor
    · rfl
    · simp [tableRenderCount, List.filter]

/-- Witness for C3 at a concrete input: a fully successful run renders the
status exactly once, and a rebuild-failure run renders none. -/
theorem c3_status_exactly_once_witness :
    tableRenderCount (execute flBase envBase sFirstSuccess).2.2 = 1
    ∧ tableRenderCount (execute flBase envReloadFail (mkSt flBase "" [] [])).2.2 = 0 :=
  ⟨(c3_status_exactly_once flBase envBase sFirstSuccess (by decide) (by decide) (by decide)).1 rfl,
   ((c3_status_exactly_once flBase envReloadFail (mkSt flBase "" [] [])
      (by decide) (by decide) (by decide)).2 (.other "client rebuild failed") rfl).2⟩

/-! ## Claim C2: the version-check stage -/

/-- `Execute` on the standard path (experimental on, endpoint known, target
applied, actor rebuilt): the result is `executeMain`'s result and the trace
sandwiches `executeMain`'s events between the fixed prefix and the deferred
status report. -/
theorem execute_normal (fl : Flags) (env : Env) (s : St)
    (hx : env.experimentalLogin = true) (he : s.apiEndpoint ≠ "")
    (htg : env.setTargetResult = none) (hrl : env.reloadResult = none) :
    execute fl env s
      = ((executeMain fl env s).1, (executeMain fl env s).2.1,
         ([Event.warning "Using experimental login command, some behavior may be different"]
           ++ [Event.text ("API endpoint: " ++ s.apiEndpoint)] ++ [Event.newline]
           ++ [Event.setTargetCall (computeTargetURL s.apiEndpoint)
                (env.configSkipSSL || fl.skipSSLValidation)]
           ++ [Event.newActorCall])
           ++ (executeMain fl env s).2.2 ++ showStatus env (executeMain fl env s).2.1) := by
  have hx' : ¬ env.experimentalLogin = false := by simp [hx]
  rcases hm : executeMain fl env s with ⟨r, s₂, t₆⟩
  simp [execute, hx', endpointStep_flag env s he, htg, hrl, hm]

/-- `orgStage` without an explicit organization and zero organizations
visible: nothing is recorded and no error is returned. -/
theorem orgStage_zero (fl : Flags) (env : Env) (s : St)
    (ho : fl.organization = "") (hr : env.orgs.2 = .ok []) :
    orgStage fl env s = (none, s, [.getOrgsCall] ++ warningEvents env.orgs.1) := by
  simp [orgStage, ho, hr]

/-- `checkMinCLIVersion` fails exactly when building the version checker
fails, and then with that error. -/
theorem checkMinCLIVersion_result (env : Env) (s : St) :
    (checkMinCLIVersion env s).1
      = (match env.checkerResult with | .error e => some e | .ok _ => none) := by
  cases hr : env.checkerResult <;>
    simp [checkMinCLIVersion, hr, warnIfCLIVersionBelowAPIDefinedMinimum]

/-- The environment of `c2_version_check_aborts`: version-checker
construction fails after an otherwise successful login. -/
def envCheckFail : Env := { envBase with checkerResult := .error (.other "version check client failed") }

/-- **C2 counterexample.** A failure to construct the version-check client
aborts the run: authentication succeeded (`OK` was displayed) and yet
`Execute` returns the version-check error instead of success. -/
theorem c2_version_check_aborts :
    (execute flBase envCheckFail sFirstSuccess).1 = some (.other "version check client failed")
    ∧ Event.okDisplayed ∈ (execute flBase envCheckFail sFirstSuccess).2.2 := by
  refine ⟨by decide, by decide⟩

/-- **C2 (amended).** On an otherwise successful run, `Execute`'s outcome is
exactly the version-check stage's outcome: a failure of the stage (such as a
failure to construct the version-check client) aborts the run with that
error; when the client is constructed, the version comparison itself never
fails — a too-old client only produces a non-fatal warning and `Execute`
returns success. -/
theorem c2_version_check_outcome (fl : Flags) (env : Env) (s : St)
    (hx : env.experimentalLogin = true) (he : s.apiEndpoint ≠ "")
    (htg : env.setTargetResult = none) (hrl : env.reloadResult = none)
    (hg : env.uaaGrantType ≠ "client_credentials")
    (hsso : fl.sso = false) (hsp : s.ssoPasscode = "")
    (horg : fl.organization = "") (horgs : env.orgs.2 = .ok [])
    (hok : allOk s.inputs = true) (hfirst : s.authResults.head? = some none) :
    (∀ e, env.checkerResult = .error e → (execute fl env s).1 = some e)
    ∧ (∀ chk, env.checkerResult = .ok chk →
        (execute fl env s).1 = none
        ∧ (env.clientTooOld = true →
            Event.warning "Cloud Foundry API version is higher than CLI version"
              ∈ (execute fl env s).2.2)) := by
  have hnot : ¬ (fl.sso = true ∨ s.ssoPasscode ≠ "") := by simp [hsso, hsp]
  rcases ha : authenticate fl env.prompts s with ⟨ra, s', t⟩
  have hra := (authenticate_first_success fl env.prompts s hok hfirst).1
  rw [ha] at hra
  have hra' : ra = none := hra
  subst hra'
  have horg' := orgStage_zero fl env s' horg horgs
  rcases hv : checkMinCLIVersion env s' with ⟨rv, s₃, t₃⟩
  have hvr := checkMinCLIVersion_result env s'
  rw [hv] at hvr
  have hvr' : rv = (match env.checkerResult with | .error e => some e | .ok _ => none) := hvr
  have hmain : executeMain fl env s
      = (rv, s₃, t ++ ([.getOrgsCall] ++ warningEvents env.orgs.1) ++ t₃) := by
    simp [executeMain, hg, hnot, ha, horg', hv]
  have hx' := execute_normal fl env s hx he htg hrl
  constructor
  · intro e hce
    rw [hx']
    rw [hmain]
    simp only
    rw [hvr']
    simp [hce]
  · intro chk hce
    constructor
    · rw [hx']
      rw [hmain]
      simp only
      rw [hvr']
      simp [hce]
    · intro htold
      rw [hx']
      rw [hmain]
      have ht₃ : t₃ = [.newCheckerCall, .setMinCLI chk.minCLIVersion]
          ++ [.warning "Cloud Foundry API version is higher than CLI version"] := by
        have : (checkMinCLIVersion env s').2.2
            = [.newCheckerCall, .setMinCLI chk.minCLIVersion]
              ++ [.warning "Cloud Foundry API version is higher than CLI version"] := by
          simp [checkMinCLIVersion, hce, warnIfCLIVersionBelowAPIDefinedMinimum, htold]
        rw [hv] at this
        exact this
      simp [ht₃]

/-- The environment of the C2 witness: version check succeeds but the client
is too old. -/
def envTooOld : Env := { envBase with orgs := ([], .ok []), clientTooOld := true }

/-- Witness for C2 at concrete inputs: construction failure propagates the
error; a too-old client only warns and the run succeeds. -/
theorem c2_version_check_outcome_witness :
    ((execute flBase { envCheckFail with orgs := ([], .ok []) } sFirstSuccess).1
        = some (.other "version check client failed"))
    ∧ (execute flBase envTooOld sFirstSuccess).1 = none
    ∧ Event.warning "Cloud Foundry API version is higher than CLI version"
        ∈ (execute flBase envTooOld sFirstSuccess).2.2 := by
  refine ⟨?_, ?_, ?_⟩
  · exact (c2_version_check_outcome flBase { envCheckFail with orgs := ([], .ok []) } sFirstSuccess
      (by decide) (by decide) (by decide) (by decide) (by decide) (by decide) (by decide)
      (by decide) (by decide) (by decide) (by decide)).1 (.other "version check client failed") rfl
  · exact ((c2_version_check_outcome flBase envTooOld sFirstSuccess
      (by decide) (by decide) (by decide) (by decide) (by decide) (by decide) (by decide)
      (by decide) (by decide) (by decide) (by decide)).2 ⟨"6.40.0", "2.128.0"⟩ rfl).1
  · exact ((c2_version_check_outcome flBase envTooOld sFirstSuccess
      (by decide) (by decide) (by decide) (by decide) (by decide) (by decide) (by decide)
      (by decide) (by decide) (by decide) (by decide)).2 ⟨"6.40.0", "2.128.0"⟩ rfl).2 rfl

/-! ## Claim C4: the `--sso` / `--sso-passcode` mutual exclusion -/

/-- Events that interact with the user for credentials or with the
authentication service (prompt schema fetch, credential prompts, menu,
`Authenticate`). -/
def isInteractionEvent : Event → Bool
  | .authCall _ => true
  | .loginPromptsCall => true
  | .passwordPrompt _ => true
  | .textPrompt _ => true
  | .menuPrompt _ _ => true
  | _ => false

theorem showStatus_no_interaction (env : Env) (s : St) :
    ∀ e ∈ showStatus env s, isInteractionEvent e = false := by
  by_cases h₁ : env.currentUserName.1 = "" ∨ env.currentUserName.2.isSome
  · simp [showStatus, h₁, isInteractionEvent]
  · by_cases h₂ : s.targetedOrgName = ""
    · simp [showStatus, h₁, h₂, isInteractionEvent]
    · simp [showStatus, h₁, h₂, isInteractionEvent]

/-- The invocation with both SSO modes selected. -/
def flBothSSO : Flags := { flBase with sso := true, ssoPasscode := "one-time-code" }

/-- **C4 counterexample.** With both `--sso` and a passcode value supplied,
`Execute` does fail with the argument-combination configuration error — but
only after `SetTarget` has already been invoked on the actor, i.e. after the
target-setting network interaction, contradicting "before any network
interaction occurs". -/
theorem c4_error_after_target_network :
    (execute flBothSSO envBase (mkSt flBothSSO "" [] [])).1
        = some (.argumentCombination ["--sso-passcode", "--sso"])
    ∧ Event.setTargetCall "https://api.example.com" false
        ∈ (execute flBothSSO envBase (mkSt flBothSSO "" [] [])).2.2 := by
  refine ⟨by decide, by decide⟩

/-- **C4 (amended).** Whenever both the SSO flag and a non-empty SSO
passcode are supplied and the run reaches the flow selection (experimental
on, endpoint known, target applied, actor rebuilt, no service-account
grant), `Execute` fails with the argument-combination configuration error
before any credential prompt, prompt-schema fetch, menu, or `Authenticate`
call — but after the target-setting call, which has already gone out. -/
theorem c4_sso_mutual_exclusion (fl : Flags) (env : Env) (s : St)
    (hx : env.experimentalLogin = true) (he : s.apiEndpoint ≠ "")
    (htg : env.setTargetResult = none) (hrl : env.reloadResult = none)
    (hg : env.uaaGrantType ≠ "client_credentials")
    (hb₁ : fl.sso = true) (hb₂ : s.ssoPasscode ≠ "") :
    (execute fl env s).1 = some (.argumentCombination ["--sso-passcode", "--sso"])
    ∧ (∀ e ∈ (execute fl env s).2.2, isInteractionEvent e = false)
    ∧ Event.setTargetCall (computeTargetURL s.apiEndpoint)
        (env.configSkipSSL || fl.skipSSLValidation) ∈ (execute fl env s).2.2 := by
  have hmain : executeMain fl env s
      = (some (.argumentCombination ["--sso-passcode", "--sso"]), s, []) := by
    simp [executeMain, hg, hb₁, hb₂]
  have hx' := execute_normal fl env s hx he htg hrl
  rw [hmain] at hx'
  rw [hx']
  refine ⟨rfl, ?_, ?_⟩
  · simp only [List.append_nil]
    refine List.forall_mem_append.mpr ⟨?_, showStatus_no_interaction env s⟩
    refine List.forall_mem_append.mpr ⟨List.forall_mem_append.mpr
      ⟨List.forall_mem_append.mpr ⟨List.forall_mem_append.mpr ⟨?_, ?_⟩, ?_⟩, ?_⟩, ?_⟩ <;>
      simp [isInteractionEvent]
  · simp

/-- Witness for C4 at a concrete input. -/
theorem c4_sso_mutual_exclusion_witness :
    (execute flBothSSO envBase (mkSt flBothSSO "" [] [])).1
        = some (.argumentCombination ["--sso-passcode", "--sso"])
    ∧ (∀ e ∈ (execute flBothSSO envBase (mkSt flBothSSO "" [] [])).2.2,
        isInteractionEvent e = false) :=
  ⟨(c4_sso_mutual_exclusion flBothSSO envBase (mkSt flBothSSO "" [] [])
      (by decide) (by decide) (by decide) (by decide) (by decide) (by decide) (by decide)).1,
   (c4_sso_mutual_exclusion flBothSSO envBase (mkSt flBothSSO "" [] [])
      (by decide) (by decide) (by decide) (by decide) (by decide) (by decide) (by decide)).2.1⟩

/-! ## Claim C5: interactive read failures -/

theorem displayTextPrompt_err (label : String) (s : St) (e : GoError)
    (h : s.inputs.head? = some (.error e)) :
    displayTextPrompt label s = (.error e, { s with inputs := s.inputs.tail }, [.textPrompt label]) := by
  cases hin : s.inputs with
  | nil => rw [hin] at h; cases h
  | cons r rest =>
    rw [hin] at h
    simp only [List.head?_cons, Option.some.injEq] at h
    subst h
    simp [displayTextPrompt, hin]

theorem displayPasswordPrompt_err (label : String) (s : St) (e : GoError)
    (h : s.inputs.head? = some (.error e)) :
    displayPasswordPrompt label s
      = (.error e, { s with inputs := s.inputs.tail }, [.passwordPrompt label]) := by
  cases hin : s.inputs with
  | nil => rw [hin] at h; cases h
  | cons r rest =>
    rw [hin] at h
    simp only [List.head?_cons, Option.some.injEq] at h
    subst h
    simp [displayPasswordPrompt, hin]

/-- The invocation of `c5_read_error_collapsed`: interactive username
collection. -/
def flNoUser : Flags := { flBase with username := "" }

/-- A single failing read. -/
def sReadFail : St := mkSt flNoUser "" [.error (.other "read failed")] []

/-- **C5 counterexample.** A username-prompt read failure aborts the run
without any `Authenticate` call and `authenticate` returns it unchanged —
but the value `Execute` returns to its caller is the generic
`Unable to authenticate.` error, not the read error: the error is
reclassified, contradicting "propagated as-is to the caller of Execute". -/
theorem c5_read_error_collapsed :
    (authenticate flNoUser envBase.prompts sReadFail).1 = some (.other "read failed")
    ∧ (execute flNoUser envBase sReadFail).1 = some .unableToAuthenticate
    ∧ (.unableToAuthenticate : GoError) ≠ .other "read failed" := by
  refine ⟨by decide, by decide, by decide⟩

/-- **C5 (amended).** Any interactive read failure during credential
collection aborts the attempt immediately — shown for a failing username
read (the flow returns the error as-is with zero `Authenticate` calls) and
for a failing password read inside the retry loop (the loop aborts with the
error as-is and no further `Authenticate` call) — but `Execute` then
reports the generic `Unable to authenticate.` error to its caller instead
of the read error. -/
theorem c5_read_failure_propagation :
    (∀ (fl : Flags) (ps : List (String × AuthPrompt)) (s : St) (p : AuthPrompt) (e : GoError),
       List.lookup "username" ps = some p → ¬(p.type = .text ∧ fl.username ≠ "") →
       s.inputs.head? = some (.error e) →
       (authenticate fl ps s).1 = some e ∧ authCallCount (authenticate fl ps s).2.2 = 0)
    ∧ (∀ (ps : List (String × AuthPrompt)) (c : Credmap) (pks : List String)
         (f : Nat) (le : Option GoError) (s : St) (p : AuthPrompt) (e : GoError),
       List.lookup "password" ps = some p → s.password = "" →
       s.inputs.head? = some (.error e) →
       (authLoop ps c pks (f + 1) le s).1 = .error e
       ∧ authCallCount (authLoop ps c pks (f + 1) le s).2.2.2 = 0)
    ∧ (∀ (fl : Flags) (env : Env) (s : St) (e : GoError),
       env.experimentalLogin = true → s.apiEndpoint ≠ "" →
       env.setTargetResult = none → env.reloadResult = none →
       env.uaaGrantType ≠ "client_credentials" → fl.sso = false → s.ssoPasscode = "" →
       (authenticate fl env.prompts s).1 = some e →
       (execute fl env s).1 = some .unableToAuthenticate) := by
  refine ⟨?_, ?_, ?_⟩
  · intro fl ps s p e hl hc hr
    have hus : usernameStep fl.username ps [] s
        = (.error e, { s with inputs := s.inputs.tail }, [.textPrompt p.displayName]) := by
      simp [usernameStep, hl, if_neg hc, displayTextPrompt_err p.displayName s e hr]
    constructor
    · simp [authenticate, hus]
    · have hev : (authenticate fl ps s).2.2
          = [.loginPromptsCall] ++ [.textPrompt p.displayName] := by
        simp [authenticate, hus]
      rw [hev]
      simp [authCallCount, isAuthCall, List.filter]
  · intro ps c pks f le s p e hl hpw hr
    have hpw' : ¬ s.password ≠ "" := by simp [hpw]
    have hpp : passwordPrompts ps c pks (maxLoginTries - f) s
        = (.error e, { s with inputs := s.inputs.tail }, [.passwordPrompt p.displayName]) := by
      simp [passwordPrompts, hl, hpw', displayPasswordPrompt_err p.displayName s e hr]
    constructor
    · simp [authLoop, hpp]
    · have hev : (authLoop ps c pks (f + 1) le s).2.2.2 = [.passwordPrompt p.displayName] := by
        simp [authLoop, hpp]
      rw [hev]
      simp [authCallCount, isAuthCall, List.filter]
  · intro fl env s e hx he htg hrl hg hsso hsp ha
    have hnot : ¬ (fl.sso = true ∨ s.ssoPasscode ≠ "") := by simp [hsso, hsp]
    rcases ha' : authenticate fl env.prompts s with ⟨ra, s', t⟩
    rw [ha'] at ha
    have hra : ra = some e := ha
    subst hra
    have hmain : executeMain fl env s = (some .unableToAuthenticate, s', t) := by
      simp [executeMain, hg, hnot, ha']
    have hx' := execute_normal fl env s hx he htg hrl
    rw [hmain] at hx'
    rw [hx']

/-- Witness for C5 at a concrete input: the username read error comes out of
`authenticate` unchanged with no `Authenticate` call, and `Execute` reports
the generic failure. -/
theorem c5_read_failure_propagation_witness :
    ((authenticate flNoUser envBase.prompts sReadFail).1 = some (.other "read failed")
      ∧ authCallCount (authenticate flNoUser envBase.prompts sReadFail).2.2 = 0)
    ∧ (execute flNoUser envBase sReadFail).1 = some .unableToAuthenticate := by
  refine ⟨c5_read_failure_propagation.1 flNoUser envBase.prompts sReadFail
      ⟨.text, "Email"⟩ (.other "read failed") (by decide) (by decide) (by decide), ?_⟩
  exact c5_read_failure_propagation.2.2 flNoUser envBase sReadFail (.other "read failed")
    (by decide) (by decide) (by decide) (by decide) (by decide) (by decide) (by decide)
    (by decide)

/-! ## Claim C8: organization resolution without an explicit org flag -/

/-- Is the event a `SetOrganizationInformation` config write? -/
def isSetOrgInfo : Event → Bool
  | .setOrgInfo _ _ => true
  | _ => false

theorem displayTextMenu_err (choices : List String) (label : String) (s : St) (e : GoError)
    (h : s.inputs.head? = some (.error e)) :
    displayTextMenu choices label s
      = (.error e, { s with inputs := s.inputs.tail }, [.menuPrompt choices label]) := by
  cases hin : s.inputs with
  | nil => rw [hin] at h; cases h
  | cons r rest =>
    rw [hin] at h
    simp only [List.head?_cons, Option.some.injEq] at h
    subst h
    simp [displayTextMenu, hin]

/-- **C8.** Organization resolution without an explicit org flag: zero
organizations leave the org scope unresolved with no error; exactly one is
recorded automatically with no interactive call; with several, an
end-of-input signal from the menu leaves the scope unresolved with no
error, while any other menu read failure is fatal. -/
theorem c8_org_resolution (fl : Flags) (env : Env) (s : St)
    (ho : fl.organization = "") :
    (env.orgs.2 = .ok [] →
      (orgStage fl env s).1 = none
      ∧ (orgStage fl env s).2.1.targetedOrgName = s.targetedOrgName
      ∧ (∀ e ∈ (orgStage fl env s).2.2, isSetOrgInfo e = false ∧ isInteractionEvent e = false))
    ∧ (∀ o, env.orgs.2 = .ok [o] →
        (orgStage fl env s).1 = none
        ∧ (orgStage fl env s).2.1.targetedOrgName = o.name
        ∧ Event.setOrgInfo o.guid o.name ∈ (orgStage fl env s).2.2
        ∧ (∀ e ∈ (orgStage fl env s).2.2, isInteractionEvent e = false))
    ∧ (∀ o₁ o₂ rest, env.orgs.2 = .ok (o₁ :: o₂ :: rest) →
        s.inputs.head? = some (.error .eof) →
        (orgStage fl env s).1 = none
        ∧ (orgStage fl env s).2.1.targetedOrgName = s.targetedOrgName
        ∧ (∀ e ∈ (orgStage fl env s).2.2, isSetOrgInfo e = false))
    ∧ (∀ o₁ o₂ rest e, env.orgs.2 = .ok (o₁ :: o₂ :: rest) →
        s.inputs.head? = some (.error e) → e ≠ .eof →
        (orgStage fl env s).1 = some e) := by
  refine ⟨?_, ?_, ?_, ?_⟩
  · intro hr
    have hz := orgStage_zero fl env s ho hr
    rw [hz]
    refine ⟨rfl, rfl, ?_⟩
    refine List.forall_mem_append.mpr ⟨by simp [isSetOrgInfo, isInteractionEvent], ?_⟩
    intro e he
    obtain ⟨w, _, hw⟩ := List.mem_map.mp he
    rw [← hw]
    simp [isSetOrgInfo, isInteractionEvent]
  · intro o hr
    have hz : orgStage fl env s
        = (none, { s with targetedOrgName := o.name },
           ([.getOrgsCall] ++ warningEvents env.orgs.1) ++ [.setOrgInfo o.guid o.name]) := by
      simp [orgStage, ho, hr, setOrganizationInformation]
    rw [hz]
    refine ⟨rfl, rfl, by simp, ?_⟩
    refine List.forall_mem_append.mpr ⟨List.forall_mem_append.mpr
      ⟨by simp [isInteractionEvent], ?_⟩, by simp [isInteractionEvent]⟩
    intro e he
    obtain ⟨w, _, hw⟩ := List.mem_map.mp he
    rw [← hw]
    simp [isInteractionEvent]
  · intro o₁ o₂ rest hr hin
    have hmenu := displayTextMenu_err ((o₁ :: o₂ :: rest).map Organization.name) "Org" s .eof hin
    simp only [List.map_cons] at hmenu
    have hp : promptChosenOrg (o₁ :: o₂ :: rest) s
        = (.ok ⟨"", ""⟩, { s with inputs := s.inputs.tail },
           [.text "Select an org:"] ++ [.menuPrompt ((o₁ :: o₂ :: rest).map Organization.name) "Org"]) := by
      simp [promptChosenOrg, hmenu]
    have hz : orgStage fl env s
        = (none, { s with inputs := s.inputs.tail },
           ([.getOrgsCall] ++ warningEvents env.orgs.1)
             ++ ([.text "Select an org:"]
               ++ [.menuPrompt ((o₁ :: o₂ :: rest).map Organization.name) "Org"])) := by
      simp [orgStage, ho, hr, hp]
    rw [hz]
    refine ⟨rfl, rfl, ?_⟩
    refine List.forall_mem_append.mpr ⟨List.forall_mem_append.mpr
      ⟨by simp [isSetOrgInfo], ?_⟩, by simp [isSetOrgInfo]⟩
    intro e he
    obtain ⟨w, _, hw⟩ := List.mem_map.mp he
    rw [← hw]
    simp [isSetOrgInfo]
  · intro o₁ o₂ rest e hr hin hne
    have hmenu := displayTextMenu_err ((o₁ :: o₂ :: rest).map Organization.name) "Org" s e hin
    simp only [List.map_cons] at hmenu
    have hp : promptChosenOrg (o₁ :: o₂ :: rest) s
        = (.error e, { s with inputs := s.inputs.tail },
           [.text "Select an org:"] ++ [.menuPrompt ((o₁ :: o₂ :: rest).map Organization.name) "Org"]) := by
      simp [promptChosenOrg, hmenu, hne]
    simp [orgStage, ho, hr, hp]

/-- Witness for C8 at concrete inputs: zero orgs and one org without any
interactive call, decline and hard failure at the menu. -/
theorem c8_org_resolution_witness :
    ((orgStage flBase { envBase with orgs := ([], .ok []) } (mkSt flBase "" [] [])).1 = none)
    ∧ ((orgStage flBase envBase (mkSt flBase "" [] [])).1 = none
        ∧ Event.setOrgInfo "org-guid-1" "org1"
            ∈ (orgStage flBase envBase (mkSt flBase "" [] [])).2.2)
    ∧ ((orgStage flBase { envBase with orgs := ([], .ok [⟨"g1", "o1"⟩, ⟨"g2", "o2"⟩]) }
          (mkSt flBase "" [.error .eof] [])).1 = none)
    ∧ ((orgStage flBase { envBase with orgs := ([], .ok [⟨"g1", "o1"⟩, ⟨"g2", "o2"⟩]) }
          (mkSt flBase "" [.error (.other "menu failed")] [])).1
        = some (.other "menu failed")) := by
  refine ⟨?_, ?_, ?_, ?_⟩
  · exact ((c8_org_resolution flBase { envBase with orgs := ([], .ok []) }
      (mkSt flBase "" [] []) (by decide)).1 rfl).1
  · refine ⟨?_, ?_⟩
    · exact ((c8_org_resolution flBase envBase (mkSt flBase "" [] []) (by decide)).2.1
        ⟨"org-guid-1", "org1"⟩ rfl).1
    · exact ((c8_org_resolution flBase envBase (mkSt flBase "" [] []) (by decide)).2.1
        ⟨"org-guid-1", "org1"⟩ rfl).2.2.1
  · exact ((c8_org_resolution flBase { envBase with orgs := ([], .ok [⟨"g1", "o1"⟩, ⟨"g2", "o2"⟩]) }
      (mkSt flBase "" [.error .eof] []) (by decide)).2.2.1
      ⟨"g1", "o1"⟩ ⟨"g2", "o2"⟩ [] rfl (by decide)).1
  · exact (c8_org_resolution flBase { envBase with orgs := ([], .ok [⟨"g1", "o1"⟩, ⟨"g2", "o2"⟩]) }
      (mkSt flBase "" [.error (.other "menu failed")] []) (by decide)).2.2.2
      ⟨"g1", "o1"⟩ ⟨"g2", "o2"⟩ [] (.other "menu failed") rfl (by decide) (by decide)

/-! ## Claim C7: pre-supplied secrets are used at most once -/

/-- A non-interactive resolution of the prompt keyed `key`: the pre-supplied
flag value was placed into the credential set. -/
def flagUse (key : String) (x : String × Bool × Nat) : Bool :=
  decide (x.1 = key) && !x.2.1

theorem filter_flagUse_nil_of_interactive (key : String) (l : List (String × Bool × Nat))
    (h : ∀ x ∈ l, x.2.1 = true) : l.filter (flagUse key) = [] :=
  List.filter_eq_nil_iff.mpr fun x hx => by simp [flagUse, h x hx]

theorem filter_flagUse_nil_of_ne (key : String) (l : List (String × Bool × Nat))
    (h : ∀ x ∈ l, x.1 ≠ key) : l.filter (flagUse key) = [] :=
  List.filter_eq_nil_iff.mpr fun x hx => by simp [flagUse, h x hx]

/-- **C7.** Within one run, a pre-supplied password (password flow) or
one-time passcode (SSO flow) enters the submitted credential set
non-interactively on at most one attempt, and that attempt is the first
one; every `password`/`passcode` resolution on attempt 2 or later is
collected interactively (the flag value is cleared after its single use). -/
theorem c7_presupplied_secret_once (fl : Flags) (ps : List (String × AuthPrompt)) (s : St) :
    (((resolvesOf (authenticate fl ps s).2.2).filter (flagUse "password")).length ≤ 1
      ∧ (∀ x ∈ resolvesOf (authenticate fl ps s).2.2,
          x.1 = "password" → x.2.1 = false → x.2.2 = 1)
      ∧ (∀ x ∈ resolvesOf (authenticate fl ps s).2.2,
          x.1 = "password" → 2 ≤ x.2.2 → x.2.1 = true))
    ∧ (((resolvesOf (authenticateSSO ps s).2.2).filter (flagUse "passcode")).length ≤ 1
      ∧ (∀ x ∈ resolvesOf (authenticateSSO ps s).2.2,
          x.1 = "passcode" → x.2.1 = false → x.2.2 = 1)
      ∧ (∀ x ∈ resolvesOf (authenticateSSO ps s).2.2,
          x.1 = "passcode" → 2 ≤ x.2.2 → x.2.1 = true)) := by
  constructor
  · -- password flow
    rcases authenticate_decomp fl ps s with
        ⟨e₀, s', t, hus, hq⟩
      | ⟨creds, s₁, t₁, e₀, s₂, t₂, hus, hct, hq⟩
      | ⟨creds, s₁, t₁, creds', pks, s₂, t₂, r, c₃, s₃, t₃, hus, hct, hal, hq⟩
    · rw [hq]
      have hu := usernameStep_resolves fl.username ps [] s
      rw [hus] at hu
      have hu' : ∀ x ∈ resolvesOf t, x.1 = "username" ∧ x.2.2 = 0 := hu
      have hres : resolvesOf ([Event.loginPromptsCall] ++ t) = resolvesOf t := by
        simp [resolvesOf_append]
        simp [resolvesOf]
      rw [hres]
      have hne : ∀ x ∈ resolvesOf t, x.1 ≠ "password" := fun x hx => by
        rw [(hu' x hx).1]
        simp
      refine ⟨?_, ?_, ?_⟩
      · rw [filter_flagUse_nil_of_ne _ _ hne]
        simp
      · intro x hx h₁ _
        exact absurd h₁ (hne x hx)
      · intro x hx h₁ _
        exact absurd h₁ (hne x hx)
    · rw [hq]
      have hu := usernameStep_resolves fl.username ps [] s
      rw [hus] at hu
      have hu' : ∀ x ∈ resolvesOf t₁, x.1 = "username" ∧ x.2.2 = 0 := hu
      have hc := collectTextPrompts_resolves ps creds [] s₁
      rw [hct] at hc
      have hc' : ∀ x ∈ resolvesOf t₂,
          x.2.2 = 0 ∧ x.2.1 = true ∧ x.1 ≠ "username"
            ∧ ∃ p, (x.1, p) ∈ ps ∧ p.type ≠ .password := hc
      have hres : resolvesOf ([Event.loginPromptsCall] ++ t₁ ++ t₂)
          = resolvesOf t₁ ++ resolvesOf t₂ := by
        simp [resolvesOf_append]
        simp [resolvesOf]
      rw [hres]
      have hint : ∀ x ∈ resolvesOf t₁ ++ resolvesOf t₂,
          x.1 = "password" → x.2.1 = true := by
        intro x hx h₁
        rcases List.mem_append.mp hx with hx | hx
        · rw [(hu' x hx).1] at h₁
          exact absurd h₁ (by decide)
        · exact (hc' x hx).2.1
      have hatt : ∀ x ∈ resolvesOf t₁ ++ resolvesOf t₂, x.2.2 = 0 := by
        intro x hx
        rcases List.mem_append.mp hx with hx | hx
        · exact (hu' x hx).2
        · exact (hc' x hx).1
      refine ⟨?_, ?_, ?_⟩
      · have : (resolvesOf t₁ ++ resolvesOf t₂).filter (flagUse "password") = [] :=
          List.filter_eq_nil_iff.mpr fun x hx => by
            by_cases h₁ : x.1 = "password"
            · simp [flagUse, h₁, hint x hx h₁]
            · simp [flagUse, h₁]
        rw [this]
        simp
      · intro x hx h₁ h₂
        rw [hint x hx h₁] at h₂
        cases h₂
      · intro x hx h₁ _
        exact hint x hx h₁
    · rw [hq]
      have hu := usernameStep_resolves fl.username ps [] s
      rw [hus] at hu
      have hu' : ∀ x ∈ resolvesOf t₁, x.1 = "username" ∧ x.2.2 = 0 := hu
      have hc := collectTextPrompts_resolves ps creds [] s₁
      rw [hct] at hc
      have hc' : ∀ x ∈ resolvesOf t₂,
          x.2.2 = 0 ∧ x.2.1 = true ∧ x.1 ≠ "username"
            ∧ ∃ p, (x.1, p) ∈ ps ∧ p.type ≠ .password := hc
      have hpks := collectTextPrompts_pks ps creds [] s₁ creds' pks s₂ t₂ hct
      have hpks' : "password" ∉ pks := by
        intro hmem
        rcases hpks "password" hmem with h₁ | ⟨p, _, _, h₂, _⟩
        · cases h₁
        · exact h₂ rfl
      have hs₁ := usernameStep_state fl.username ps [] s
      rw [hus] at hs₁
      have hs₂ := collectTextPrompts_state ps creds [] s₁
      rw [hct] at hs₂
      have hpw₂ : s₂.password = s.password := by
        rw [inputsOnly_password hs₂, inputsOnly_password hs₁]
      have hres : resolvesOf ([Event.loginPromptsCall] ++ t₁ ++ t₂ ++ t₃)
          = (resolvesOf t₁ ++ resolvesOf t₂) ++ resolvesOf t₃ := by
        simp [resolvesOf_append]
        simp [resolvesOf]
      rw [hres]
      have hpre : ∀ x ∈ resolvesOf t₁ ++ resolvesOf t₂,
          (x.1 = "password" → x.2.1 = true) ∧ x.2.2 = 0 := by
        intro x hx
        rcases List.mem_append.mp hx with hx | hx
        · refine ⟨fun h₁ => ?_, (hu' x hx).2⟩
          rw [(hu' x hx).1] at h₁
          exact absurd h₁ (by decide)
        · exact ⟨fun _ => (hc' x hx).2.1, (hc' x hx).1⟩
      have hprefilter : (resolvesOf t₁ ++ resolvesOf t₂).filter (flagUse "password") = [] :=
        List.filter_eq_nil_iff.mpr fun x hx => by
          by_cases h₁ : x.1 = "password"
          · simp [flagUse, h₁, (hpre x hx).1 h₁]
          · simp [flagUse, h₁]
      by_cases hpw : s.password = ""
      · have hloop := authLoop_interactive_of_empty ps pks maxLoginTries creds' none s₂
          (by rw [hpw₂, hpw])
        rw [hal] at hloop
        have hloop' : ∀ x ∈ resolvesOf t₃, x.2.1 = true := hloop
        refine ⟨?_, ?_, ?_⟩
        · rw [List.filter_append, hprefilter,
            filter_flagUse_nil_of_interactive _ _ hloop']
          simp
        · intro x hx h₁ h₂
          rcases List.mem_append.mp hx with hx | hx
          · rw [(hpre x hx).1 h₁] at h₂
            cases h₂
          · rw [hloop' x hx] at h₂
            cases h₂
        · intro x hx h₁ _
          rcases List.mem_append.mp hx with hx | hx
          · exact (hpre x hx).1 h₁
          · exact hloop' x hx
      · cases hl : List.lookup "password" ps with
        | none =>
          have hloop := authLoop_no_password_key ps pks hl hpks' maxLoginTries creds' none s₂
          rw [hal] at hloop
          have hloop' : ∀ x ∈ resolvesOf t₃, x.1 ≠ "password" := hloop
          refine ⟨?_, ?_, ?_⟩
          · rw [List.filter_append, hprefilter, filter_flagUse_nil_of_ne _ _ hloop']
            simp
          · intro x hx h₁ h₂
            rcases List.mem_append.mp hx with hx | hx
            · rw [(hpre x hx).1 h₁] at h₂
              cases h₂
            · exact absurd h₁ (hloop' x hx)
          · intro x hx h₁ _
            rcases List.mem_append.mp hx with hx | hx
            · exact (hpre x hx).1 h₁
            · exact absurd h₁ (hloop' x hx)
        | some p =>
          have hpw₂' : s₂.password ≠ "" := by rw [hpw₂]; exact hpw
          obtain ⟨restL, hflag, hintL⟩ :=
            authLoop_flag ps pks p hl 2 creds' none s₂ hpw₂'
          have hal' : authLoop ps creds' pks (2 + 1) none s₂ = (r, c₃, s₃, t₃) := hal
          rw [hal'] at hflag
          have hflag' : resolvesOf t₃ = ("password", false, 1) :: restL := hflag
          refine ⟨?_, ?_, ?_⟩
          · rw [List.filter_append, hprefilter, hflag']
            have hone : (("password", false, 1) :: restL).filter (flagUse "password")
                = ("password", false, 1) :: restL.filter (flagUse "password") := by
              simp [flagUse, List.filter]
            rw [hone, filter_flagUse_nil_of_interactive _ _ hintL]
            simp
          · intro x hx h₁ h₂
            rcases List.mem_append.mp hx with hx | hx
            · rw [(hpre x hx).1 h₁] at h₂
              cases h₂
            · rw [hflag'] at hx
              rcases List.mem_cons.mp hx with h₃ | hx
              · rw [h₃]
              · rw [hintL x hx] at h₂
                cases h₂
          · intro x hx h₁ h₂
            rcases List.mem_append.mp hx with hx | hx
            · exact (hpre x hx).1 h₁
            · rw [hflag'] at hx
              rcases List.mem_cons.mp hx with h₃ | hx
              · rw [h₃] at h₂
                simp at h₂
              · exact hintL x hx
  · -- SSO flow
    rcases hsl : ssoLoop ps [] maxLoginTries none s with ⟨r, c', s', t⟩
    have hres : resolvesOf (authenticateSSO ps s).2.2 = resolvesOf t := by
      cases r with
      | error e₀ =>
        have hev : (authenticateSSO ps s).2.2 = [.loginPromptsCall] ++ t := by
          simp [authenticateSSO, hsl]
        rw [hev]
        simp [resolvesOf_append]
        simp [resolvesOf]
      | ok le =>
        have hev : (authenticateSSO ps s).2.2 = [.loginPromptsCall] ++ t := by
          simp [authenticateSSO, hsl]
        rw [hev]
        simp [resolvesOf_append]
        simp [resolvesOf]
    rw [hres]
    by_cases hsso : s.ssoPasscode = ""
    · have hloop := ssoLoop_interactive_of_empty ps maxLoginTries [] none s hsso
      rw [hsl] at hloop
      have hloop' : ∀ x ∈ resolvesOf t, x.2.1 = true := hloop
      refine ⟨?_, ?_, ?_⟩
      · rw [filter_flagUse_nil_of_interactive _ _ hloop']
        simp
      · intro x hx _ h₂
        rw [hloop' x hx] at h₂
        cases h₂
      · intro x hx _ _
        exact hloop' x hx
    · obtain ⟨restL, hflag, hintL⟩ := ssoLoop_flag ps 2 [] none s hsso
      have hsl' : ssoLoop ps [] (2 + 1) none s = (r, c', s', t) := hsl
      rw [hsl'] at hflag
      have hflag' : resolvesOf t = ("passcode", false, 1) :: restL := hflag
      refine ⟨?_, ?_, ?_⟩
      · rw [hflag']
        have hone : (("passcode", false, 1) :: restL).filter (flagUse "passcode")
            = ("passcode", false, 1) :: restL.filter (flagUse "passcode") := by
          simp [flagUse, List.filter]
        rw [hone, filter_flagUse_nil_of_interactive _ _ hintL]
        simp
      · intro x hx _ h₂
        rw [hflag'] at hx
        rcases List.mem_cons.mp hx with h₃ | hx
        · rw [h₃]
        · rw [hintL x hx] at h₂
          cases h₂
      · intro x hx _ h₂
        rw [hflag'] at hx
        rcases List.mem_cons.mp hx with h₃ | hx
        · rw [h₃] at h₂
          simp at h₂
        · exact hintL x hx

/-- The spec's two-attempt scenario: pre-supplied password used on attempt
1, attempt 1 fails generically, attempt 2 succeeds with a freshly prompted
password. -/
def sTwoAttempts : St :=
  mkSt flBase "" [.ok "123456", .ok "654321", .ok "pw2"] [some (.other "bad creds"), none]

/-- Witness for C7 at concrete inputs: at most one non-interactive
`password`/`passcode` use across both flows' runs. -/
theorem c7_presupplied_secret_once_witness :
    ((resolvesOf (authenticate flBase envBase.prompts sTwoAttempts).2.2).filter
        (flagUse "password")).length ≤ 1
    ∧ ((resolvesOf (authenticateSSO envSSORun.prompts sSSOLocked).2.2).filter
        (flagUse "passcode")).length ≤ 1 :=
  ⟨(c7_presupplied_secret_once flBase envBase.prompts sTwoAttempts).1.1,
   (c7_presupplied_secret_once flSSORun envSSORun.prompts sSSOLocked).2.1⟩

/-! ## Claim C6: prompt-resolution ordering of the password flow -/

/-- **C6.** For every credential schema, the resolutions of one password-flow
run split into a pre-loop segment and the loop segment: the pre-loop segment
holds `username` (resolved first whenever the schema declares it, and
necessarily interactively unless its declared kind is text and `-u` was
supplied) and the non-secret non-`username` prompts; the loop segment holds
only `password` and the other secret-kind prompts (never `passcode`), and
within each single attempt `password` is resolved before any other secret —
regardless of the order in which the server declares the prompts. -/
theorem c6_prompt_ordering (fl : Flags) (ps : List (String × AuthPrompt)) (s : St) :
    ∃ pre loopR, resolvesOf (authenticate fl ps s).2.2 = pre ++ loopR
      ∧ (∀ x ∈ pre, x.2.2 = 0
          ∧ (x.1 = "username" ∨ (x.1 ≠ "username" ∧ ∃ p, (x.1, p) ∈ ps ∧ p.type = .text)))
      ∧ ((List.lookup "username" ps).isSome = true →
          ∀ x, (pre ++ loopR).head? = some x → x.1 = "username")
      ∧ (∀ p, List.lookup "username" ps = some p → ¬(p.type = .text ∧ fl.username ≠ "") →
          ∀ x ∈ pre, x.2.1 = true)
      ∧ (∀ x ∈ loopR, 1 ≤ x.2.2
          ∧ (x.1 = "password"
             ∨ (x.1 ≠ "password" ∧ x.1 ≠ "passcode"
                ∧ ∃ p, (x.1, p) ∈ ps ∧ p.type = .password)))
      ∧ (∀ a : Nat, passwordFirst (loopR.filter (fun x => x.2.2 == a))) := by
  rcases authenticate_decomp fl ps s with
      ⟨e₀, s', t, hus, hq⟩
    | ⟨creds, s₁, t₁, e₀, s₂, t₂, hus, hct, hq⟩
    | ⟨creds, s₁, t₁, creds', pks, s₂, t₂, r, c₃, s₃, t₃, hus, hct, hal, hq⟩
  · -- username read failed: no resolutions at all
    have hshape := usernameStep_err_shape fl.username ps [] s e₀ s' t hus
    refine ⟨[], [], ?_, by simp, by simp, by simp, by simp, by simp [passwordFirst]⟩
    rw [hq]
    simp only
    rw [resolvesOf_append]
    rw [hshape]
    simp [resolvesOf]
  · -- a text-prompt read failed: only pre-loop resolutions
    have hu := usernameStep_resolves fl.username ps [] s
    rw [hus] at hu
    have hu' : ∀ x ∈ resolvesOf t₁, x.1 = "username" ∧ x.2.2 = 0 := hu
    have hc := collectTextPrompts_resolves ps creds [] s₁
    rw [hct] at hc
    have hc' : ∀ x ∈ resolvesOf t₂,
        x.2.2 = 0 ∧ x.2.1 = true ∧ x.1 ≠ "username"
          ∧ ∃ p, (x.1, p) ∈ ps ∧ p.type ≠ .password := hc
    refine ⟨resolvesOf t₁ ++ resolvesOf t₂, [], ?_, ?_, ?_, ?_, by simp, by simp [passwordFirst]⟩
    · rw [hq]
      simp only
      rw [resolvesOf_append, resolvesOf_append]
      simp [resolvesOf]
    · intro x hx
      rcases List.mem_append.mp hx with hx | hx
      · exact ⟨(hu' x hx).2, Or.inl (hu' x hx).1⟩
      · obtain ⟨h₁, _, h₃, p, hp, hp'⟩ := hc' x hx
        refine ⟨h₁, Or.inr ⟨h₃, p, hp, ?_⟩⟩
        cases hpt : p.type with
        | text => rfl
        | password => exact absurd hpt hp'
    · intro hl x hx
      obtain ⟨b, hb⟩ := usernameStep_ok_shape fl.username ps [] s hl creds s₁ t₁ hus
      have hb' : resolvesOf t₁ = [("username", b, 0)] := hb
      rw [List.append_nil, hb'] at hx
      simp only [List.cons_append, List.head?_cons, Option.some.injEq] at hx
      rw [← hx]
    · intro p hl hcnd x hx
      rcases List.mem_append.mp hx with hx | hx
      · exact usernameStep_interactive fl.username ps [] s p hl hcnd x (by rw [hus]; exact hx)
      · exact (hc' x hx).2.1
  · -- full run: pre-loop segment plus loop segment
    have hu := usernameStep_resolves fl.username ps [] s
    rw [hus] at hu
    have hu' : ∀ x ∈ resolvesOf t₁, x.1 = "username" ∧ x.2.2 = 0 := hu
    have hc := collectTextPrompts_resolves ps creds [] s₁
    rw [hct] at hc
    have hc' : ∀ x ∈ resolvesOf t₂,
        x.2.2 = 0 ∧ x.2.1 = true ∧ x.1 ≠ "username"
          ∧ ∃ p, (x.1, p) ∈ ps ∧ p.type ≠ .password := hc
    have hpks := collectTextPrompts_pks ps creds [] s₁ creds' pks s₂ t₂ hct
    have hpks' : "password" ∉ pks := by
      intro hmem
      rcases hpks "password" hmem with h₁ | ⟨p, _, _, h₂, _⟩
      · cases h₁
      · exact h₂ rfl
    have hlr := authLoop_resolves ps pks maxLoginTries creds' none s₂ (le_refl _)
    rw [hal] at hlr
    have hlr' : ∀ x ∈ resolvesOf t₃,
        (x.1 = "password" ∨ x.1 ∈ pks)
          ∧ maxLoginTries - maxLoginTries < x.2.2 ∧ x.2.2 ≤ maxLoginTries := hlr
    have hfilt := authLoop_attempt_filter ps pks hpks' maxLoginTries creds' none s₂ (le_refl _)
    refine ⟨resolvesOf t₁ ++ resolvesOf t₂, resolvesOf t₃, ?_, ?_, ?_, ?_, ?_, ?_⟩
    · rw [hq]
      simp only
      rw [resolvesOf_append, resolvesOf_append, resolvesOf_append]
      simp [resolvesOf]
    · intro x hx
      rcases List.mem_append.mp hx with hx | hx
      · exact ⟨(hu' x hx).2, Or.inl (hu' x hx).1⟩
      · obtain ⟨h₁, _, h₃, p, hp, hp'⟩ := hc' x hx
        refine ⟨h₁, Or.inr ⟨h₃, p, hp, ?_⟩⟩
        cases hpt : p.type with
        | text => rfl
        | password => exact absurd hpt hp'
    · intro hl x hx
      obtain ⟨b, hb⟩ := usernameStep_ok_shape fl.username ps [] s hl creds s₁ t₁ hus
      have hb' : resolvesOf t₁ = [("username", b, 0)] := hb
      rw [hb'] at hx
      simp only [List.cons_append, List.head?_cons, Option.some.injEq] at hx
      rw [← hx]
    · intro p hl hcnd x hx
      rcases List.mem_append.mp hx with hx | hx
      · exact usernameStep_interactive fl.username ps [] s p hl hcnd x (by rw [hus]; exact hx)
      · exact (hc' x hx).2.1
    · intro x hx
      obtain ⟨hk, hlow, hup⟩ := hlr' x hx
      refine ⟨by omega, ?_⟩
      rcases hk with hk | hk
      · exact Or.inl hk
      · rcases hpks x.1 hk with h₁ | ⟨p, hp, hp', hp₂, hp₃⟩
        · cases h₁
        · exact Or.inr ⟨hp₂, hp₃, p, hp, hp'⟩
    · intro a
      have := hfilt a
      rw [hal] at this
      exact this

/-- Witness for C6: the ordering decomposition at the concrete three-prompt
schema and two-attempt run. -/
theorem c6_prompt_ordering_witness :
    ∃ pre loopR,
      resolvesOf (authenticate flBase envBase.prompts sTwoAttempts).2.2 = pre ++ loopR
      ∧ (∀ x ∈ pre, x.2.2 = 0
          ∧ (x.1 = "username"
             ∨ (x.1 ≠ "username" ∧ ∃ p, (x.1, p) ∈ envBase.prompts ∧ p.type = .text)))
      ∧ ((List.lookup "username" envBase.prompts).isSome = true →
          ∀ x, (pre ++ loopR).head? = some x → x.1 = "username")
      ∧ (∀ p, List.lookup "username" envBase.prompts = some p →
          ¬(p.type = .text ∧ flBase.username ≠ "") → ∀ x ∈ pre, x.2.1 = true)
      ∧ (∀ x ∈ loopR, 1 ≤ x.2.2
          ∧ (x.1 = "password"
             ∨ (x.1 ≠ "password" ∧ x.1 ≠ "passcode"
                ∧ ∃ p, (x.1, p) ∈ envBase.prompts ∧ p.type = .password)))
      ∧ (∀ a : Nat, passwordFirst (loopR.filter (fun x => x.2.2 == a))) :=
  c6_prompt_ordering flBase envBase.prompts sTwoAttempts

end LoginCmd
